import Mathlib

/-!
# CPURT: conversion of compiled-kernel results and the `cpurt.execute` kernel

A shallow embedding of `backends/cpu/include/tfrt/cpu/jit/cpurt.h` and
`backends/cpu/lib/jit/cpurt_kernels.cc`.

* MLIR types are a small inductive type (`MlirType`); a memref type carries its
  shape and element type, its rank is the length of the shape.
* `RemainingResults` is the array of result slots of a kernel call; a slot is
  empty or holds an async value (unconstructed placeholder, concrete value, or
  error).
* `void*` pointers are an abstract type `π`; the conversion result type
  (`Converter::ResultType`) is an abstract type `ρ`.
* Side effects are explicit state passing; an assertion failure (out-of-range
  index, failed `cast<>`) is the outcome `none`.
-/

set_option autoImplicit false

namespace Cpurt

/-! ## MLIR types -/

/-- Element types of shaped types, printed the way MLIR prints them. -/
inductive ElementType where
  | f16
  | bf16
  | f32
  | f64
  | int (width : Nat)
  | index
  deriving DecidableEq, Repr

/-- `mlir::Type::isF32`. -/
def ElementType.isF32 : ElementType → Bool
  | .f32 => true
  | _ => false

/-- Textual form of an element type, as streamed by `StrCat`. -/
def ElementType.print : ElementType → String
  | .f16 => "f16"
  | .bf16 => "bf16"
  | .f32 => "f32"
  | .f64 => "f64"
  | .int w => "i" ++ toString w
  | .index => "index"

/-- `mlir::MemRefType`: a shape (a negative entry is a dynamic dimension) and an
element type. -/
structure MemRefType where
  shape : List Int
  elementType : ElementType
  deriving DecidableEq, Repr

/-- `MemRefType::getRank`. The rank is the number of dimensions; it is far below
`2^63`, so the `int64_t` it is stored in never wraps. -/
def MemRefType.getRank (m : MemRefType) : Nat := m.shape.length

/-- `MemRefType::getElementType`. -/
def MemRefType.getElementType (m : MemRefType) : ElementType := m.elementType

/-- One dimension of a shape in MLIR text form. -/
def printDim (d : Int) : String := if d < 0 then "?" else toString d

/-- Textual form of a memref type, e.g. `memref<4x?xf32>`. -/
def MemRefType.print (m : MemRefType) : String :=
  "memref<" ++ String.join (m.shape.map (fun d => printDim d ++ "x")) ++ m.elementType.print ++ ">"

/-- The part of `mlir::Type` the runtime distinguishes. -/
inductive MlirType where
  | memref (m : MemRefType)
  | asyncToken
  | asyncValue (valueType : MlirType)
  | scalar (e : ElementType)
  | tensor (shape : List Int) (e : ElementType)
  deriving DecidableEq, Repr

/-- `type.dyn_cast<mlir::MemRefType>()`: `none` is the null type. -/
def MlirType.dyn_cast_MemRefType : MlirType → Option MemRefType
  | .memref m => some m
  | _ => none

/-- `type.cast<mlir::MemRefType>()`: `none` is the failed assertion. -/
def MlirType.cast_MemRefType : MlirType → Option MemRefType
  | .memref m => some m
  | _ => none

/-- `type.dyn_cast<mlir::async::ValueType>()` followed by `getValueType()`:
`none` is the null type, otherwise the wrapped value type is returned. -/
def MlirType.dyn_cast_ValueType : MlirType → Option MlirType
  | .asyncValue t => some t
  | _ => none

/-- Textual form of a type, as streamed by `StrCat`. -/
def MlirType.print : MlirType → String
  | .memref m => m.print
  | .asyncToken => "!async.token"
  | .asyncValue t => "!async.value<" ++ t.print ++ ">"
  | .scalar e => e.print
  | .tensor shape e =>
    "tensor<" ++ String.join (shape.map (fun d => printDim d ++ "x")) ++ e.print ++ ">"

/-- `mlir::LogicalResult`. -/
inductive LogicalResult where
  | success
  | failure
  deriving DecidableEq, Repr

/-! ## Result slots -/

/-- State of a `tfrt::AsyncValue` held in a result slot. -/
inductive AsyncValue (ρ : Type) where
  | unconstructed
  | concrete (value : ρ)
  | error (message : String)
  deriving DecidableEq, Repr

/-- `RemainingResults`: the result slots of one kernel call, `none` for a slot
that has not been set. -/
abbrev RemainingResults (ρ : Type) := List (Option (AsyncValue ρ))

/-- Modelled from the spec: `RemainingResults::EmplaceAt` (kernel_utils.h is not
part of the sources), the primitive "resolve with value": slot `index` becomes
an available async value holding `value`. -/
def EmplaceAt {ρ : Type} (results : RemainingResults ρ) (index : Nat) (value : ρ) :
    RemainingResults ρ :=
  results.set index (some (.concrete value))

/-- Modelled from the spec: `RemainingResults::EmitErrorAt` (kernel_utils.h is
not part of the sources), the primitive "resolve with error": slot `index`
becomes an error async value carrying `message`. -/
def EmitErrorAt {ρ : Type} (results : RemainingResults ρ) (index : Nat) (message : String) :
    RemainingResults ρ :=
  results.set index (some (.error message))

/-- Modelled from the spec: `RemainingResults::AllocateAt` (kernel_utils.h is not
part of the sources), the primitive "allocate placeholder": slot `index` becomes
an unconstructed async value. -/
def AllocateAt {ρ : Type} (results : RemainingResults ρ) (index : Nat) : RemainingResults ρ :=
  results.set index (some .unconstructed)

/-! ## The converter concept and the plain memref rule -/

/-- C++ type tags passed to `rank_dispatch` (`float{}` is the only one the
source passes). -/
inductive TypeTag where
  | float
  | double
  | int32
  | int64
  deriving DecidableEq, Repr

/-- The `Converter` concept: `ResultType` is `ρ`, and
`Converter::Convert<T, rank>(void*)` is `Convert T rank`. -/
structure Converter (ρ π : Type) where
  Convert : TypeTag → Nat → π → ρ

/-- `ReturnStridedMemref<Converter>(results, result_index, type, result_ptr)`.
Returns the logical result together with the result slots after the call. -/
def ReturnStridedMemref {ρ π : Type} (C : Converter ρ π) (results : RemainingResults ρ)
    (result_index : Nat) (type : MlirType) (result_ptr : π) :
    LogicalResult × RemainingResults ρ :=
  -- Check if the type is a valid memref.
  match type.dyn_cast_MemRefType with
  | none => (.failure, results)
  | some memref =>
    -- Dispatch to the correct extract function based on rank.
    let rank_dispatch := fun (T : TypeTag) =>
      let rank := memref.getRank
      let convert_and_emplace := fun (rank_tag : Nat) =>
        EmplaceAt results result_index (C.Convert T rank_tag result_ptr)
      if rank = 0 then convert_and_emplace 0
      else if rank = 1 then convert_and_emplace 1
      else if rank = 2 then convert_and_emplace 2
      else if rank = 3 then convert_and_emplace 3
      else if rank = 4 then convert_and_emplace 4
      else if rank = 5 then convert_and_emplace 5
      else EmitErrorAt results result_index ("unsupported returned memref rank: " ++ toString rank)
    -- Dispatch based on the memref element type.
    let element_type := memref.getElementType
    if element_type.isF32 then (.success, rank_dispatch .float)
    else
      (.success, EmitErrorAt results result_index
        ("unsupported returned memref element type: " ++ element_type.print))

/-! ## Asynchronous results -/

/-- A continuation registered on a compiled-code async value: when `value`
completes, `emplace_fn` is applied to its storage pointer and the destination
async value held in result slot `dst`. -/
structure Continuation (ρ π : Type) where
  value : π
  dst : Nat
  emplace_fn : π → AsyncValue ρ → AsyncValue ρ

/-- One native argument slot of a call frame: a data pointer, an integer, or a
pointer into the call frame result storage at a byte offset. -/
inductive ArgSlot where
  | pointer (address : Nat)
  | integer (value : Int)
  | result (offset : Nat)
  deriving DecidableEq, Repr

/-- The state the conversion functions act on: the result slots of the call,
the continuations registered with the async runtime, and the log of native
invocations (the argument list of each call of the compiled function). -/
structure HostState (ρ π : Type) where
  results : RemainingResults ρ
  continuations : List (Continuation ρ π)
  native_calls : List (List ArgSlot)

/-- `internal::Emplace<Converter, T, rank>(memref_ptr, dst)`: the destination
becomes a concrete value `Converter::Convert<T, rank>(memref_ptr)`. -/
def internal.Emplace {ρ π : Type} (C : Converter ρ π) (T : TypeTag) (rank : Nat)
    (memref_ptr : π) (_dst : AsyncValue ρ) : AsyncValue ρ :=
  .concrete (C.Convert T rank memref_ptr)

/-- Modelled from the spec: `ExtractAsyncValue` (async_runtime_api.h is not part
of the sources), the primitive "register continuation on completion": it does
not wait, it records that `emplace_fn` resolves `dst` once `value` completes. -/
def ExtractAsyncValue {ρ π : Type} (s : HostState ρ π) (value : π) (dst : Nat)
    (emplace_fn : π → AsyncValue ρ → AsyncValue ρ) : HostState ρ π :=
  { s with continuations := s.continuations ++ [⟨value, dst, emplace_fn⟩] }

/-- `ReturnAsyncStridedMemref<Converter>(results, result_index, type, result_ptr)`.
`load` reads the pointer stored in the result slot
(`*reinterpret_cast<void**>(result_ptr)`). The outcome `none` is the failed
assertion of `cast<mlir::MemRefType>()`. -/
def ReturnAsyncStridedMemref {ρ π : Type} (C : Converter ρ π) (load : π → π)
    (s : HostState ρ π) (result_index : Nat) (type : MlirType) (result_ptr : π) :
    Option (LogicalResult × HostState ρ π) :=
  match type.dyn_cast_ValueType with
  | none => some (.failure, s)
  | some value_type =>
    -- Load the pointer to the async value from a pointer to result storage.
    let value := load result_ptr
    -- We already verified that return value is an async value of memref.
    match value_type.cast_MemRefType with
    | none => none
    | some memref =>
      -- Allocate constructed async value to be returned to the caller.
      let dst := fun (_ : Unit) =>
        ({ s with results := AllocateAt s.results result_index }, result_index)
      -- Dispatch to the correct extract function based on rank.
      let rank_dispatch := fun (T : TypeTag) =>
        let rank := memref.getRank
        if rank = 0 then ExtractAsyncValue (dst ()).1 value (dst ()).2 (internal.Emplace C T 0)
        else if rank = 1 then ExtractAsyncValue (dst ()).1 value (dst ()).2 (internal.Emplace C T 1)
        else if rank = 2 then ExtractAsyncValue (dst ()).1 value (dst ()).2 (internal.Emplace C T 2)
        else if rank = 3 then ExtractAsyncValue (dst ()).1 value (dst ()).2 (internal.Emplace C T 3)
        else if rank = 4 then ExtractAsyncValue (dst ()).1 value (dst ()).2 (internal.Emplace C T 4)
        else if rank = 5 then ExtractAsyncValue (dst ()).1 value (dst ()).2 (internal.Emplace C T 5)
        else
          { s with results := (EmitErrorAt s.results result_index
              ("unsupported returned memref rank: " ++ toString rank)) }
      -- Dispatch based on the memref element type.
      let element_type := memref.getElementType
      if element_type.isF32 then some (.success, rank_dispatch .float)
      else
        some (.success, { s with results := (EmitErrorAt s.results result_index
          ("unsupported returned memref element type: " ++ element_type.print)) })

/-- Modelled from the spec: what a registered continuation does when the async
value it waits on completes (async_runtime_api.h is not part of the sources):
the destination slot is resolved by `emplace_fn` applied to the storage of the
completed value, or the upstream error is propagated into it. -/
def runContinuation {ρ π : Type} (results : RemainingResults ρ) (k : Continuation ρ π)
    (outcome : Except String π) : RemainingResults ρ :=
  match outcome with
  | .error message => results.set k.dst (some (.error message))
  | .ok storage =>
    results.set k.dst (some (k.emplace_fn storage ((results.getD k.dst none).getD .unconstructed)))

/-- Modelled from the spec: completion of the compiled-code async value `value`
(async_runtime_api.h is not part of the sources): every continuation registered
on it runs, in registration order, and leaves the registry. -/
def AsyncValueCompleted {ρ π : Type} [DecidableEq π] (s : HostState ρ π) (value : π)
    (outcome : Except String π) : HostState ρ π :=
  { s with
    results := (s.continuations.filter (fun k => decide (k.value = value))).foldl
      (fun r k => runContinuation r k outcome) s.results
    continuations := s.continuations.filter (fun k => !decide (k.value = value)) }

/-! ## Return value converter -/

/-- `ReturnValueConverter::ConversionCallbackFn`:
`mlir::LogicalResult(RemainingResults, unsigned, mlir::Type, void*)`. The
callback acts on the host state; `none` is an assertion failure inside it. -/
abbrev ConversionCallbackFn (ρ π : Type) :=
  HostState ρ π → Nat → MlirType → π → Option (LogicalResult × HostState ρ π)

/-- `ReturnValueConverter`: the registered conversion callbacks, in registration
order. The member `results_` is the result array of the host state the
converter is run on. -/
structure ReturnValueConverter (ρ π : Type) where
  conversion_callbacks_ : List (ConversionCallbackFn ρ π)

/-- `ReturnValueConverter::ReturnValueConverter(results)`: no callbacks. -/
def ReturnValueConverter.new {ρ π : Type} : ReturnValueConverter ρ π := ⟨[]⟩

/-- `ReturnValueConverter::AddConversion`:
`conversion_callbacks_.emplace_back(callback)`. -/
def ReturnValueConverter.AddConversion {ρ π : Type} (c : ReturnValueConverter ρ π)
    (callback : ConversionCallbackFn ρ π) : ReturnValueConverter ρ π :=
  { c with conversion_callbacks_ := c.conversion_callbacks_ ++ [callback] }

/-- A function of the shape of `ReturnStridedMemref`, acting on the result slots
only, used as a conversion callback. -/
def asCallback {ρ π : Type}
    (rule : RemainingResults ρ → Nat → MlirType → π → LogicalResult × RemainingResults ρ) :
    ConversionCallbackFn ρ π :=
  fun s result_index type ret =>
    some ((rule s.results result_index type ret).1,
      { s with results := (rule s.results result_index type ret).2 })

/-- Outcome of `ReturnValue`: the logical result, the host state after the call
and, as a record of what ran, the registration positions (0 is the first
callback added) of the callbacks invoked, in invocation order. -/
structure ReturnValueOutcome (ρ π : Type) where
  result : LogicalResult
  state : HostState ρ π
  invoked : List Nat

/-- Modelled from the spec: the loop of `ReturnValueConverter::ReturnValue`
(cpurt.cc is not part of the sources) over the callbacks still to try: a
callback that returns success stops the loop ("handled"), one that returns
failure passes to the next ("not applicable"). -/
def tryConversions {ρ π : Type} (result_index : Nat) (type : MlirType) (ret : π) :
    List (Nat × ConversionCallbackFn ρ π) → HostState ρ π → Option (ReturnValueOutcome ρ π)
  | [], s => some ⟨.failure, s, []⟩
  | (k, convert) :: rest, s =>
    match convert s result_index type ret with
    | none => none
    | some (.success, s1) => some ⟨.success, s1, [k]⟩
    | some (.failure, s1) =>
      match tryConversions result_index type ret rest s1 with
      | none => none
      | some out => some { out with invoked := k :: out.invoked }

/-- Modelled from the spec: `ReturnValueConverter::ReturnValue` (cpurt.cc is not
part of the sources). The callbacks are tried most recently added first; if
none handles the type the slot is resolved to an error naming the type and the
call returns failure. -/
def ReturnValueConverter.ReturnValue {ρ π : Type} (c : ReturnValueConverter ρ π)
    (s : HostState ρ π) (result_index : Nat) (type : MlirType) (ret : π) :
    Option (ReturnValueOutcome ρ π) :=
  match tryConversions result_index type ret c.conversion_callbacks_.enum.reverse s with
  | none => none
  | some out =>
    match out.result with
    | .success => some out
    | .failure =>
      some { out with
        state := { out.state with
          results := (EmitErrorAt out.state.results result_index
            ("unsupported return type: " ++ type.print)) } }

/-! ## Compiled kernels, call frames and the execution context -/

/-- `MemrefDesc`: data pointer (an address), offset, sizes and strides. -/
structure MemrefDesc where
  data : Nat
  offset : Int
  sizes : List Int
  strides : List Int
  deriving DecidableEq, Repr

/-- `mlir::FunctionType`: the entrypoint signature. -/
structure FunctionType where
  inputs : List MlirType
  results : List MlirType
  deriving DecidableEq, Repr

/-- `FunctionType::getNumInputs`. -/
def FunctionType.getNumInputs (signature : FunctionType) : Nat := signature.inputs.length

/-- `FunctionType::getInput(i)`: `none` is the failed bounds assertion of an
index at or beyond the number of inputs. -/
def FunctionType.getInput (signature : FunctionType) (i : Nat) : Option MlirType :=
  signature.inputs.get? i

/-- `FunctionType::getNumResults`. -/
def FunctionType.getNumResults (signature : FunctionType) : Nat := signature.results.length

/-- `CompilationResult::ResultsMemoryLayout`. -/
structure ResultsMemoryLayout where
  has_async_results : Bool
  size : Nat
  offsets : List Nat
  deriving DecidableEq, Repr

/-- `CompilationResult::CallFrame`: the packed arguments and the bytes of the
result storage. -/
structure CallFrame where
  args : List ArgSlot
  results : List Nat
  deriving DecidableEq, Repr

/-- `CompilationResult`: the verified signature, the compiled function and the
result layout. The compiled function `fptr_` is given by what it leaves in the
result storage of the call frame it is invoked on. -/
structure CompilationResult where
  signature_ : FunctionType
  fptr_ : CallFrame → List Nat
  results_memory_layout_ : ResultsMemoryLayout

/-- `CompilationResult::signature`. -/
def CompilationResult.signature (cr : CompilationResult) : FunctionType := cr.signature_

/-- `CompilationResult::IsAsync`. -/
def CompilationResult.IsAsync (cr : CompilationResult) : Bool :=
  cr.results_memory_layout_.has_async_results

/-- `RequestContext`: `cancel_value_` is `none` for the null pointer, otherwise
the cancellation error. -/
structure RequestContext where
  cancel_value_ : Option String
  deriving DecidableEq, Repr

/-- `RequestContext::GetCancelAsyncValue`. -/
def RequestContext.GetCancelAsyncValue (r : RequestContext) : Option String := r.cancel_value_

/-- `RequestContext::IsCancelled`: the pointer converted to `bool`. -/
def RequestContext.IsCancelled (r : RequestContext) : Bool := r.GetCancelAsyncValue.isSome

/-- `ExecutionContext`: the request context and the location. -/
structure ExecutionContext where
  request_ctx_ : RequestContext
  location_ : Int
  deriving DecidableEq, Repr

/-- `ExecutionContext::location`. -/
def ExecutionContext.location (e : ExecutionContext) : Int := e.location_

/-- `ExecutionContext::IsCancelled`. -/
def ExecutionContext.IsCancelled (e : ExecutionContext) : Bool := e.request_ctx_.IsCancelled

/-- `ExecutionContext::GetCancelAsyncValue`. -/
def ExecutionContext.GetCancelAsyncValue (e : ExecutionContext) : Option String :=
  e.request_ctx_.GetCancelAsyncValue

/-- Modelled from the spec: `EmitErrors(results, error, exec_ctx)` (declared in
cpurt.h, its body in cpurt.cc is not part of the sources): "constructs error
async value from the error and returns it for all results". -/
def EmitErrors {ρ π : Type} (s : HostState ρ π) (error : String) (_exec_ctx : ExecutionContext) :
    HostState ρ π :=
  { s with results := s.results.map (fun _ => some (.error error)) }

/-! ## The `cpurt.execute` kernel -/

/-- The functions of the CPURT support library that the kernels call and whose
bodies (cpurt.cc) are not part of the sources; the kernels are embedded over an
arbitrary implementation of them. `τ` is the type of tensor operands. -/
structure CpurtLibrary (ρ π τ : Type) where
  ConvertTensorToMemrefDesc : MemRefType → τ → Except String MemrefDesc
  ReturnAsyncToken : ConversionCallbackFn ρ π
  ReturnAsyncMemrefAsDenseHostTensor : ConversionCallbackFn ρ π
  Execute : CompilationResult → List MemrefDesc → ReturnValueConverter ρ π → ExecutionContext →
    HostState ρ π → Option (Option String × HostState ρ π)

/-- The loop of `ConvertTensorOperandsToMemrefDesc` from operand index `i` on:
`operands` are the operands not yet converted, `memrefs` the descriptors pushed
so far. The outcome `none` is the failed bounds assertion of
`signature.getInput(i)`. -/
def ConvertTensorOperandsToMemrefDesc.loop {ρ π τ : Type} (lib : CpurtLibrary ρ π τ)
    (signature : FunctionType) :
    List τ → Nat → List MemrefDesc → Option (Except String (List MemrefDesc))
  | [], _, memrefs => some (.ok memrefs)
  | operand :: operands, i, memrefs =>
    match signature.getInput i with
    | none => none
    | some input =>
      match input.dyn_cast_MemRefType with
      | none =>
        some (.error ("expected memref operand at #" ++ toString i ++ ", got: " ++ input.print))
      | some memref_ty =>
        match lib.ConvertTensorToMemrefDesc memref_ty operand with
        | .error err => some (.error err)
        | .ok memref =>
          ConvertTensorOperandsToMemrefDesc.loop lib signature operands (i + 1) (memrefs ++ [memref])

/-- `ConvertTensorOperandsToMemrefDesc(signature, operands, &memrefs)` called
with empty `memrefs`: the error, or the descriptors on success. -/
def ConvertTensorOperandsToMemrefDesc {ρ π τ : Type} (lib : CpurtLibrary ρ π τ)
    (signature : FunctionType) (operands : List τ) : Option (Except String (List MemrefDesc)) :=
  ConvertTensorOperandsToMemrefDesc.loop lib signature operands 0 []

/-- State of a call of the `cpurt.execute` kernel: the host state and the
continuations registered by `RunWhenReady`, each given by the result slots it
waits for and the operands it keeps alive. -/
structure KernelState (ρ π τ : Type) where
  host : HostState ρ π
  run_when_ready : List (List Nat × List τ)

/-- The `cpurt.execute` kernel
`Execute(compilation_result, in_chain, operands, results, exec_ctx)`; the
results are those of the host state, `in_chain` is not used by the body. -/
def Execute {ρ π τ : Type} (lib : CpurtLibrary ρ π τ) (compilation_result : CompilationResult)
    (operands : List τ) (s : KernelState ρ π τ) (exec_ctx : ExecutionContext) :
    Option (KernelState ρ π τ) :=
  -- Extract Memrefs from Tensor operands.
  match ConvertTensorOperandsToMemrefDesc lib compilation_result.signature operands with
  | none => none
  | some (.error err) => some { s with host := EmitErrors s.host err exec_ctx }
  | some (.ok memrefs) =>
    -- If execution failed errors will be automatically allocated for all results.
    let converter := (ReturnValueConverter.new.AddConversion
      lib.ReturnAsyncMemrefAsDenseHostTensor).AddConversion lib.ReturnAsyncToken
    match lib.Execute compilation_result memrefs converter exec_ctx s.host with
    | none => none
    | some (some _, host) => some { s with host := host }
    | some (none, host) =>
      -- Keep operands alive if we have unavailable results.
      some { host := host
             run_when_ready := s.run_when_ready ++ [(List.range host.results.length, operands)] }

/-! ## The support library, modelled from the spec -/

/-- Modelled from the spec: `VerifyMemrefOperand` (declared in cpurt.h, its body
in cpurt.cc is not part of the sources): the descriptor has the rank of the
type, and every statically known dimension equals the runtime size; dynamic
dimensions are not checked. `none` is success. -/
def VerifyMemrefOperand (type : MemRefType) (memref : MemrefDesc) : Option String :=
  if memref.sizes.length ≠ type.getRank then
    some ("operand rank does not match expected input rank: " ++ toString memref.sizes.length ++
      " vs " ++ toString type.getRank)
  else if (type.shape.zip memref.sizes).all (fun ds => decide (ds.1 < 0) || decide (ds.1 = ds.2)) then
    none
  else
    some ("operand dimensions do not match the expected input type: " ++ type.print)

/-- A dense host tensor: the address of its buffer and its shape. -/
structure DenseHostTensor where
  data : Nat
  shape : List Int
  deriving DecidableEq, Repr

/-- A `tfrt::Tensor` operand: a dense host tensor, or a tensor of another kind. -/
inductive Tensor where
  | dense (t : DenseHostTensor)
  | other (tensor_type : String)
  deriving DecidableEq, Repr

/-- Row-major strides of a shape. -/
def rowMajorStrides : List Int → List Int
  | [] => []
  | _ :: dims => dims.prod :: rowMajorStrides dims

/-- Modelled from the spec: `ConvertTensorToMemrefDesc` (declared in cpurt.h, its
body in cpurt.cc is not part of the sources): "converts tfrt Tensor to the
Memref Descriptor and verifies that the Tensor value is compatible with the
memref type". -/
def ConvertTensorToMemrefDesc (type : MemRefType) (tensor : Tensor) : Except String MemrefDesc :=
  match tensor with
  | .dense dht =>
    let memref : MemrefDesc :=
      { data := dht.data, offset := 0, sizes := dht.shape, strides := rowMajorStrides dht.shape }
    match VerifyMemrefOperand type memref with
    | some err => .error err
    | none => .ok memref
  | .other tensor_type => .error ("unsupported tensor type: " ++ tensor_type)

/-- The memory the conversions read through `void*` pointers: `load` reads a
pointer stored at a pointer, `result_ptr` is the address of a byte offset in
result storage with the given contents, `memref_at` reads the strided memref
descriptor of a given rank stored at a pointer. -/
structure Memory (π : Type) where
  load : π → π
  result_ptr : List Nat → Nat → π
  memref_at : π → Nat → MemrefDesc

/-- Error of a call whose operand count differs from the number of inputs. -/
def operandCountMismatch (num_operands num_inputs : Nat) : String :=
  "number of operands must match the number of inputs: " ++ toString num_operands ++ " vs " ++
    toString num_inputs

/-- Modelled from the spec: the operand check of the call frame builder, from
operand position `i` on: the first operand whose input type is not a buffer or
does not match its descriptor yields a positional error. `none` is success. -/
def verifyOperands : List MlirType → List MemrefDesc → Nat → Option String
  | input :: inputs, operand :: operands, i =>
    match input.dyn_cast_MemRefType with
    | none => some ("operand #" ++ toString i ++ " is not a memref: " ++ input.print)
    | some type =>
      match VerifyMemrefOperand type operand with
      | some err => some ("operand #" ++ toString i ++ ": " ++ err)
      | none => verifyOperands inputs operands (i + 1)
  | _, _, _ => none

/-- Native argument slots of one descriptor: base pointer, offset, one entry per
size, one entry per stride. -/
def packMemref (memref : MemrefDesc) : List ArgSlot :=
  [.pointer memref.data, .integer memref.offset] ++ memref.sizes.map .integer ++
    memref.strides.map .integer

/-- Modelled from the spec: `CompilationResult::InitializeCallFrame` (declared in
cpurt.h, its body in cpurt.cc is not part of the sources): the operand count
must equal the number of inputs and every operand must match its input type;
then the operands are packed and a zero-initialized result storage of
`layout.size` bytes is added, with one output slot per declared result. -/
def CompilationResult.InitializeCallFrame (cr : CompilationResult) (operands : List MemrefDesc) :
    Except String CallFrame :=
  if operands.length ≠ cr.signature_.getNumInputs then
    .error (operandCountMismatch operands.length cr.signature_.getNumInputs)
  else
    match verifyOperands cr.signature_.inputs operands 0 with
    | some err => .error err
    | none =>
      .ok { args := (operands.map packMemref).flatten ++ cr.results_memory_layout_.offsets.map .result
            results := List.replicate cr.results_memory_layout_.size 0 }

/-- Modelled from the spec: the loop of `CompilationResult::ReturnResults`
(cpurt.cc is not part of the sources): every declared result is passed to the
converter with the pointer to its place in result storage; a failed conversion
does not stop the loop. `converted` tells whether all conversions so far
succeeded; `none` is an out-of-range offset or an assertion failure inside a
conversion. -/
def CompilationResult.ReturnResults.loop {ρ π : Type} (mem : Memory π) (cr : CompilationResult)
    (results : ReturnValueConverter ρ π) (call_frame : CallFrame) :
    List (Nat × MlirType) → HostState ρ π → Bool → Option (Bool × HostState ρ π)
  | [], s, converted => some (converted, s)
  | (i, type) :: rest, s, converted =>
    match cr.results_memory_layout_.offsets.get? i with
    | none => none
    | some offset =>
      match results.ReturnValue s i type (mem.result_ptr call_frame.results offset) with
      | none => none
      | some out =>
        CompilationResult.ReturnResults.loop mem cr results call_frame rest out.state
          (converted && decide (out.result = .success))

/-- Modelled from the spec: `CompilationResult::ReturnResults` (declared in
cpurt.h, its body in cpurt.cc is not part of the sources). Returns the error
(`none` is success) and the host state. -/
def CompilationResult.ReturnResults {ρ π : Type} (mem : Memory π) (cr : CompilationResult)
    (results : ReturnValueConverter ρ π) (call_frame : CallFrame) (s : HostState ρ π) :
    Option (Option String × HostState ρ π) :=
  match CompilationResult.ReturnResults.loop mem cr results call_frame
      cr.signature_.results.enum s true with
  | none => none
  | some (true, s1) => some (none, s1)
  | some (false, s1) => some (some "failed to convert all returned values", s1)

/-- Modelled from the spec: `CompilationResult::Execute(operands, results,
exec_ctx)` (declared in cpurt.h, its body in cpurt.cc is not part of the
sources): build the call frame, and on failure resolve every result to the
error without invoking the compiled function; otherwise invoke the compiled
function on the frame and convert the results. -/
def CompilationResult.Execute {ρ π : Type} (mem : Memory π) (cr : CompilationResult)
    (operands : List MemrefDesc) (results : ReturnValueConverter ρ π)
    (exec_ctx : ExecutionContext) (s : HostState ρ π) : Option (Option String × HostState ρ π) :=
  match cr.InitializeCallFrame operands with
  | .error err => some (some err, EmitErrors s err exec_ctx)
  | .ok call_frame =>
    cr.ReturnResults mem results { call_frame with results := cr.fptr_ call_frame }
      { s with native_calls := s.native_calls ++ [call_frame.args] }

/-- Values delivered by the `cpurt.execute` kernel: a chain (completion signal)
or a dense host tensor. -/
inductive HostValue where
  | chain
  | tensor (t : DenseHostTensor)
  deriving DecidableEq, Repr

/-- Modelled from the spec: the converter of the dense host tensor rules
(cpurt.cc is not part of the sources): the tensor is built from the descriptor
fields stored at the pointer. -/
def ConvertDenseHostTensor {π : Type} (mem : Memory π) : Converter HostValue π :=
  ⟨fun _ rank memref_ptr =>
    .tensor { data := (mem.memref_at memref_ptr rank).data
              shape := (mem.memref_at memref_ptr rank).sizes }⟩

/-- Modelled from the spec: `ReturnAsyncToken` (declared in cpurt.h, its body in
cpurt.cc is not part of the sources): for an async token it allocates the
destination chain and registers a continuation on the token that resolves it. -/
def ReturnAsyncToken {π : Type} (mem : Memory π) : ConversionCallbackFn HostValue π :=
  fun s result_index type result_ptr =>
    match type with
    | .asyncToken =>
      some (.success,
        ExtractAsyncValue { s with results := AllocateAt s.results result_index }
          (mem.load result_ptr) result_index (fun _ _ => .concrete .chain))
    | _ => some (.failure, s)

/-- Modelled from the spec: `ReturnAsyncMemrefAsDenseHostTensor` (declared in
cpurt.h, its body in cpurt.cc is not part of the sources): the async memref
rule with the dense host tensor converter. -/
def ReturnAsyncMemrefAsDenseHostTensor {π : Type} (mem : Memory π) :
    ConversionCallbackFn HostValue π :=
  ReturnAsyncStridedMemref (ConvertDenseHostTensor mem) mem.load

/-- Modelled from the spec: `ReturnMemrefAsDenseHostTensor` (declared in cpurt.h,
its body in cpurt.cc is not part of the sources): the plain memref rule with
the dense host tensor converter. -/
def ReturnMemrefAsDenseHostTensor {π : Type} (mem : Memory π) :
    ConversionCallbackFn HostValue π :=
  asCallback (ReturnStridedMemref (ConvertDenseHostTensor mem))

/-- The support library as modelled from the spec, over a memory `mem`. -/
def specLibrary {π : Type} (mem : Memory π) : CpurtLibrary HostValue π Tensor where
  ConvertTensorToMemrefDesc := ConvertTensorToMemrefDesc
  ReturnAsyncToken := ReturnAsyncToken mem
  ReturnAsyncMemrefAsDenseHostTensor := ReturnAsyncMemrefAsDenseHostTensor mem
  Execute := CompilationResult.Execute mem

/-- The 8-byte little-endian word stored at a byte offset of a storage. -/
def readWord (storage : List Nat) (offset : Nat) : Nat :=
  (List.range 8).foldr (fun k acc => storage.getD (offset + k) 0 % 256 + 256 * acc) 0

/-- A 64-bit word read as a signed integer. -/
def toInt64 (w : Nat) : Int := if w < 2 ^ 63 then (w : Int) else (w : Int) - 2 ^ 64

/-- The memory of pointers that carry their bytes: a strided memref descriptor
is laid out as base pointer, data pointer, offset, sizes, strides. -/
def viewMemory : Memory (List Nat × Nat) where
  load p := ([], readWord p.1 p.2)
  result_ptr storage offset := (storage, offset)
  memref_at p rank :=
    { data := readWord p.1 (p.2 + 8)
      offset := toInt64 (readWord p.1 (p.2 + 16))
      sizes := (List.range rank).map (fun d => toInt64 (readWord p.1 (p.2 + 24 + 8 * d)))
      strides := (List.range rank).map (fun d => toInt64 (readWord p.1 (p.2 + 24 + 8 * rank + 8 * d))) }

/-- Example converter: dense host tensors read through `viewMemory`. -/
def exampleConverter : Converter HostValue (List Nat × Nat) := ConvertDenseHostTensor viewMemory

/-- Example memref type `memref<4x4xf32>`. -/
def memref_4x4xf32 : MemRefType := ⟨[4, 4], .f32⟩

/-- Example memref type of rank 7, `memref<1x1x1x1x1x1x1xf32>`. -/
def memref_rank7_f32 : MemRefType := ⟨[1, 1, 1, 1, 1, 1, 1], .f32⟩

/-- Example memref type `memref<4x4xf64>`. -/
def memref_4x4xf64 : MemRefType := ⟨[4, 4], .f64⟩

/-- Example host state: slot 0 empty, slot 1 holding a chain. -/
def exampleState : HostState HostValue (List Nat × Nat) :=
  ⟨[none, some (.concrete .chain)], [], []⟩

/-- Example compiled kernel with signature
`(memref<4x4xf32>, memref<4x4xf32>) -> !async.token`, whose compiled function
leaves the result storage as it is. -/
def exampleCompilationResult : CompilationResult where
  signature_ := ⟨[.memref memref_4x4xf32, .memref memref_4x4xf32], [.asyncToken]⟩
  fptr_ := fun call_frame => call_frame.results
  results_memory_layout_ := ⟨true, 8, [0]⟩

/-- Example compiled kernel with signature `(tensor<4x4xf32>) -> !async.token`,
whose only input is not a memref. -/
def exampleTensorInputResult : CompilationResult where
  signature_ := ⟨[.tensor [4, 4] .f32], [.asyncToken]⟩
  fptr_ := fun call_frame => call_frame.results
  results_memory_layout_ := ⟨true, 8, [0]⟩

/-- Example kernel state: one empty result slot, nothing registered. -/
def exampleKernelState : KernelState HostValue (List Nat × Nat) Tensor :=
  ⟨⟨[none], [], []⟩, []⟩

/-- Example execution context: not cancelled, location 0. -/
def exampleContext : ExecutionContext := ⟨⟨none⟩, 0⟩

/-- Example descriptor of a dense 4x4 buffer at address 0. -/
def exampleMemrefDesc : MemrefDesc := ⟨0, 0, [4, 4], [4, 1]⟩

/-- Example operand: a dense host tensor of shape 4x4. -/
def tensor_4x4 : Tensor := .dense ⟨0, [4, 4]⟩

/-- Example operand: a dense host tensor of shape 4 (rank 1). -/
def tensor_4 : Tensor := .dense ⟨0, [4]⟩

/-- Example converter: the one the `cpurt.execute` kernel builds, over
`viewMemory`. -/
def exampleKernelConverter : ReturnValueConverter HostValue (List Nat × Nat) :=
  (ReturnValueConverter.new.AddConversion
    (ReturnAsyncMemrefAsDenseHostTensor viewMemory)).AddConversion (ReturnAsyncToken viewMemory)

/-! ## Signature verification, modelled from the spec -/

/-- Size in bytes of a pointer, `sizeof(void*)`; cpurt.h asserts that
`uintptr_t` has the size of `int64_t`. -/
def pointerSize : Nat := 8

/-- The least multiple of `alignment` that is not below `size`. -/
def alignTo (size alignment : Nat) : Nat := (size + alignment - 1) / alignment * alignment

/-- Classes of result types the runtime accepts: a plain buffer, an
asynchronous completion token, an asynchronous buffer. -/
inductive ResultClass where
  | buffer
  | token
  | asyncBuffer
  deriving DecidableEq, Repr

/-- Modelled from the spec: classification of a result type by the signature
verifier (cpurt.cc is not part of the sources); `none` is an unrecognized
type. -/
def classifyResult : MlirType → Option ResultClass
  | .memref _ => some .buffer
  | .asyncToken => some .token
  | .asyncValue (.memref _) => some .asyncBuffer
  | _ => none

/-- Whether a result of the class is delivered asynchronously. -/
def ResultClass.isAsync : ResultClass → Bool
  | .buffer => false
  | .token => true
  | .asyncBuffer => true

/-- Modelled from the spec: the operand check of the signature verifier
(cpurt.cc is not part of the sources), from operand position `i` on: only
buffer types are accepted, anything else is rejected with an error naming the
position. `none` is success. -/
def verifyInputs : List MlirType → Nat → Option String
  | [], _ => none
  | type :: rest, i =>
    match type.dyn_cast_MemRefType with
    | some _ => verifyInputs rest (i + 1)
    | none => some ("unknown operand #" ++ toString i ++ " argument ABI: " ++ type.print)

/-- Bytes of result storage a result of a given type occupies. A plain memref is
stored inline as a `StridedMemRefType<T, rank>`, which is what
`ReturnStridedMemref` hands to `Converter::Convert<T, rank>` (cpurt.h, the
`Converter` concept and the comment of `CallFrame`: "strided memrefs which at
runtime are represented as StridedMemrefType<T, rank>", "result storage for
pointers and memref sizes and strides (int64_t type)"): base pointer, data
pointer, offset, `rank` sizes and `rank` strides. An async token or an async
value is stored as a pointer. -/
def resultStorageSize : MlirType → Nat
  | .memref m => 2 * pointerSize + 8 + 2 * m.getRank * 8
  | _ => pointerSize

/-- Modelled from the spec: the result loop of the signature verifier (cpurt.cc
is not part of the sources), from result position `i` on, with the layout
computed so far: every accepted result is placed at the next naturally aligned
offset, and an asynchronous result sets `has_async_results`; an unrecognized
result type is rejected. The storage a result occupies is
`resultStorageSize`, which follows cpurt.h. -/
def verifyResults : List MlirType → Nat → ResultsMemoryLayout → Except String ResultsMemoryLayout
  | [], _, layout => .ok layout
  | type :: rest, i, layout =>
    match classifyResult type with
    | none => .error ("unknown result #" ++ toString i ++ " argument ABI: " ++ type.print)
    | some cls =>
      verifyResults rest (i + 1)
        { has_async_results := layout.has_async_results || cls.isAsync
          size := alignTo layout.size pointerSize + resultStorageSize type
          offsets := layout.offsets ++ [alignTo layout.size pointerSize] }

/-- Modelled from the spec: `CompilationResult::VerifyEntrypointSignature`
(declared in cpurt.h, its body in cpurt.cc is not part of the sources): reject
the signature or return the layout of the results. -/
def CompilationResult.VerifyEntrypointSignature (signature : FunctionType) :
    Except String ResultsMemoryLayout :=
  match verifyInputs signature.inputs 0 with
  | some err => .error err
  | none => verifyResults signature.results 0 ⟨false, 0, []⟩

/-! ## The compilation cache and the `cpurt.compile` kernel -/

/-- `CompilationResultCache`: the entries of `cache_`, each a key and the handle
(`AsyncValueRef<CompilationResult>`) stored for it. -/
structure CompilationResultCache where
  cache_ : List (Int × AsyncValue CompilationResult)

/-- `CompilationResultCache::CompilationResultCache(host)`: no entries. -/
def CompilationResultCache.new : CompilationResultCache := ⟨[]⟩

/-- Modelled from the spec: `CompilationResultCache::Find` (declared `const` in
cpurt.h, its body in cpurt.cc is not part of the sources): the handle stored
for the key, or `none` (a null handle) when the key is absent. -/
def CompilationResultCache.Find (c : CompilationResultCache) (key : Int) :
    Option (AsyncValue CompilationResult) :=
  (c.cache_.find? (fun e => decide (e.1 = key))).map Prod.snd

/-- Modelled from the spec: `CompilationResultCache::Insert` (declared in
cpurt.h, its body in cpurt.cc is not part of the sources): the result that
arrives first for a key is installed as an available handle, a result arriving
for a key that has an entry is discarded; the canonical handle of the key is
returned. -/
def CompilationResultCache.Insert (c : CompilationResultCache) (key : Int)
    (compilation_result : CompilationResult) :
    CompilationResultCache × AsyncValue CompilationResult :=
  match c.Find key with
  | some handle => (c, handle)
  | none =>
    ({ cache_ := c.cache_ ++ [(key, .concrete compilation_result)] },
      .concrete compilation_result)

/-- An operation on the cache, performed under its mutex. -/
inductive CacheOp where
  | find (key : Int)
  | insert (key : Int) (compilation_result : CompilationResult)

/-- The cache after one operation. -/
def CompilationResultCache.apply (c : CompilationResultCache) : CacheOp → CompilationResultCache
  | .find _ => c
  | .insert key compilation_result => (c.Insert key compilation_result).1

/-- The cache after a sequence of operations on a fresh cache. -/
def CompilationResultCache.run (ops : List CacheOp) : CompilationResultCache :=
  ops.foldl CompilationResultCache.apply CompilationResultCache.new

/-- A cache whose keys are pairwise distinct and whose handles are all
available. -/
def CompilationResultCache.WellFormed (c : CompilationResultCache) : Prop :=
  (c.cache_.map Prod.fst).Nodup ∧ ∀ e ∈ c.cache_, ∃ cr, e.2 = AsyncValue.concrete cr

/-- `CompilationUnitAttribute`: the nested symbols and the serialized module. -/
structure CompilationUnitAttribute where
  nested_symbols : List String
  serialized_operation : String
  deriving DecidableEq, Repr

/-- `CompilationOptions`, the fields with a plain value. -/
structure CompilationOptions where
  alignment : Int
  num_worker_threads : Int
  deriving DecidableEq, Repr

/-- `HostContext`, as far as `Compile` reads it: `GetNumWorkerThreads()`. -/
structure HostContext where
  num_worker_threads : Int
  deriving DecidableEq, Repr

/-- State of the `cpurt.compile` kernel: the resource `"cpurt.cache"` of the
resource context (`none` until it is created), and the log of the calls of
`CompileKernelMlirModule` (module, entrypoint, options). -/
structure CompileState where
  resource_context : Option CompilationResultCache
  compiler_calls : List (String × String × CompilationOptions)

/-- `ResourceContext::GetOrCreateResource<CompilationResultCache>("cpurt.cache",
host)`: the cache of the resource context, created empty when missing. -/
def GetOrCreateResource (resource_context : Option CompilationResultCache) :
    CompilationResultCache :=
  match resource_context with
  | some cache => cache
  | none => CompilationResultCache.new

/-- The `cpurt.compile` kernel `Compile(kernel, exec_ctx)`. The compiler
`CompileKernelMlirModule` (declared in cpurt.h) is a parameter; `host` is
`exec_ctx.host()` and the resource context of `exec_ctx` is held by the state.
Returns the async value handed back and the state after the call. -/
def Compile
    (CompileKernelMlirModule : String → String → CompilationOptions → Except String CompilationResult)
    (host : HostContext) (kernel : CompilationUnitAttribute) (exec_ctx : ExecutionContext)
    (s : CompileState) : AsyncValue CompilationResult × CompileState :=
  -- We only support functions nested in top level compiled module.
  if kernel.nested_symbols.length ≠ 1 then
    (.error "compiled kernel must be referenced by one nested symbol", s)
  else
    let compilation_cache := GetOrCreateResource s.resource_context
    let key := exec_ctx.location
    -- Return compiled kernel from the cache.
    match compilation_cache.Find key with
    | some compiled => (compiled, { s with resource_context := some compilation_cache })
    | none =>
      let opts : CompilationOptions :=
        { alignment := 0, num_worker_threads := host.num_worker_threads }
      let entrypoint := kernel.nested_symbols.headD ""
      let module := kernel.serialized_operation
      match CompileKernelMlirModule module entrypoint opts with
      | .error err =>
        -- Failed to compile kernel source.
        (.error err,
          { resource_context := some compilation_cache
            compiler_calls := s.compiler_calls ++ [(module, entrypoint, opts)] })
      | .ok compiled =>
        -- Update the compilation cache and return the result.
        ((compilation_cache.Insert key compiled).2,
          { resource_context := some (compilation_cache.Insert key compiled).1
            compiler_calls := s.compiler_calls ++ [(module, entrypoint, opts)] })

/-- Example sequence of cache operations: insert key 7, then look it up. -/
def exampleCacheOps : List CacheOp := [.insert 7 exampleCompilationResult, .find 7]

/-- Example compiled kernel with signature `() -> !async.token`. -/
def exampleTokenOnlyResult : CompilationResult where
  signature_ := ⟨[], [.asyncToken]⟩
  fptr_ := fun call_frame => call_frame.results
  results_memory_layout_ := ⟨true, 8, [0]⟩

/-- Example compiler: it fails on the empty module, compiles the module text
"module A" to `exampleCompilationResult` and any other text to
`exampleTokenOnlyResult`. -/
def exampleCompiler (module entrypoint : String) (_opts : CompilationOptions) :
    Except String CompilationResult :=
  if module = "" then .error ("failed to compile " ++ entrypoint)
  else if module = "module A" then .ok exampleCompilationResult
  else .ok exampleTokenOnlyResult

/-- Example host context with four worker threads. -/
def exampleHost : HostContext := ⟨4⟩

/-- Example compilation unit: entrypoint `main`, module text "module A". -/
def exampleKernelA : CompilationUnitAttribute := ⟨["main"], "module A"⟩

/-- Example compilation unit: entrypoint `main`, module text "module B". -/
def exampleKernelB : CompilationUnitAttribute := ⟨["main"], "module B"⟩

/-- Example execution context: not cancelled, location 7. -/
def exampleContextAt7 : ExecutionContext := ⟨⟨none⟩, 7⟩

/-- Example execution context: not cancelled, location 9. -/
def exampleContextAt9 : ExecutionContext := ⟨⟨none⟩, 9⟩

/-- Example state of the compile kernel: no cache created yet, no compiler
call made. -/
def exampleCompileState : CompileState := ⟨none, []⟩

/-- Example signature `(memref<4x4xf32>, tensor<4x4xf32>) -> !async.token`,
whose second input is not a memref. -/
def exampleMixedSignature : FunctionType :=
  ⟨[.memref memref_4x4xf32, .tensor [4, 4] .f32], [.asyncToken]⟩

/-- Example memref type with a dynamic first dimension, `memref<?x4xf32>`. -/
def memref_dynx4xf32 : MemRefType := ⟨[-1, 4], .f32⟩

/-- Example descriptor of a dense 7x4 buffer at address 0. -/
def exampleMemrefDesc7x4 : MemrefDesc := ⟨0, 0, [7, 4], [4, 1]⟩

/-- Example signature with a result of each class,
`(memref<4x4xf32>) -> (memref<4x4xf32>, !async.token, !async.value<memref<4x4xf32>>)`. -/
def exampleThreeResultSignature : FunctionType :=
  ⟨[.memref memref_4x4xf32],
    [.memref memref_4x4xf32, .asyncToken, .asyncValue (.memref memref_4x4xf32)]⟩

/-- Example signature with plain buffer results only,
`(memref<4x4xf32>) -> (memref<4x4xf32>, memref<4x4xf32>)`. -/
def examplePlainSignature : FunctionType :=
  ⟨[.memref memref_4x4xf32], [.memref memref_4x4xf32, .memref memref_4x4xf32]⟩

/-- Example call frame: two 4x4 descriptors packed, one output slot at offset
0, eight zero bytes of result storage. -/
def exampleCallFrame : CallFrame :=
  ⟨[.pointer 0, .integer 0, .integer 4, .integer 4, .integer 4, .integer 1,
      .pointer 0, .integer 0, .integer 4, .integer 4, .integer 4, .integer 1, .result 0],
    [0, 0, 0, 0, 0, 0, 0, 0]⟩

/-! ## A compiled function that returns its operand -/

/-- `RequestContext::RequestContext(host, resource_context, ctx_data, id)`: the
member initializer leaves `cancel_value_` the null pointer. -/
def RequestContext.create : RequestContext := ⟨none⟩

/-- Example execution context: cancelled, location 7. -/
def exampleCancelledContext : ExecutionContext := ⟨⟨some "cancelled"⟩, 7⟩

/-- `AsyncValue::IsAvailable`: the value is concrete or an error. -/
def AsyncValue.IsAvailable {ρ : Type} : AsyncValue ρ → Bool
  | .unconstructed => false
  | .concrete _ => true
  | .error _ => true

/-- Modelled from the spec: when a continuation registered by `RunWhenReady`
(async_dispatch.h is not part of the sources) may run: every value it waits
for is set and available. -/
def readyToRun {ρ : Type} (results : RemainingResults ρ) (values : List Nat) : Bool :=
  values.all (fun i =>
    match results.getD i none with
    | some value => value.IsAvailable
    | none => false)

/-- Example memref type of rank 7 with element type f64,
`memref<1x1x1x1x1x1x1xf64>`. -/
def memref_rank7_f64 : MemRefType := ⟨[1, 1, 1, 1, 1, 1, 1], .f64⟩

/-- Example compilation unit: entrypoint `main`, empty module text. -/
def exampleKernelEmpty : CompilationUnitAttribute := ⟨["main"], ""⟩

/-! ## The DNN wrappers of the GPU stream library (dnn_wrapper.cc) -/

/-- The platform a wrapper dispatches on. The wrappers name the enumerators
`Platform::CUDA` and `Platform::ROCm`; `other` stands for every other value of
the enumeration, which the `default:` label of their switch receives. -/
inductive Platform where
  | CUDA
  | ROCm
  | other (value : Nat)
  deriving DecidableEq, Repr

/-- What a wrapper does once its switch has dispatched: it passes control to
the named routines (`calls`, in call order, a routine being reached when those
before it did not make the wrapper return an error; the result of the wrapper
is built from theirs), or it returns `UnsupportedPlatform(platform)`, or it
returns `InvalidPlatform(platform)`. -/
inductive DnnOutcome where
  | calls (routines : List String)
  | UnsupportedPlatform (platform : Platform)
  | InvalidPlatform (platform : Platform)
  deriving DecidableEq, Repr

/-- Whether the outcome is an error returned by the wrapper itself, no routine
having been called. -/
def DnnOutcome.callsNothing : DnnOutcome → Bool
  | .calls _ => false
  | .UnsupportedPlatform _ => true
  | .InvalidPlatform _ => true

/-- `DnnGetVersion`: the switch on the parameter `platform`. -/
def DnnGetVersion (platform : Platform) : DnnOutcome :=
  match platform with
  | .CUDA => .calls ["CudnnGetProperty", "CudnnGetProperty", "CudnnGetProperty"]
  | .ROCm => .UnsupportedPlatform platform
  | _ => .InvalidPlatform platform

/-- `DnnCreate`: the switch on `current.platform()`. -/
def DnnCreate (platform : Platform) : DnnOutcome :=
  match platform with
  | .CUDA => .calls ["CudnnCreate"]
  | .ROCm => .UnsupportedPlatform platform
  | _ => .InvalidPlatform platform

/-- `DnnDestroy`: the switch on `handle.platform()`. -/
def DnnDestroy (platform : Platform) : DnnOutcome :=
  match platform with
  | .CUDA => .calls ["CudnnDestroy"]
  | .ROCm => .UnsupportedPlatform platform
  | _ => .InvalidPlatform platform

/-- `DnnSetStream`: the switch on `handle.platform()`. -/
def DnnSetStream (platform : Platform) : DnnOutcome :=
  match platform with
  | .CUDA => .calls ["CudnnSetStream"]
  | .ROCm => .UnsupportedPlatform platform
  | _ => .InvalidPlatform platform

/-- `DnnGetStream`: the switch on `handle.platform()`. -/
def DnnGetStream (platform : Platform) : DnnOutcome :=
  match platform with
  | .CUDA => .calls ["CudnnGetStream"]
  | .ROCm => .UnsupportedPlatform platform
  | _ => .InvalidPlatform platform

/-- `DnnCreateTensorDescriptor`: the switch on the parameter `platform`. -/
def DnnCreateTensorDescriptor (platform : Platform) : DnnOutcome :=
  match platform with
  | .CUDA => .calls ["CudnnCreateTensorDescriptor"]
  | .ROCm => .UnsupportedPlatform platform
  | _ => .InvalidPlatform platform

/-- `DnnDestroyTensorDescriptor`: the switch on `descriptor.platform()`. -/
def DnnDestroyTensorDescriptor (platform : Platform) : DnnOutcome :=
  match platform with
  | .CUDA => .calls ["CudnnDestroyTensorDescriptor"]
  | .ROCm => .UnsupportedPlatform platform
  | _ => .InvalidPlatform platform

/-- `DnnGetTensorDescriptor`: the switch on `descriptor.platform()`. -/
def DnnGetTensorDescriptor (platform : Platform) : DnnOutcome :=
  match platform with
  | .CUDA => .calls ["CudnnGetTensorDescriptor"]
  | .ROCm => .calls ["MiopenGetTensorDescriptor"]
  | _ => .InvalidPlatform platform

/-- `DnnSetTensorDescriptor`: the switch on `descriptor.platform()`. -/
def DnnSetTensorDescriptor (platform : Platform) : DnnOutcome :=
  match platform with
  | .CUDA => .calls ["CudnnSetTensorDescriptor"]
  | .ROCm => .calls ["MiopenSetTensorDescriptor"]
  | _ => .InvalidPlatform platform

/-- `DnnCreateConvolutionDescriptor`: the switch on the parameter `platform`. -/
def DnnCreateConvolutionDescriptor (platform : Platform) : DnnOutcome :=
  match platform with
  | .CUDA => .calls ["CudnnCreateConvolutionDescriptor"]
  | .ROCm => .calls ["MiopenCreateConvolutionDescriptor"]
  | _ => .InvalidPlatform platform

/-- `DnnDestroyConvolutionDescriptor`: the switch on `descriptor.platform()`. -/
def DnnDestroyConvolutionDescriptor (platform : Platform) : DnnOutcome :=
  match platform with
  | .CUDA => .calls ["CudnnDestroyConvolutionDescriptor"]
  | .ROCm => .calls ["MiopenDestroyConvolutionDescriptor"]
  | _ => .InvalidPlatform platform

/-- `DnnCreatePoolingDescriptor`: the switch on the parameter `platform`. -/
def DnnCreatePoolingDescriptor (platform : Platform) : DnnOutcome :=
  match platform with
  | .CUDA => .calls ["CudnnCreatePoolingDescriptor"]
  | .ROCm => .UnsupportedPlatform platform
  | _ => .InvalidPlatform platform

/-- `DnnDestroyPoolingDescriptor`: the switch on `descriptor.platform()`. -/
def DnnDestroyPoolingDescriptor (platform : Platform) : DnnOutcome :=
  match platform with
  | .CUDA => .calls ["CudnnDestroyPoolingDescriptor"]
  | .ROCm => .UnsupportedPlatform platform
  | _ => .InvalidPlatform platform

/-- `DnnDestroyActivationDescriptor`: the switch on `descriptor.platform()`. -/
def DnnDestroyActivationDescriptor (platform : Platform) : DnnOutcome :=
  match platform with
  | .CUDA => .calls ["CudnnDestroyActivationDescriptor"]
  | .ROCm => .UnsupportedPlatform platform
  | _ => .InvalidPlatform platform

/-- `DnnCreateActivationDescriptor`: the switch on the parameter `platform`. -/
def DnnCreateActivationDescriptor (platform : Platform) : DnnOutcome :=
  match platform with
  | .CUDA => .calls ["CudnnCreateActivationDescriptor"]
  | .ROCm => .UnsupportedPlatform platform
  | _ => .InvalidPlatform platform

/-- `DnnSetTensor`: the switch on `current.platform()`. -/
def DnnSetTensor (platform : Platform) : DnnOutcome :=
  match platform with
  | .CUDA => .calls ["CudnnSetTensor"]
  | .ROCm => .UnsupportedPlatform platform
  | _ => .InvalidPlatform platform

/-- `DnnScaleTensor`: the switch on `current.platform()`. -/
def DnnScaleTensor (platform : Platform) : DnnOutcome :=
  match platform with
  | .CUDA => .calls ["CudnnScaleTensor"]
  | .ROCm => .UnsupportedPlatform platform
  | _ => .InvalidPlatform platform

/-- `DnnCreateFilterDescriptor`: the switch on the parameter `platform`. -/
def DnnCreateFilterDescriptor (platform : Platform) : DnnOutcome :=
  match platform with
  | .CUDA => .calls ["CudnnCreateFilterDescriptor"]
  | .ROCm => .UnsupportedPlatform platform
  | _ => .InvalidPlatform platform

/-- `DnnCreateDropoutDescriptor`: the switch on the parameter `platform`. -/
def DnnCreateDropoutDescriptor (platform : Platform) : DnnOutcome :=
  match platform with
  | .CUDA => .calls ["CudnnCreateDropoutDescriptor"]
  | .ROCm => .UnsupportedPlatform platform
  | _ => .InvalidPlatform platform

/-- `DnnCreateRnnDescriptor`: the switch on the parameter `platform`. -/
def DnnCreateRnnDescriptor (platform : Platform) : DnnOutcome :=
  match platform with
  | .CUDA => .calls ["CudnnCreateRnnDescriptor"]
  | .ROCm => .UnsupportedPlatform platform
  | _ => .InvalidPlatform platform

/-- `DnnDestroyFilterDescriptor`: the switch on `descriptor.platform()`. -/
def DnnDestroyFilterDescriptor (platform : Platform) : DnnOutcome :=
  match platform with
  | .CUDA => .calls ["CudnnDestroyFilterDescriptor"]
  | .ROCm => .UnsupportedPlatform platform
  | _ => .InvalidPlatform platform

/-- `DnnDestroyDropoutDescriptor`: the switch on `descriptor.platform()`. -/
def DnnDestroyDropoutDescriptor (platform : Platform) : DnnOutcome :=
  match platform with
  | .CUDA => .calls ["CudnnDestroyDropoutDescriptor"]
  | .ROCm => .UnsupportedPlatform platform
  | _ => .InvalidPlatform platform

/-- `DnnDestroyRnnDescriptor`: the switch on `descriptor.platform()`. -/
def DnnDestroyRnnDescriptor (platform : Platform) : DnnOutcome :=
  match platform with
  | .CUDA => .calls ["CudnnDestroyRnnDescriptor"]
  | .ROCm => .UnsupportedPlatform platform
  | _ => .InvalidPlatform platform

/-- `DnnSetPoolingDescriptor`: the switch on `current.platform()`. -/
def DnnSetPoolingDescriptor (platform : Platform) : DnnOutcome :=
  match platform with
  | .CUDA => .calls ["CudnnSetPoolingDescriptor"]
  | .ROCm => .UnsupportedPlatform platform
  | _ => .InvalidPlatform platform

/-- `DnnSetConvolutionGroupCount`: the switch on `descriptor.platform()`. -/
def DnnSetConvolutionGroupCount (platform : Platform) : DnnOutcome :=
  match platform with
  | .CUDA => .calls ["CudnnSetConvolutionGroupCount"]
  | .ROCm => .UnsupportedPlatform platform
  | _ => .InvalidPlatform platform

/-- `DnnGetConvolutionGroupCount`: the switch on `descriptor.platform()`. -/
def DnnGetConvolutionGroupCount (platform : Platform) : DnnOutcome :=
  match platform with
  | .CUDA => .calls ["CudnnGetConvolutionGroupCount"]
  | .ROCm => .UnsupportedPlatform platform
  | _ => .InvalidPlatform platform

/-- `DnnGetConvolutionForwardOutputDim`: the switch on `conv_desc.platform()`. -/
def DnnGetConvolutionForwardOutputDim (platform : Platform) : DnnOutcome :=
  match platform with
  | .CUDA => .calls ["CudnnGetConvolutionForwardOutputDim"]
  | .ROCm => .UnsupportedPlatform platform
  | _ => .InvalidPlatform platform

/-- `DnnConvolutionForward`: the switch on `handle.platform()`. -/
def DnnConvolutionForward (platform : Platform) : DnnOutcome :=
  match platform with
  | .CUDA => .calls ["CheckCudaContext", "CudnnConvolutionForward"]
  | .ROCm => .calls ["MiopenConvolutionForwardImmediate"]
  | _ => .InvalidPlatform platform

/-- `DnnConvolutionBackwardData`: the switch on `handle.platform()`. -/
def DnnConvolutionBackwardData (platform : Platform) : DnnOutcome :=
  match platform with
  | .CUDA => .calls ["CheckCudaContext", "CudnnConvolutionBackwardData"]
  | .ROCm => .calls ["MiopenConvolutionBackwardDataImmediate"]
  | _ => .InvalidPlatform platform

/-- `DnnConvolutionBackwardFilter`: the switch on `handle.platform()`. -/
def DnnConvolutionBackwardFilter (platform : Platform) : DnnOutcome :=
  match platform with
  | .CUDA => .calls ["CheckCudaContext", "CudnnConvolutionBackwardFilter"]
  | .ROCm => .calls ["MiopenConvolutionBackwardWeightsImmediate"]
  | _ => .InvalidPlatform platform

/-- `DnnConvolutionBackwardBias`: the switch on `current.platform()`. The CUDA
case is `return DnnConvolutionBackwardBias(current, handle, alpha, dy_desc, dy,
beta, db_desc, db)`, a call of this function with the arguments it was called
with, hence with the same platform. `fuel` bounds the depth of the calls; `none`
is a computation that has not returned within the bound. -/
def DnnConvolutionBackwardBias : Nat → Platform → Option DnnOutcome
  | 0, _ => none
  | fuel + 1, platform =>
    match platform with
    | .CUDA => DnnConvolutionBackwardBias fuel platform
    | .ROCm => some (.UnsupportedPlatform platform)
    | _ => some (.InvalidPlatform platform)

/-- `DnnGetConvolutionBackwardDataAlgorithmMaxCount`: the switch on `handle.platform()`. -/
def DnnGetConvolutionBackwardDataAlgorithmMaxCount (platform : Platform) : DnnOutcome :=
  match platform with
  | .CUDA => .calls ["CudnnGetConvolutionBackwardDataAlgorithmMaxCount"]
  | .ROCm => .UnsupportedPlatform platform
  | _ => .InvalidPlatform platform

/-- `DnnGetPoolingForwardOutputDim`: the switch on `pooling_desc.platform()`. -/
def DnnGetPoolingForwardOutputDim (platform : Platform) : DnnOutcome :=
  match platform with
  | .CUDA => .calls ["CudnnGetPoolingForwardOutputDim"]
  | .ROCm => .UnsupportedPlatform platform
  | _ => .InvalidPlatform platform

/-- `DnnPoolingForward`: the switch on `current.platform()`. -/
def DnnPoolingForward (platform : Platform) : DnnOutcome :=
  match platform with
  | .CUDA => .calls ["CudnnPoolingForward"]
  | .ROCm => .UnsupportedPlatform platform
  | _ => .InvalidPlatform platform

/-- `DnnPoolingBackward`: the switch on `current.platform()`. -/
def DnnPoolingBackward (platform : Platform) : DnnOutcome :=
  match platform with
  | .CUDA => .calls ["CudnnPoolingBackward"]
  | .ROCm => .UnsupportedPlatform platform
  | _ => .InvalidPlatform platform

/-- `DnnActivationForward`: the switch on `current.platform()`. -/
def DnnActivationForward (platform : Platform) : DnnOutcome :=
  match platform with
  | .CUDA => .calls ["CudnnActivationForward"]
  | .ROCm => .UnsupportedPlatform platform
  | _ => .InvalidPlatform platform

/-- `DnnActivationBackward`: the switch on `activation_desc.platform()`. -/
def DnnActivationBackward (platform : Platform) : DnnOutcome :=
  match platform with
  | .CUDA => .calls ["CudnnActivationBackward"]
  | .ROCm => .UnsupportedPlatform platform
  | _ => .InvalidPlatform platform

/-- `DnnBatchNormalizationForwardInference`: the switch on `handle.platform()`. -/
def DnnBatchNormalizationForwardInference (platform : Platform) : DnnOutcome :=
  match platform with
  | .CUDA => .calls ["CudnnBatchNormalizationForwardInference"]
  | .ROCm => .UnsupportedPlatform platform
  | _ => .InvalidPlatform platform

/-- `DnnDropoutGetStatesSize`: the switch on `handle.platform()`. -/
def DnnDropoutGetStatesSize (platform : Platform) : DnnOutcome :=
  match platform with
  | .CUDA => .calls ["CudnnDropoutGetStatesSize"]
  | .ROCm => .UnsupportedPlatform platform
  | _ => .InvalidPlatform platform

/-- `DnnDropoutGetReserveSpaceSize`: the switch on `current.platform()`. -/
def DnnDropoutGetReserveSpaceSize (platform : Platform) : DnnOutcome :=
  match platform with
  | .CUDA => .calls ["CudnnDropoutGetReserveSpaceSize"]
  | .ROCm => .UnsupportedPlatform platform
  | _ => .InvalidPlatform platform

/-- `DnnRnnForwardInference`: the switch on `current.platform()`. -/
def DnnRnnForwardInference (platform : Platform) : DnnOutcome :=
  match platform with
  | .CUDA => .calls ["CudnnRnnForwardInference"]
  | .ROCm => .UnsupportedPlatform platform
  | _ => .InvalidPlatform platform

/-- `DnnRnnForwardTraining`: the switch on `current.platform()`. -/
def DnnRnnForwardTraining (platform : Platform) : DnnOutcome :=
  match platform with
  | .CUDA => .calls ["CudnnRnnForwardTraining"]
  | .ROCm => .UnsupportedPlatform platform
  | _ => .InvalidPlatform platform

/-- The platform-dispatching wrappers of dnn_wrapper.cc in source order, each
with its name and as a function of the platform it dispatches on; `fuel` is the
bound given to `DnnConvolutionBackwardBias`. -/
def dnn_wrappers (fuel : Nat) : List (String × (Platform → Option DnnOutcome)) :=
  [
    ("DnnGetVersion", fun platform => some (DnnGetVersion platform)),
    ("DnnCreate", fun platform => some (DnnCreate platform)),
    ("DnnDestroy", fun platform => some (DnnDestroy platform)),
    ("DnnSetStream", fun platform => some (DnnSetStream platform)),
    ("DnnGetStream", fun platform => some (DnnGetStream platform)),
    ("DnnCreateTensorDescriptor", fun platform => some (DnnCreateTensorDescriptor platform)),
    ("DnnDestroyTensorDescriptor", fun platform => some (DnnDestroyTensorDescriptor platform)),
    ("DnnGetTensorDescriptor", fun platform => some (DnnGetTensorDescriptor platform)),
    ("DnnSetTensorDescriptor", fun platform => some (DnnSetTensorDescriptor platform)),
    ("DnnCreateConvolutionDescriptor", fun platform => some (DnnCreateConvolutionDescriptor platform)),
    ("DnnDestroyConvolutionDescriptor", fun platform => some (DnnDestroyConvolutionDescriptor platform)),
    ("DnnCreatePoolingDescriptor", fun platform => some (DnnCreatePoolingDescriptor platform)),
    ("DnnDestroyPoolingDescriptor", fun platform => some (DnnDestroyPoolingDescriptor platform)),
    ("DnnDestroyActivationDescriptor", fun platform => some (DnnDestroyActivationDescriptor platform)),
    ("DnnCreateActivationDescriptor", fun platform => some (DnnCreateActivationDescriptor platform)),
    ("DnnSetTensor", fun platform => some (DnnSetTensor platform)),
    ("DnnScaleTensor", fun platform => some (DnnScaleTensor platform)),
    ("DnnCreateFilterDescriptor", fun platform => some (DnnCreateFilterDescriptor platform)),
    ("DnnCreateDropoutDescriptor", fun platform => some (DnnCreateDropoutDescriptor platform)),
    ("DnnCreateRnnDescriptor", fun platform => some (DnnCreateRnnDescriptor platform)),
    ("DnnDestroyFilterDescriptor", fun platform => some (DnnDestroyFilterDescriptor platform)),
    ("DnnDestroyDropoutDescriptor", fun platform => some (DnnDestroyDropoutDescriptor platform)),
    ("DnnDestroyRnnDescriptor", fun platform => some (DnnDestroyRnnDescriptor platform)),
    ("DnnSetPoolingDescriptor", fun platform => some (DnnSetPoolingDescriptor platform)),
    ("DnnSetConvolutionGroupCount", fun platform => some (DnnSetConvolutionGroupCount platform)),
    ("DnnGetConvolutionGroupCount", fun platform => some (DnnGetConvolutionGroupCount platform)),
    ("DnnGetConvolutionForwardOutputDim", fun platform => some (DnnGetConvolutionForwardOutputDim platform)),
    ("DnnConvolutionForward", fun platform => some (DnnConvolutionForward platform)),
    ("DnnConvolutionBackwardData", fun platform => some (DnnConvolutionBackwardData platform)),
    ("DnnConvolutionBackwardFilter", fun platform => some (DnnConvolutionBackwardFilter platform)),
    ("DnnConvolutionBackwardBias", DnnConvolutionBackwardBias fuel),
    ("DnnGetConvolutionBackwardDataAlgorithmMaxCount", fun platform => some (DnnGetConvolutionBackwardDataAlgorithmMaxCount platform)),
    ("DnnGetPoolingForwardOutputDim", fun platform => some (DnnGetPoolingForwardOutputDim platform)),
    ("DnnPoolingForward", fun platform => some (DnnPoolingForward platform)),
    ("DnnPoolingBackward", fun platform => some (DnnPoolingBackward platform)),
    ("DnnActivationForward", fun platform => some (DnnActivationForward platform)),
    ("DnnActivationBackward", fun platform => some (DnnActivationBackward platform)),
    ("DnnBatchNormalizationForwardInference", fun platform => some (DnnBatchNormalizationForwardInference platform)),
    ("DnnDropoutGetStatesSize", fun platform => some (DnnDropoutGetStatesSize platform)),
    ("DnnDropoutGetReserveSpaceSize", fun platform => some (DnnDropoutGetReserveSpaceSize platform)),
    ("DnnRnnForwardInference", fun platform => some (DnnRnnForwardInference platform)),
    ("DnnRnnForwardTraining", fun platform => some (DnnRnnForwardTraining platform))
  ]

/-- The names of the wrappers documented as having a ROCm implementation; the
list follows the documentation, the wrappers themselves are above. -/
def rocm_wrappers : List String :=
  ["DnnGetTensorDescriptor", "DnnSetTensorDescriptor", "DnnCreateConvolutionDescriptor",
    "DnnDestroyConvolutionDescriptor", "DnnConvolutionForward", "DnnConvolutionBackwardData",
    "DnnConvolutionBackwardFilter"]

/-! ## Properties of the plain memref rule -/

/-- The whole effect of `ReturnStridedMemref` on a memref type. -/
theorem ReturnStridedMemref_memref {ρ π : Type} (C : Converter ρ π) (results : RemainingResults ρ)
    (i : Nat) (m : MemRefType) (ptr : π) :
    ReturnStridedMemref C results i (.memref m) ptr =
      (.success,
        if m.elementType = .f32 then
          if m.getRank ≤ 5 then EmplaceAt results i (C.Convert .float m.getRank ptr)
          else EmitErrorAt results i ("unsupported returned memref rank: " ++ toString m.getRank)
        else
          EmitErrorAt results i
            ("unsupported returned memref element type: " ++ m.elementType.print)) := by
  unfold ReturnStridedMemref
  simp only [MlirType.dyn_cast_MemRefType, MemRefType.getElementType]
  by_cases hf : m.elementType = .f32
  · simp only [hf, ElementType.isF32, if_true]
    by_cases hr : m.getRank ≤ 5
    · have h : m.getRank = 0 ∨ m.getRank = 1 ∨ m.getRank = 2 ∨ m.getRank = 3 ∨ m.getRank = 4 ∨
          m.getRank = 5 := by omega
      rcases h with h | h | h | h | h | h <;> simp [h]
    · have h0 : m.getRank ≠ 0 := by omega
      have h1 : m.getRank ≠ 1 := by omega
      have h2 : m.getRank ≠ 2 := by omega
      have h3 : m.getRank ≠ 3 := by omega
      have h4 : m.getRank ≠ 4 := by omega
      have h5 : m.getRank ≠ 5 := by omega
      simp [hr, h0, h1, h2, h3, h4, h5]
  · have hb : m.elementType.isF32 = false := by
      cases he : m.elementType <;> simp_all [ElementType.isF32]
    simp [hf, hb]

/-- C1: for a memref result type with element type f32 and rank `r ≤ 5`,
`ReturnStridedMemref` returns success and its whole effect is to emplace
`Converter::Convert<float, r>(ptr)`, for the rank `r` of the type itself, at
result index `i`: that slot (when it exists) holds the value afterwards, and no
slot holds an error that it did not hold before. -/
theorem ReturnStridedMemref_f32_supported_rank {ρ π : Type} (C : Converter ρ π)
    (results : RemainingResults ρ) (i : Nat) (m : MemRefType) (ptr : π)
    (hf : m.elementType = .f32) (hr : m.getRank ≤ 5) :
    ReturnStridedMemref C results i (.memref m) ptr =
        (.success, EmplaceAt results i (C.Convert .float m.getRank ptr)) ∧
      (i < results.length →
        (ReturnStridedMemref C results i (.memref m) ptr).2[i]? =
          some (some (.concrete (C.Convert .float m.getRank ptr)))) ∧
      (∀ (j : Nat) (message : String),
        (ReturnStridedMemref C results i (.memref m) ptr).2[j]? = some (some (.error message)) →
          results[j]? = some (some (.error message))) := by
  have h := ReturnStridedMemref_memref C results i m ptr
  simp only [hf, hr, if_true] at h
  rw [h]
  refine ⟨rfl, ?_, ?_⟩
  · intro hi
    simp [EmplaceAt, hi]
  · intro j message hj
    by_cases hij : i = j
    · subst hij
      by_cases hi : i < results.length
      · simp [EmplaceAt, hi] at hj
      · simp [EmplaceAt, List.getElem?_set, hi] at hj
    · simpa [EmplaceAt, List.getElem?_set_ne hij] using hj

/-- Witness of C1 on `memref<4x4xf32>` at result index 1 of two empty slots. -/
theorem ReturnStridedMemref_f32_supported_rank_witness :
    memref_4x4xf32.elementType = .f32 ∧ memref_4x4xf32.getRank ≤ 5 ∧
      (ReturnStridedMemref exampleConverter [none, none] 1 (.memref memref_4x4xf32) ([], 0) =
          (.success, EmplaceAt [none, none] 1
            (exampleConverter.Convert .float memref_4x4xf32.getRank ([], 0))) ∧
        (1 < ([none, none] : RemainingResults HostValue).length →
          (ReturnStridedMemref exampleConverter [none, none] 1 (.memref memref_4x4xf32)
              ([], 0)).2[1]? =
            some (some (.concrete
              (exampleConverter.Convert .float memref_4x4xf32.getRank ([], 0))))) ∧
        (∀ (j : Nat) (message : String),
          (ReturnStridedMemref exampleConverter [none, none] 1 (.memref memref_4x4xf32)
              ([], 0)).2[j]? = some (some (.error message)) →
            ([none, none] : RemainingResults HostValue)[j]? = some (some (.error message)))) :=
  ⟨rfl, by decide,
    ReturnStridedMemref_f32_supported_rank exampleConverter [none, none] 1 memref_4x4xf32 ([], 0)
      rfl (by decide)⟩

/-- C2: for a memref result type with element type f32 and rank greater than 5,
`ReturnStridedMemref` returns success and its whole effect is to resolve result
index `i` to the error "unsupported returned memref rank: " followed by the
rank: that slot (when it exists) holds the error, every other slot is
unchanged, and no slot holds a value that it did not hold before. -/
theorem ReturnStridedMemref_unsupported_rank {ρ π : Type} (C : Converter ρ π)
    (results : RemainingResults ρ) (i : Nat) (m : MemRefType) (ptr : π)
    (hf : m.elementType = .f32) (hr : 5 < m.getRank) :
    ReturnStridedMemref C results i (.memref m) ptr =
        (.success,
          EmitErrorAt results i ("unsupported returned memref rank: " ++ toString m.getRank)) ∧
      (i < results.length →
        (ReturnStridedMemref C results i (.memref m) ptr).2[i]? =
          some (some (.error ("unsupported returned memref rank: " ++ toString m.getRank)))) ∧
      (∀ j : Nat, j ≠ i → (ReturnStridedMemref C results i (.memref m) ptr).2[j]? = results[j]?) ∧
      (∀ (j : Nat) (value : ρ),
        (ReturnStridedMemref C results i (.memref m) ptr).2[j]? = some (some (.concrete value)) →
          results[j]? = some (some (.concrete value))) := by
  have h := ReturnStridedMemref_memref C results i m ptr
  have hr5 : ¬ m.getRank ≤ 5 := by omega
  simp only [hf, hr5, if_true, if_false] at h
  rw [h]
  refine ⟨rfl, ?_, ?_, ?_⟩
  · intro hi
    simp [EmitErrorAt, hi]
  · intro j hj
    simp [EmitErrorAt, List.getElem?_set_ne (Ne.symm hj)]
  · intro j value hj
    by_cases hij : i = j
    · subst hij
      by_cases hi : i < results.length
      · simp [EmitErrorAt, hi] at hj
      · simp [EmitErrorAt, List.getElem?_set, hi] at hj
    · simpa [EmitErrorAt, List.getElem?_set_ne hij] using hj

/-- Witness of C2 on a rank 7 memref of f32 at result index 0 of two empty
slots: slot 0 holds "unsupported returned memref rank: 7". -/
theorem ReturnStridedMemref_unsupported_rank_witness :
    memref_rank7_f32.elementType = .f32 ∧ 5 < memref_rank7_f32.getRank ∧
      (ReturnStridedMemref exampleConverter [none, none] 0 (.memref memref_rank7_f32) ([], 0)).2 =
        [some (.error "unsupported returned memref rank: 7"), none] :=
  ⟨rfl, by decide,
    (congrArg Prod.snd
      (ReturnStridedMemref_unsupported_rank exampleConverter [none, none] 0 memref_rank7_f32
        ([], 0) rfl (by decide)).1).trans (by decide)⟩

/-- C3: for a memref result type whose element type is not f32, of any rank,
`ReturnStridedMemref` returns success and its whole effect is to resolve result
index `i` to the error "unsupported returned memref element type: " followed by
the element type; and for every type, a slot that holds a value after the call
which it did not hold before shows that the type is a memref of f32. -/
theorem ReturnStridedMemref_unsupported_element_type {ρ π : Type} (C : Converter ρ π)
    (results : RemainingResults ρ) (i : Nat) (ptr : π) :
    (∀ m : MemRefType, m.elementType ≠ .f32 →
      ReturnStridedMemref C results i (.memref m) ptr =
          (.success, EmitErrorAt results i
            ("unsupported returned memref element type: " ++ m.elementType.print)) ∧
        (i < results.length →
          (ReturnStridedMemref C results i (.memref m) ptr).2[i]? =
            some (some (.error
              ("unsupported returned memref element type: " ++ m.elementType.print))))) ∧
      (∀ (type : MlirType) (j : Nat) (value : ρ),
        (ReturnStridedMemref C results i type ptr).2[j]? = some (some (.concrete value)) →
          results[j]? ≠ some (some (.concrete value)) →
            ∃ m : MemRefType, type = .memref m ∧ m.elementType = .f32) := by
  constructor
  · intro m hne
    have h := ReturnStridedMemref_memref C results i m ptr
    simp only [hne, if_false] at h
    rw [h]
    refine ⟨rfl, ?_⟩
    intro hi
    simp [EmitErrorAt, hi]
  · intro type j value hj hne
    cases type with
    | memref m =>
      refine ⟨m, rfl, ?_⟩
      by_contra hf
      have h := ReturnStridedMemref_memref C results i m ptr
      simp only [hf, if_false] at h
      rw [h] at hj
      apply hne
      by_cases hij : i = j
      · subst hij
        by_cases hi : i < results.length
        · simp [EmitErrorAt, hi] at hj
        · simp [EmitErrorAt, List.getElem?_set, hi] at hj
      · simpa [EmitErrorAt, List.getElem?_set_ne hij] using hj
    | asyncToken => exact absurd hj hne
    | asyncValue t => exact absurd hj hne
    | scalar e => exact absurd hj hne
    | tensor shape e => exact absurd hj hne

/-- Witness of C3 on `memref<4x4xf64>` at result index 1 of two empty slots:
slot 1 holds "unsupported returned memref element type: f64". -/
theorem ReturnStridedMemref_unsupported_element_type_witness :
    memref_4x4xf64.elementType ≠ .f32 ∧
      (ReturnStridedMemref exampleConverter [none, none] 1 (.memref memref_4x4xf64) ([], 0)).2 =
        [none, some (.error "unsupported returned memref element type: f64")] :=
  ⟨by decide,
    (congrArg Prod.snd
      ((ReturnStridedMemref_unsupported_element_type exampleConverter [none, none] 1 ([], 0)).1
        memref_4x4xf64 (by decide)).1).trans (by decide)⟩

/-! ## Properties of the async memref rule -/

/-- The whole effect of `ReturnAsyncStridedMemref` on an async value of a
memref type. -/
theorem ReturnAsyncStridedMemref_memref {ρ π : Type} (C : Converter ρ π) (load : π → π)
    (s : HostState ρ π) (i : Nat) (m : MemRefType) (ptr : π) :
    ReturnAsyncStridedMemref C load s i (.asyncValue (.memref m)) ptr =
      some (.success,
        if m.elementType = .f32 then
          if m.getRank ≤ 5 then
            ExtractAsyncValue { s with results := AllocateAt s.results i } (load ptr) i
              (internal.Emplace C .float m.getRank)
          else
            { s with results := (EmitErrorAt s.results i
                ("unsupported returned memref rank: " ++ toString m.getRank)) }
        else
          { s with results := (EmitErrorAt s.results i
              ("unsupported returned memref element type: " ++ m.elementType.print)) }) := by
  unfold ReturnAsyncStridedMemref
  simp only [MlirType.dyn_cast_ValueType, MlirType.cast_MemRefType, MemRefType.getElementType]
  by_cases hf : m.elementType = .f32
  · simp only [hf, ElementType.isF32, if_true]
    by_cases hr : m.getRank ≤ 5
    · have h : m.getRank = 0 ∨ m.getRank = 1 ∨ m.getRank = 2 ∨ m.getRank = 3 ∨ m.getRank = 4 ∨
          m.getRank = 5 := by omega
      rcases h with h | h | h | h | h | h <;> simp [h]
    · have h0 : m.getRank ≠ 0 := by omega
      have h1 : m.getRank ≠ 1 := by omega
      have h2 : m.getRank ≠ 2 := by omega
      have h3 : m.getRank ≠ 3 := by omega
      have h4 : m.getRank ≠ 4 := by omega
      have h5 : m.getRank ≠ 5 := by omega
      simp [hr, h0, h1, h2, h3, h4, h5]
  · have hb : m.elementType.isF32 = false := by
      cases he : m.elementType <;> simp_all [ElementType.isF32]
    simp [hf, hb]

/-- On a type that is not an async value type the async memref rule returns
failure and leaves the state as it was. -/
theorem ReturnAsyncStridedMemref_not_value {ρ π : Type} (C : Converter ρ π) (load : π → π)
    (s : HostState ρ π) (i : Nat) (type : MlirType) (ptr : π)
    (h : type.dyn_cast_ValueType = none) :
    ReturnAsyncStridedMemref C load s i type ptr = some (.failure, s) := by
  unfold ReturnAsyncStridedMemref
  simp [h]

/-- Running continuations leaves every slot that none of them targets. -/
theorem foldl_runContinuation_frame {ρ π : Type} (outcome : Except String π) (j : Nat) :
    ∀ (ks : List (Continuation ρ π)) (results : RemainingResults ρ),
      (∀ k ∈ ks, k.dst ≠ j) →
        (ks.foldl (fun r k => runContinuation r k outcome) results)[j]? = results[j]? := by
  intro ks
  induction ks with
  | nil => intro results _; rfl
  | cons k ks ih =>
    intro results h
    simp only [List.foldl_cons]
    rw [ih _ (fun k1 hk1 => h k1 (List.mem_cons_of_mem _ hk1))]
    have hk : k.dst ≠ j := h k (List.mem_cons_self _ _)
    unfold runContinuation
    cases outcome <;> simp [List.getElem?_set_ne hk]

/-- Completion of an async value leaves every slot that no registered
continuation targets. -/
theorem AsyncValueCompleted_frame {ρ π : Type} [DecidableEq π] (s : HostState ρ π) (value : π)
    (outcome : Except String π) (j : Nat) (h : ∀ k ∈ s.continuations, k.dst ≠ j) :
    (AsyncValueCompleted s value outcome).results[j]? = s.results[j]? := by
  unfold AsyncValueCompleted
  exact foldl_runContinuation_frame outcome j _ _
    (fun k hk => h k (List.mem_of_mem_filter hk))

/-- The plain memref rule keeps the number of slots and every slot other than
`i`, for every type. -/
theorem ReturnStridedMemref_frame {ρ π : Type} (C : Converter ρ π)
    (results : RemainingResults ρ) (i : Nat) (type : MlirType) (ptr : π) :
    (ReturnStridedMemref C results i type ptr).2.length = results.length ∧
      ∀ j : Nat, j ≠ i → (ReturnStridedMemref C results i type ptr).2[j]? = results[j]? := by
  cases type with
  | memref m =>
    rw [ReturnStridedMemref_memref]
    constructor
    · simp only
      split_ifs <;> simp [EmplaceAt, EmitErrorAt]
    · intro j hj
      simp only
      split_ifs <;> simp [EmplaceAt, EmitErrorAt, List.getElem?_set_ne (Ne.symm hj)]
  | asyncToken => exact ⟨rfl, fun _ _ => rfl⟩
  | asyncValue t => exact ⟨rfl, fun _ _ => rfl⟩
  | scalar e => exact ⟨rfl, fun _ _ => rfl⟩
  | tensor shape e => exact ⟨rfl, fun _ _ => rfl⟩

/-- C4: partial-failure independence. For every type, result index `i` and
result array, `ReturnStridedMemref` keeps the number of slots and leaves every
slot `j ≠ i` exactly as it was. `ReturnAsyncStridedMemref` returns on every type
that is not an async value and on every async value of a memref; whenever it
returns, it has kept the number of slots, left every slot `j ≠ i` exactly as it
was, invoked no native code, registered at most one continuation, whose
destination is slot `i`, and a later completion of any async value still leaves
every slot `j ≠ i` that no earlier continuation targets as it was. -/
theorem conversion_rules_write_slot_i_only {ρ π : Type} [DecidableEq π] (C : Converter ρ π)
    (load : π → π) (s : HostState ρ π) (i : Nat) (type : MlirType) (ptr : π) :
    ((ReturnStridedMemref C s.results i type ptr).2.length = s.results.length ∧
        ∀ j : Nat, j ≠ i → (ReturnStridedMemref C s.results i type ptr).2[j]? = s.results[j]?) ∧
      ((type.dyn_cast_ValueType = none ∨ ∃ m : MemRefType, type = .asyncValue (.memref m)) →
        (ReturnAsyncStridedMemref C load s i type ptr).isSome = true) ∧
      (∀ (r : LogicalResult) (out : HostState ρ π),
        ReturnAsyncStridedMemref C load s i type ptr = some (r, out) →
          out.results.length = s.results.length ∧
            (∀ j : Nat, j ≠ i → out.results[j]? = s.results[j]?) ∧
            out.native_calls = s.native_calls ∧
            (out.continuations = s.continuations ∨
              ∃ k : Continuation ρ π, k.dst = i ∧ out.continuations = s.continuations ++ [k]) ∧
            (∀ (value : π) (outcome : Except String π) (j : Nat), j ≠ i →
              (∀ k ∈ s.continuations, k.dst ≠ j) →
                (AsyncValueCompleted out value outcome).results[j]? = s.results[j]?)) := by
  refine ⟨ReturnStridedMemref_frame C s.results i type ptr, ?_, ?_⟩
  · rintro (h | ⟨m, rfl⟩)
    · rw [ReturnAsyncStridedMemref_not_value C load s i type ptr h]
      rfl
    · rw [ReturnAsyncStridedMemref_memref]
      rfl
  · intro r out hout
    -- the three shapes of the state after the call
    have key : out = s ∨
        (∃ message, out = { s with results := EmitErrorAt s.results i message }) ∨
        out = ExtractAsyncValue { s with results := AllocateAt s.results i } (load ptr) i
          (out.continuations.getLastD ⟨load ptr, i, fun _ d => d⟩).emplace_fn := by
      cases type with
      | memref m =>
        rw [ReturnAsyncStridedMemref_not_value C load s i (.memref m) ptr rfl] at hout
        simp only [Option.some.injEq, Prod.mk.injEq] at hout
        exact Or.inl hout.2.symm
      | asyncToken =>
        rw [ReturnAsyncStridedMemref_not_value C load s i .asyncToken ptr rfl] at hout
        simp only [Option.some.injEq, Prod.mk.injEq] at hout
        exact Or.inl hout.2.symm
      | scalar e =>
        rw [ReturnAsyncStridedMemref_not_value C load s i (.scalar e) ptr rfl] at hout
        simp only [Option.some.injEq, Prod.mk.injEq] at hout
        exact Or.inl hout.2.symm
      | tensor shape e =>
        rw [ReturnAsyncStridedMemref_not_value C load s i (.tensor shape e) ptr rfl] at hout
        simp only [Option.some.injEq, Prod.mk.injEq] at hout
        exact Or.inl hout.2.symm
      | asyncValue t =>
        cases t with
        | memref m =>
          rw [ReturnAsyncStridedMemref_memref] at hout
          simp only [Option.some.injEq, Prod.mk.injEq] at hout
          obtain ⟨-, hout⟩ := hout
          subst hout
          split_ifs
          · right; right
            simp [ExtractAsyncValue]
          · right; left
            exact ⟨_, rfl⟩
          · right; left
            exact ⟨_, rfl⟩
        | asyncToken => simp [ReturnAsyncStridedMemref, MlirType.dyn_cast_ValueType,
            MlirType.cast_MemRefType] at hout
        | asyncValue t2 => simp [ReturnAsyncStridedMemref, MlirType.dyn_cast_ValueType,
            MlirType.cast_MemRefType] at hout
        | scalar e => simp [ReturnAsyncStridedMemref, MlirType.dyn_cast_ValueType,
            MlirType.cast_MemRefType] at hout
        | tensor shape e => simp [ReturnAsyncStridedMemref, MlirType.dyn_cast_ValueType,
            MlirType.cast_MemRefType] at hout
    have frame : out.results.length = s.results.length ∧
        (∀ j : Nat, j ≠ i → out.results[j]? = s.results[j]?) ∧
        out.native_calls = s.native_calls ∧
        (out.continuations = s.continuations ∨
          ∃ k : Continuation ρ π, k.dst = i ∧ out.continuations = s.continuations ++ [k]) := by
      rcases key with h | ⟨message, h⟩ | h
      · rw [h]
        exact ⟨rfl, fun _ _ => rfl, rfl, Or.inl rfl⟩
      · rw [h]
        exact ⟨by simp [EmitErrorAt],
          fun j hj => by simp [EmitErrorAt, List.getElem?_set_ne (Ne.symm hj)], rfl, Or.inl rfl⟩
      · rw [h]
        exact ⟨by simp [ExtractAsyncValue, AllocateAt],
          fun j hj => by simp [ExtractAsyncValue, AllocateAt, List.getElem?_set_ne (Ne.symm hj)],
          rfl, Or.inr ⟨_, rfl, rfl⟩⟩
    refine ⟨frame.1, frame.2.1, frame.2.2.1, frame.2.2.2, ?_⟩
    intro value outcome j hj hks
    rw [AsyncValueCompleted_frame out value outcome j, frame.2.1 j hj]
    intro k hk
    rcases frame.2.2.2 with h | ⟨k1, hk1, h⟩
    · rw [h] at hk
      exact hks k hk
    · rw [h] at hk
      rcases List.mem_append.mp hk with hk | hk
      · exact hks k hk
      · rw [List.mem_singleton.mp hk, hk1]
        exact Ne.symm hj

/-- Witness of C4: the async memref rule returns on
`!async.value<memref<4x4xf32>>`, and the plain rule on a rank 7 memref at result
index 0 leaves slot 1 as it was. -/
theorem conversion_rules_write_slot_i_only_witness :
    (ReturnAsyncStridedMemref exampleConverter viewMemory.load exampleState 0
        (.asyncValue (.memref memref_4x4xf32)) ([], 0)).isSome = true ∧
      (ReturnStridedMemref exampleConverter exampleState.results 0 (.memref memref_rank7_f32)
        ([], 0)).2[1]? = exampleState.results[1]? :=
  ⟨(conversion_rules_write_slot_i_only exampleConverter viewMemory.load exampleState 0
      (.asyncValue (.memref memref_4x4xf32)) ([], 0)).2.1 (Or.inr ⟨_, rfl⟩),
    (conversion_rules_write_slot_i_only exampleConverter viewMemory.load exampleState 0
      (.memref memref_rank7_f32) ([], 0)).1.2 1 (by decide)⟩

/-! ## Properties of the `cpurt.execute` kernel -/

/-- A successful conversion loop has pushed one descriptor per operand. -/
theorem ConvertTensorOperandsToMemrefDesc.loop_length {ρ π τ : Type} (lib : CpurtLibrary ρ π τ)
    (signature : FunctionType) :
    ∀ (operands : List τ) (i : Nat) (acc memrefs : List MemrefDesc),
      ConvertTensorOperandsToMemrefDesc.loop lib signature operands i acc = some (.ok memrefs) →
        memrefs.length = acc.length + operands.length := by
  intro operands
  induction operands with
  | nil =>
    intro i acc memrefs h
    simp only [ConvertTensorOperandsToMemrefDesc.loop, Option.some.injEq, Except.ok.injEq] at h
    simp [h]
  | cons operand operands ih =>
    intro i acc memrefs h
    unfold ConvertTensorOperandsToMemrefDesc.loop at h
    split at h
    · exact absurd h (by simp)
    · split at h
      · exact absurd h (by simp)
      · split at h
        · exact absurd h (by simp)
        · have := ih _ _ _ h
          simp only [List.length_append, List.length_cons, List.length_nil] at this ⊢
          omega

/-- A call of `CompilationResult::Execute` whose operand count differs from the
number of inputs resolves every result to the operand count error and returns
it. -/
theorem CompilationResult.Execute_count_mismatch {ρ π : Type} (mem : Memory π)
    (cr : CompilationResult) (operands : List MemrefDesc) (results : ReturnValueConverter ρ π)
    (exec_ctx : ExecutionContext) (s : HostState ρ π)
    (h : operands.length ≠ cr.signature.getNumInputs) :
    cr.Execute mem operands results exec_ctx s =
      some (some (operandCountMismatch operands.length cr.signature.getNumInputs),
        { s with results := s.results.map (fun _ =>
            some (.error (operandCountMismatch operands.length cr.signature.getNumInputs))) }) := by
  unfold CompilationResult.Execute CompilationResult.InitializeCallFrame
  simp only [CompilationResult.signature] at h
  simp [h, EmitErrors, CompilationResult.signature]

/-- The conversion loop uses nothing of the library but
`ConvertTensorToMemrefDesc`. -/
theorem ConvertTensorOperandsToMemrefDesc.loop_congr {ρ π τ : Type} (lib lib2 : CpurtLibrary ρ π τ)
    (signature : FunctionType)
    (hc : lib2.ConvertTensorToMemrefDesc = lib.ConvertTensorToMemrefDesc) :
    ∀ (operands : List τ) (i : Nat) (acc : List MemrefDesc),
      ConvertTensorOperandsToMemrefDesc.loop lib2 signature operands i acc =
        ConvertTensorOperandsToMemrefDesc.loop lib signature operands i acc := by
  intro operands
  induction operands with
  | nil => intro i acc; rfl
  | cons operand operands ih =>
    intro i acc
    unfold ConvertTensorOperandsToMemrefDesc.loop
    rw [hc]
    simp only [ih]

/-- C5 (as amended): a call of `CompilationResult::Execute` whose number of
operand descriptors differs from the number of inputs of the signature (more or
fewer) returns the operand count error, resolves every declared result to that
same error and leaves the log of native invocations as it was; and a call of
the `cpurt.execute` kernel whose operands all convert to descriptors and whose
number differs from the number of inputs ends with every result resolved to the
operand count error, no native invocation and nothing registered. -/
theorem Execute_operand_count_mismatch {ρ π τ : Type} (mem : Memory π) (cr : CompilationResult)
    (exec_ctx : ExecutionContext) :
    (∀ (operands : List MemrefDesc) (results : ReturnValueConverter ρ π) (s : HostState ρ π),
      operands.length ≠ cr.signature.getNumInputs →
        cr.Execute mem operands results exec_ctx s =
          some (some (operandCountMismatch operands.length cr.signature.getNumInputs),
            { results := s.results.map (fun _ =>
                some (.error (operandCountMismatch operands.length cr.signature.getNumInputs)))
              continuations := s.continuations
              native_calls := s.native_calls })) ∧
      (∀ (lib : CpurtLibrary ρ π τ) (operands : List τ) (memrefs : List MemrefDesc)
          (s : KernelState ρ π τ),
        lib.Execute = CompilationResult.Execute mem →
          ConvertTensorOperandsToMemrefDesc lib cr.signature operands = some (.ok memrefs) →
            operands.length ≠ cr.signature.getNumInputs →
              Execute lib cr operands s exec_ctx =
                some
                  { host :=
                      { results := s.host.results.map (fun _ =>
                          some (.error
                            (operandCountMismatch operands.length cr.signature.getNumInputs)))
                        continuations := s.host.continuations
                        native_calls := s.host.native_calls }
                    run_when_ready := s.run_when_ready }) := by
  constructor
  · intro operands results s h
    exact CompilationResult.Execute_count_mismatch mem cr operands results exec_ctx s h
  · intro lib operands memrefs s hlib hconv hne
    have hlen : memrefs.length = operands.length := by
      have := ConvertTensorOperandsToMemrefDesc.loop_length lib cr.signature operands 0 [] memrefs
        hconv
      simpa using this
    unfold Execute
    rw [hconv]
    simp only
    rw [hlib, CompilationResult.Execute_count_mismatch mem cr memrefs _ exec_ctx s.host
      (by rw [hlen]; exact hne), hlen]

/-- Witness of C5 (as amended): three descriptors against the two-input
signature at the level of `CompilationResult::Execute`, and one convertible
operand against the two-input signature at the level of the kernel. -/
theorem Execute_operand_count_mismatch_witness :
    ([exampleMemrefDesc, exampleMemrefDesc, exampleMemrefDesc].length ≠
        exampleCompilationResult.signature.getNumInputs ∧
      exampleCompilationResult.Execute viewMemory
          [exampleMemrefDesc, exampleMemrefDesc, exampleMemrefDesc]
          (ReturnValueConverter.new : ReturnValueConverter HostValue (List Nat × Nat))
          exampleContext exampleKernelState.host =
        some (some (operandCountMismatch 3 2),
          { results := [some (.error (operandCountMismatch 3 2))]
            continuations := []
            native_calls := [] })) ∧
      (ConvertTensorOperandsToMemrefDesc (specLibrary viewMemory)
          exampleCompilationResult.signature [tensor_4x4] = some (.ok [exampleMemrefDesc]) ∧
        [tensor_4x4].length ≠ exampleCompilationResult.signature.getNumInputs ∧
        Execute (specLibrary viewMemory) exampleCompilationResult [tensor_4x4] exampleKernelState
            exampleContext =
          some
            { host :=
                { results := [some (.error (operandCountMismatch 1 2))]
                  continuations := []
                  native_calls := [] }
              run_when_ready := [] }) :=
  ⟨⟨by decide,
      (@Execute_operand_count_mismatch HostValue (List Nat × Nat) Tensor viewMemory
        exampleCompilationResult exampleContext).1
        [exampleMemrefDesc, exampleMemrefDesc, exampleMemrefDesc] ReturnValueConverter.new
        exampleKernelState.host (by decide)⟩,
    ⟨rfl, by decide,
      (@Execute_operand_count_mismatch HostValue (List Nat × Nat) Tensor viewMemory
        exampleCompilationResult exampleContext).2
        (specLibrary viewMemory) [tensor_4x4] [exampleMemrefDesc] exampleKernelState rfl rfl
        (by decide)⟩⟩

/-- Counterexample to C5 as stated: the `cpurt.execute` kernel called with one
operand of rank 1 against the signature `(memref<4x4xf32>, memref<4x4xf32>)`.
The operand count differs from the number of inputs, yet the result is
resolved to the error of the failed operand conversion, which is not the
operand count error; no native invocation is made. -/
theorem Execute_operand_count_mismatch_counterexample :
    [tensor_4].length ≠ exampleCompilationResult.signature.getNumInputs ∧
      (Execute (specLibrary viewMemory) exampleCompilationResult [tensor_4] exampleKernelState
          exampleContext).map (fun s => s.host.results) =
        some [some (.error "operand rank does not match expected input rank: 1 vs 2")] ∧
      (Execute (specLibrary viewMemory) exampleCompilationResult [tensor_4] exampleKernelState
          exampleContext).map (fun s => s.host.results) ≠
        some [some (.error (operandCountMismatch [tensor_4].length
          exampleCompilationResult.signature.getNumInputs))] ∧
      (Execute (specLibrary viewMemory) exampleCompilationResult [tensor_4] exampleKernelState
          exampleContext).map (fun s => s.host.native_calls) = some [] := by
  refine ⟨by decide, by decide, by decide, by decide⟩

/-- C6: in the `cpurt.execute` kernel, if converting the operands to buffer
descriptors fails with an error, then the call ends with every result resolved
to an error carrying that failure, with the continuations, the log of native
invocations and the `RunWhenReady` registrations as they were; and the outcome
is the same whatever `CompilationResult::Execute` is, which the call never
reaches. -/
theorem Execute_operand_conversion_failure {ρ π τ : Type} (lib : CpurtLibrary ρ π τ)
    (cr : CompilationResult) (operands : List τ) (s : KernelState ρ π τ)
    (exec_ctx : ExecutionContext) (err : String)
    (h : ConvertTensorOperandsToMemrefDesc lib cr.signature operands = some (.error err)) :
    Execute lib cr operands s exec_ctx =
        some
          { host :=
              { results := s.host.results.map (fun _ => some (.error err))
                continuations := s.host.continuations
                native_calls := s.host.native_calls }
            run_when_ready := s.run_when_ready } ∧
      (∀ j : Nat, j < s.host.results.length →
        (Execute lib cr operands s exec_ctx).map (fun out => out.host.results[j]?) =
          some (some (some (.error err)))) ∧
      (∀ exec, Execute { lib with Execute := exec } cr operands s exec_ctx =
        Execute lib cr operands s exec_ctx) := by
  have h1 : Execute lib cr operands s exec_ctx =
      some
        { host :=
            { results := s.host.results.map (fun _ => some (.error err))
              continuations := s.host.continuations
              native_calls := s.host.native_calls }
          run_when_ready := s.run_when_ready } := by
    unfold Execute
    rw [h]
    rfl
  refine ⟨h1, ?_, ?_⟩
  · intro j hj
    rw [h1]
    simp [hj]
  · intro exec
    have h2 : ConvertTensorOperandsToMemrefDesc { lib with Execute := exec } cr.signature
        operands = some (.error err) := by
      unfold ConvertTensorOperandsToMemrefDesc
      rw [ConvertTensorOperandsToMemrefDesc.loop_congr lib { lib with Execute := exec } cr.signature rfl]
      exact h
    rw [h1]
    unfold Execute
    rw [h2]
    rfl

/-- Witness of C6: one operand against a signature whose input is a tensor, not
a memref; the result is resolved to "expected memref operand at #0, got:
tensor<4x4xf32>". -/
theorem Execute_operand_conversion_failure_witness :
    ConvertTensorOperandsToMemrefDesc (specLibrary viewMemory) exampleTensorInputResult.signature
        [tensor_4x4] = some (.error "expected memref operand at #0, got: tensor<4x4xf32>") ∧
      Execute (specLibrary viewMemory) exampleTensorInputResult [tensor_4x4] exampleKernelState
          exampleContext =
        some
          { host :=
              { results := [some (.error "expected memref operand at #0, got: tensor<4x4xf32>")]
                continuations := []
                native_calls := [] }
            run_when_ready := [] } :=
  ⟨rfl,
    (Execute_operand_conversion_failure (specLibrary viewMemory) exampleTensorInputResult
      [tensor_4x4] exampleKernelState exampleContext
      "expected memref operand at #0, got: tensor<4x4xf32>" rfl).1⟩

/-! ## Properties of the return value converter -/

/-- Iterating the callbacks in reverse meets the callback added last first. -/
theorem enum_reverse_concat {α : Type} (xs : List α) (x : α) :
    (xs ++ [x]).enum.reverse = (xs.length, x) :: xs.enum.reverse := by
  simp [List.enum_append, List.enumFrom_singleton]

/-- `ReturnValue` after `AddConversion`: the callback just added runs first, on
the state of the call; success ends the call with its outcome, failure hands
over to the converter as it was before. -/
theorem ReturnValue_AddConversion {ρ π : Type} (c : ReturnValueConverter ρ π)
    (r : ConversionCallbackFn ρ π) (s : HostState ρ π) (i : Nat) (type : MlirType) (ret : π) :
    (c.AddConversion r).ReturnValue s i type ret =
      match r s i type ret with
      | none => none
      | some (.success, s1) => some ⟨.success, s1, [c.conversion_callbacks_.length]⟩
      | some (.failure, s1) =>
        (c.ReturnValue s1 i type ret).map
          (fun out => { out with invoked := c.conversion_callbacks_.length :: out.invoked }) := by
  unfold ReturnValueConverter.ReturnValue ReturnValueConverter.AddConversion
  simp only
  rw [enum_reverse_concat, tryConversions]
  cases hr : r s i type ret with
  | none => rfl
  | some p =>
    obtain ⟨res, s1⟩ := p
    cases res with
    | success => rfl
    | failure =>
      simp only
      cases ht : tryConversions i type ret c.conversion_callbacks_.enum.reverse s1 with
      | none => rfl
      | some out =>
        simp only [Option.map]
        cases ho : out.result <;> simp [ho]

/-- The callbacks of a converter to which further callbacks were added. -/
theorem foldl_AddConversion_callbacks {ρ π : Type} (later : List (ConversionCallbackFn ρ π)) :
    ∀ c : ReturnValueConverter ρ π,
      (later.foldl (fun c r => c.AddConversion r) c).conversion_callbacks_ =
        c.conversion_callbacks_ ++ later := by
  induction later with
  | nil => intro c; simp
  | cons r later ih =>
    intro c
    rw [List.foldl_cons, ih]
    simp [ReturnValueConverter.AddConversion]

/-- The callbacks invoked by the loop are an initial segment of the callbacks
it was given; on failure they are all of them, on success there is one at
least. -/
theorem tryConversions_invoked {ρ π : Type} (i : Nat) (type : MlirType) (ret : π) :
    ∀ (cbs : List (Nat × ConversionCallbackFn ρ π)) (s : HostState ρ π)
      (out : ReturnValueOutcome ρ π),
      tryConversions i type ret cbs s = some out →
        out.invoked <+: cbs.map Prod.fst ∧
          (out.result = .failure → out.invoked = cbs.map Prod.fst) ∧
          (out.result = .success → out.invoked ≠ []) := by
  intro cbs
  induction cbs with
  | nil =>
    intro s out h
    simp only [tryConversions, Option.some.injEq] at h
    subst h
    simp
  | cons kr rest ih =>
    intro s out h
    obtain ⟨k, r⟩ := kr
    rw [tryConversions] at h
    cases hr : r s i type ret with
    | none => simp [hr] at h
    | some p =>
      obtain ⟨res, s1⟩ := p
      cases res with
      | success =>
        simp only [hr, Option.some.injEq] at h
        subst h
        simp [List.prefix_cons_inj, List.nil_prefix]
      | failure =>
        simp only [hr] at h
        cases ht : tryConversions i type ret rest s1 with
        | none => simp [ht] at h
        | some out1 =>
          simp only [ht, Option.some.injEq] at h
          subst h
          obtain ⟨h1, h2, -⟩ := ih s1 out1 ht
          refine ⟨?_, ?_, ?_⟩
          · simpa [List.prefix_cons_inj] using h1
          · intro hf
            simp [h2 hf]
          · intro _
            simp

/-- Positions of the callbacks of a converter in the order `ReturnValue` tries
them: the position of the callback added last comes first. -/
theorem enum_reverse_fst {α : Type} (xs : List α) :
    xs.enum.reverse.map Prod.fst = (List.range xs.length).reverse := by
  rw [List.map_reverse, List.enum_map_fst]

/-- The callbacks invoked by `ReturnValue` are an initial segment of the
registered callbacks taken from the one added last backwards; on failure they
are all of them, on success there is one at least. -/
theorem ReturnValue_invoked {ρ π : Type} (c : ReturnValueConverter ρ π) (s : HostState ρ π)
    (i : Nat) (type : MlirType) (ret : π) (out : ReturnValueOutcome ρ π)
    (h : c.ReturnValue s i type ret = some out) :
    out.invoked <+: (List.range c.conversion_callbacks_.length).reverse ∧
      (out.result = .failure →
        out.invoked = (List.range c.conversion_callbacks_.length).reverse) ∧
      (out.result = .success → out.invoked ≠ []) := by
  unfold ReturnValueConverter.ReturnValue at h
  cases ht : tryConversions i type ret c.conversion_callbacks_.enum.reverse s with
  | none => simp [ht] at h
  | some out1 =>
    have key := tryConversions_invoked i type ret _ s out1 ht
    rw [enum_reverse_fst] at key
    simp only [ht] at h
    cases ho : out1.result with
    | success =>
      simp only [ho, Option.some.injEq] at h
      subst h
      exact key
    | failure =>
      simp only [ho, Option.some.injEq] at h
      subst h
      exact ⟨key.1, fun _ => key.2.1 ho, fun hs => by simp at hs⟩

/-- C7: for a converter to which rules were added with `AddConversion`,
`ReturnValue` invokes the rules from the most recently added one backwards and
stops at the first that returns success. (1) The rule added last is invoked
first, on the state of the call: if it returns success the call ends with its
outcome and no other rule is invoked; if it returns failure the call continues
as `ReturnValue` of the converter before the addition. (2) The rules invoked
are always an initial segment of the order `rn, ..., r1`, all of them when the
call fails. (3) If `r` returns success and every rule added after `r` returns
failure (leaving the state as it was), the rules invoked are those added after
`r`, last added first, then `r`, no rule added before `r` is invoked, and the
outcome is the outcome of `r`. -/
theorem ReturnValue_most_recently_added_first {ρ π : Type} (c : ReturnValueConverter ρ π)
    (s : HostState ρ π) (i : Nat) (type : MlirType) (ret : π) :
    (∀ r : ConversionCallbackFn ρ π,
      (c.AddConversion r).ReturnValue s i type ret =
        match r s i type ret with
        | none => none
        | some (.success, s1) => some ⟨.success, s1, [c.conversion_callbacks_.length]⟩
        | some (.failure, s1) =>
          (c.ReturnValue s1 i type ret).map
            (fun out => { out with invoked := c.conversion_callbacks_.length :: out.invoked })) ∧
      (∀ out : ReturnValueOutcome ρ π, c.ReturnValue s i type ret = some out →
        out.invoked <+: (List.range c.conversion_callbacks_.length).reverse ∧
          (out.result = .failure →
            out.invoked = (List.range c.conversion_callbacks_.length).reverse) ∧
          (out.result = .success → out.invoked ≠ [])) ∧
      (∀ (r : ConversionCallbackFn ρ π) (later : List (ConversionCallbackFn ρ π))
          (s1 : HostState ρ π),
        r s i type ret = some (.success, s1) →
          (∀ f ∈ later, f s i type ret = some (.failure, s)) →
            (later.foldl (fun c f => c.AddConversion f) (c.AddConversion r)).ReturnValue
                s i type ret =
              some ⟨.success, s1,
                (List.range' c.conversion_callbacks_.length (later.length + 1)).reverse⟩) := by
  refine ⟨fun r => ReturnValue_AddConversion c r s i type ret,
    fun out h => ReturnValue_invoked c s i type ret out h, ?_⟩
  intro r later s1 hr
  induction later using List.reverseRecOn with
  | nil =>
    intro _
    rw [List.foldl_nil, ReturnValue_AddConversion, hr]
    rfl
  | append_singleton later f ih =>
    intro hl
    have hf : f s i type ret = some (.failure, s) := hl f (by simp)
    have ih1 := ih (fun g hg => hl g (by simp [hg]))
    rw [List.foldl_append, List.foldl_cons, List.foldl_nil, ReturnValue_AddConversion, hf]
    simp only
    rw [ih1, foldl_AddConversion_callbacks]
    simp only [Option.map, ReturnValueConverter.AddConversion, List.length_append,
      List.length_cons, List.length_nil]
    rw [List.range'_concat c.conversion_callbacks_.length (later.length + 1)]
    simp only [List.reverse_append, List.reverse_cons, List.reverse_nil, List.nil_append,
      List.singleton_append, one_mul]
    congr 3
    omega

/-- Witness of C7: the converter with the async memref rule added first and the
async token rule added second, on `!async.value<memref<4x4xf32>>`: the token
rule (position 1) is invoked first and fails, the memref rule (position 0) is
invoked next and handles the result. -/
theorem ReturnValue_most_recently_added_first_witness :
    ReturnAsyncMemrefAsDenseHostTensor viewMemory exampleState 0
        (.asyncValue (.memref memref_4x4xf32)) ([], 0) =
        some (.success,
          ExtractAsyncValue { exampleState with results := AllocateAt exampleState.results 0 }
            (viewMemory.load ([], 0)) 0
            (internal.Emplace (ConvertDenseHostTensor viewMemory) .float 2)) ∧
      (∀ f ∈ [ReturnAsyncToken viewMemory],
        f exampleState 0 (.asyncValue (.memref memref_4x4xf32)) ([], 0) =
          some (.failure, exampleState)) ∧
      (([ReturnAsyncToken viewMemory].foldl (fun c f => c.AddConversion f)
          (ReturnValueConverter.new.AddConversion
            (ReturnAsyncMemrefAsDenseHostTensor viewMemory))).ReturnValue exampleState 0
          (.asyncValue (.memref memref_4x4xf32)) ([], 0)).map
          (fun out => (out.result, out.invoked, out.state.results)) =
        some (.success, [1, 0], [some .unconstructed, some (.concrete .chain)]) :=
  ⟨rfl, fun f hf => by rw [List.mem_singleton.mp hf]; rfl,
    (congrArg (Option.map (fun out => (out.result, out.invoked, out.state.results)))
      ((ReturnValue_most_recently_added_first ReturnValueConverter.new exampleState 0
        (.asyncValue (.memref memref_4x4xf32)) ([], 0)).2.2
        (ReturnAsyncMemrefAsDenseHostTensor viewMemory) [ReturnAsyncToken viewMemory] _ rfl
        (fun f hf => by rw [List.mem_singleton.mp hf]; rfl))).trans rfl⟩

/-- When every callback returns failure the loop invokes them all and fails. -/
theorem tryConversions_all_fail {ρ π : Type} (i : Nat) (type : MlirType) (ret : π) :
    ∀ (cbs : List (Nat × ConversionCallbackFn ρ π)) (s : HostState ρ π),
      (∀ kr ∈ cbs, ∀ s1, ∃ s2, kr.2 s1 i type ret = some (.failure, s2)) →
        ∃ s2, tryConversions i type ret cbs s = some ⟨.failure, s2, cbs.map Prod.fst⟩ := by
  intro cbs
  induction cbs with
  | nil => intro s _; exact ⟨s, rfl⟩
  | cons kr rest ih =>
    intro s h
    obtain ⟨k, r⟩ := kr
    obtain ⟨s1, hs1⟩ := h (k, r) (List.mem_cons_self _ _) s
    obtain ⟨s2, hs2⟩ := ih s1 (fun kr hkr => h kr (List.mem_cons_of_mem _ hkr))
    refine ⟨s2, ?_⟩
    simp only at hs1
    rw [tryConversions, hs1]
    simp only [hs2, List.map_cons]

/-- When every callback returns failure and leaves the state as it was, the
loop invokes them all, fails and leaves the state as it was. -/
theorem tryConversions_all_fail_unchanged {ρ π : Type} (i : Nat) (type : MlirType) (ret : π) :
    ∀ (cbs : List (Nat × ConversionCallbackFn ρ π)) (s : HostState ρ π),
      (∀ kr ∈ cbs, ∀ s1, kr.2 s1 i type ret = some (.failure, s1)) →
        tryConversions i type ret cbs s = some ⟨.failure, s, cbs.map Prod.fst⟩ := by
  intro cbs
  induction cbs with
  | nil => intro s _; rfl
  | cons kr rest ih =>
    intro s h
    obtain ⟨k, r⟩ := kr
    have hs1 := h (k, r) (List.mem_cons_self _ _) s
    have hs2 := ih s (fun kr hkr => h kr (List.mem_cons_of_mem _ hkr))
    simp only at hs1
    rw [tryConversions, hs1]
    simp only [hs2, List.map_cons]

/-- A callback met by the loop of `ReturnValue` is a registered callback. -/
theorem mem_callbacks_of_mem_enum_reverse {α : Type} (xs : List α) (kr : Nat × α)
    (h : kr ∈ xs.enum.reverse) : kr.2 ∈ xs :=
  List.snd_mem_of_mem_enumFrom (List.mem_reverse.mp h)

/-- C8: if every registered rule returns failure on the result type (in
particular if no rule is registered), `ReturnValue` invokes every rule, returns
failure and ends by resolving result slot `i` to the error "unsupported return
type: " followed by the type; and if the failing rules leave the state as it
was, the whole effect of the call is that error at slot `i`: the slot (when it
exists) holds the error and every other slot is unchanged. -/
theorem ReturnValue_no_rule_handles {ρ π : Type} (c : ReturnValueConverter ρ π)
    (s : HostState ρ π) (i : Nat) (type : MlirType) (ret : π) :
    ((∀ r ∈ c.conversion_callbacks_, ∀ s1, ∃ s2, r s1 i type ret = some (.failure, s2)) →
      ∃ s2 : HostState ρ π, c.ReturnValue s i type ret =
        some ⟨.failure,
          { s2 with results :=
              EmitErrorAt s2.results i ("unsupported return type: " ++ type.print) },
          (List.range c.conversion_callbacks_.length).reverse⟩) ∧
      ((∀ r ∈ c.conversion_callbacks_, ∀ s1, r s1 i type ret = some (.failure, s1)) →
        c.ReturnValue s i type ret =
            some ⟨.failure,
              { s with results :=
                  EmitErrorAt s.results i ("unsupported return type: " ++ type.print) },
              (List.range c.conversion_callbacks_.length).reverse⟩ ∧
          (i < s.results.length →
            (c.ReturnValue s i type ret).map (fun out => out.state.results[i]?) =
              some (some (some (.error ("unsupported return type: " ++ type.print))))) ∧
          (∀ j : Nat, j ≠ i →
            (c.ReturnValue s i type ret).map (fun out => out.state.results[j]?) =
              some s.results[j]?)) ∧
      (ReturnValueConverter.new : ReturnValueConverter ρ π).ReturnValue s i type ret =
        some ⟨.failure,
          { s with results :=
              EmitErrorAt s.results i ("unsupported return type: " ++ type.print) }, []⟩ := by
  refine ⟨?_, ?_, rfl⟩
  · intro h
    obtain ⟨s2, hs2⟩ := tryConversions_all_fail i type ret c.conversion_callbacks_.enum.reverse s
      (fun kr hkr => h kr.2 (mem_callbacks_of_mem_enum_reverse _ kr hkr))
    refine ⟨s2, ?_⟩
    unfold ReturnValueConverter.ReturnValue
    rw [hs2, enum_reverse_fst]
  · intro h
    have h1 : c.ReturnValue s i type ret =
        some ⟨.failure,
          { s with results :=
              EmitErrorAt s.results i ("unsupported return type: " ++ type.print) },
          (List.range c.conversion_callbacks_.length).reverse⟩ := by
      unfold ReturnValueConverter.ReturnValue
      rw [tryConversions_all_fail_unchanged i type ret c.conversion_callbacks_.enum.reverse s
        (fun kr hkr => h kr.2 (mem_callbacks_of_mem_enum_reverse _ kr hkr)), enum_reverse_fst]
    refine ⟨h1, ?_, ?_⟩
    · intro hi
      rw [h1]
      simp [EmitErrorAt, hi]
    · intro j hj
      rw [h1]
      simp [EmitErrorAt, List.getElem?_set_ne (Ne.symm hj)]

/-- Witness of C8: the converter of the `cpurt.execute` kernel on the plain
memref type `memref<4x4xf32>`: both rules fail, the call fails and slot 0 is
resolved to "unsupported return type: memref<4x4xf32>", slot 1 keeps its
chain. -/
theorem ReturnValue_no_rule_handles_witness :
    (∀ r ∈ exampleKernelConverter.conversion_callbacks_, ∀ s1,
        r s1 0 (.memref memref_4x4xf32) ([], 0) = some (.failure, s1)) ∧
      (exampleKernelConverter.ReturnValue exampleState 0 (.memref memref_4x4xf32) ([], 0)).map
          (fun out => (out.result, out.invoked, out.state.results)) =
        some (.failure, [1, 0],
          [some (.error "unsupported return type: memref<4x4xf32>"), some (.concrete .chain)]) :=
  have h : ∀ r ∈ exampleKernelConverter.conversion_callbacks_, ∀ s1,
      r s1 0 (.memref memref_4x4xf32) ([], 0) = some (.failure, s1) := by
    intro r hr s1
    simp only [exampleKernelConverter, ReturnValueConverter.AddConversion,
      ReturnValueConverter.new, List.nil_append, List.cons_append, List.mem_cons,
      List.mem_singleton, List.not_mem_nil, or_false] at hr
    rcases hr with rfl | rfl <;> rfl
  ⟨h,
    (congrArg (Option.map (fun out => (out.result, out.invoked, out.state.results)))
      ((ReturnValue_no_rule_handles exampleKernelConverter exampleState 0
        (.memref memref_4x4xf32) ([], 0)).2.1 h).1).trans (by decide)⟩

/-- C9: `ReturnStridedMemref` returns failure if and only if the type is not a
memref type, and then the results are exactly as they were; for every memref
type it returns success, also when it resolves the slot to an unsupported-rank
or unsupported-element-type error; so in a converter where it is the rule
added last, `ReturnValue` of a memref type invokes that rule only and none of
the rules tried after it. -/
theorem ReturnStridedMemref_failure_iff_not_memref {ρ π : Type} (C : Converter ρ π)
    (results : RemainingResults ρ) (i : Nat) (type : MlirType) (ptr : π) :
    ((ReturnStridedMemref C results i type ptr).1 = .failure ↔
        ∀ m : MemRefType, type ≠ .memref m) ∧
      ((ReturnStridedMemref C results i type ptr).1 = .failure →
        (ReturnStridedMemref C results i type ptr).2 = results) ∧
      (∀ m : MemRefType, (ReturnStridedMemref C results i (.memref m) ptr).1 = .success) ∧
      (∀ (c : ReturnValueConverter ρ π) (s : HostState ρ π) (m : MemRefType),
        (c.AddConversion (asCallback (ReturnStridedMemref C))).ReturnValue s i (.memref m) ptr =
          some ⟨.success,
            { s with results := (ReturnStridedMemref C s.results i (.memref m) ptr).2 },
            [c.conversion_callbacks_.length]⟩) := by
  have hs : ∀ m : MemRefType, (ReturnStridedMemref C results i (.memref m) ptr).1 = .success := by
    intro m
    rw [ReturnStridedMemref_memref]
  refine ⟨?_, ?_, hs, ?_⟩
  · cases type with
    | memref m =>
      rw [hs m]
      constructor
      · intro h; exact absurd h (by decide)
      · intro h; exact absurd rfl (h m)
    | asyncToken => exact ⟨fun _ m => by simp, fun _ => rfl⟩
    | asyncValue t => exact ⟨fun _ m => by simp, fun _ => rfl⟩
    | scalar e => exact ⟨fun _ m => by simp, fun _ => rfl⟩
    | tensor shape e => exact ⟨fun _ m => by simp, fun _ => rfl⟩
  · cases type with
    | memref m =>
      rw [hs m]
      intro h; exact absurd h (by decide)
    | asyncToken => exact fun _ => rfl
    | asyncValue t => exact fun _ => rfl
    | scalar e => exact fun _ => rfl
    | tensor shape e => exact fun _ => rfl
  · intro c s m
    rw [ReturnValue_AddConversion]
    have h1 : asCallback (ReturnStridedMemref C) s i (.memref m) ptr =
        some (.success,
          { s with results := (ReturnStridedMemref C s.results i (.memref m) ptr).2 }) := by
      unfold asCallback
      rw [ReturnStridedMemref_memref]
    rw [h1]

/-- Witness of C9: on the async token type the plain memref rule returns
failure and leaves the results as they were; on a rank 7 memref of f32 it
returns success. -/
theorem ReturnStridedMemref_failure_iff_not_memref_witness :
    (∀ m : MemRefType, MlirType.asyncToken ≠ .memref m) ∧
      (ReturnStridedMemref exampleConverter exampleState.results 0 .asyncToken ([], 0)).1 =
        .failure ∧
      (ReturnStridedMemref exampleConverter exampleState.results 0 .asyncToken ([], 0)).2 =
        exampleState.results ∧
      (ReturnStridedMemref exampleConverter exampleState.results 0 (.memref memref_rank7_f32)
        ([], 0)).1 = .success :=
  have h : ∀ m : MemRefType, MlirType.asyncToken ≠ .memref m := fun m => by simp
  ⟨h,
    (ReturnStridedMemref_failure_iff_not_memref exampleConverter exampleState.results 0
      .asyncToken ([], 0)).1.mpr h,
    (ReturnStridedMemref_failure_iff_not_memref exampleConverter exampleState.results 0
      .asyncToken ([], 0)).2.1
      ((ReturnStridedMemref_failure_iff_not_memref exampleConverter exampleState.results 0
        .asyncToken ([], 0)).1.mpr h),
    (ReturnStridedMemref_failure_iff_not_memref exampleConverter exampleState.results 0
      .asyncToken ([], 0)).2.2.1 memref_rank7_f32⟩

/-- C10: the async memref rule performs the rank and element dispatch of the
plain memref rule. For every memref type `m` and result index `i` of the result
array, `ReturnAsyncStridedMemref` on the async value of `m` returns success as
`ReturnStridedMemref` does on `m`; it resolves slot `i` to an error exactly
when the plain rule does, with the same message, and then its whole effect is
the effect of the plain rule; otherwise the plain rule emplaces
`Converter::Convert<float, rank(m)>` of its pointer, and the async rule
allocates the placeholder at `i` and registers on the loaded async value the
continuation `internal::Emplace<Converter, float, rank(m)>`, which emplaces
`Converter::Convert<float, rank(m)>` of the storage. -/
theorem ReturnAsyncStridedMemref_same_dispatch {ρ π : Type} (C : Converter ρ π) (load : π → π)
    (s : HostState ρ π) (i : Nat) (m : MemRefType) (ptr : π) (hi : i < s.results.length) :
    ∃ out : HostState ρ π,
      ReturnAsyncStridedMemref C load s i (.asyncValue (.memref m)) ptr = some (.success, out) ∧
        (ReturnStridedMemref C s.results i (.memref m) ptr).1 = .success ∧
        (∀ message : String,
          (ReturnStridedMemref C s.results i (.memref m) ptr).2[i]? =
              some (some (.error message)) ↔
            out.results[i]? = some (some (.error message))) ∧
        ((∃ message : String, out.results[i]? = some (some (.error message))) →
          out = { s with results := (ReturnStridedMemref C s.results i (.memref m) ptr).2 }) ∧
        ((∀ message : String, out.results[i]? ≠ some (some (.error message))) →
          (ReturnStridedMemref C s.results i (.memref m) ptr).2 =
              EmplaceAt s.results i (C.Convert .float m.getRank ptr) ∧
            out = ExtractAsyncValue { s with results := AllocateAt s.results i } (load ptr) i
              (internal.Emplace C .float m.getRank) ∧
            ∀ (storage : π) (dst : AsyncValue ρ),
              internal.Emplace C .float m.getRank storage dst =
                .concrete (C.Convert .float m.getRank storage)) := by
  have hp := ReturnStridedMemref_memref C s.results i m ptr
  have ha := ReturnAsyncStridedMemref_memref C load s i m ptr
  by_cases hf : m.elementType = .f32
  · by_cases hr : m.getRank ≤ 5
    · simp only [hf, hr, if_true] at hp ha
      rw [ha, hp]
      refine ⟨_, rfl, rfl, ?_, ?_, ?_⟩
      · intro message
        simp [ExtractAsyncValue, EmplaceAt, AllocateAt, hi]
      · rintro ⟨message, h⟩
        simp [ExtractAsyncValue, AllocateAt, hi] at h
      · intro _
        exact ⟨rfl, rfl, fun _ _ => rfl⟩
    · simp only [hf, hr, if_true, if_false] at hp ha
      rw [ha, hp]
      refine ⟨_, rfl, rfl, fun message => Iff.rfl, fun _ => rfl, ?_⟩
      intro h
      exact absurd (by simp [EmitErrorAt, hi])
        (h ("unsupported returned memref rank: " ++ toString m.getRank))
  · simp only [hf, if_false] at hp ha
    rw [ha, hp]
    refine ⟨_, rfl, rfl, fun message => Iff.rfl, fun _ => rfl, ?_⟩
    intro h
    exact absurd (by simp [EmitErrorAt, hi])
      (h ("unsupported returned memref element type: " ++ m.elementType.print))

/-- Witness of C10 on `memref<4x4xf64>` at slot 0 of the example state: both
rules resolve slot 0 to "unsupported returned memref element type: f64". -/
theorem ReturnAsyncStridedMemref_same_dispatch_witness :
    0 < exampleState.results.length ∧
      ∃ out : HostState HostValue (List Nat × Nat),
        ReturnAsyncStridedMemref exampleConverter viewMemory.load exampleState 0
            (.asyncValue (.memref memref_4x4xf64)) ([], 0) = some (.success, out) ∧
          out.results[0]? =
            some (some (.error "unsupported returned memref element type: f64")) ∧
          (ReturnStridedMemref exampleConverter exampleState.results 0 (.memref memref_4x4xf64)
            ([], 0)).2[0]? =
            some (some (.error "unsupported returned memref element type: f64")) :=
  ⟨by decide,
    match ReturnAsyncStridedMemref_same_dispatch exampleConverter viewMemory.load exampleState 0
      memref_4x4xf64 ([], 0) (by decide) with
    | ⟨out, h1, _, h3, _, _⟩ =>
      have h0 : (ReturnStridedMemref exampleConverter exampleState.results 0
          (.memref memref_4x4xf64) ([], 0)).2[0]? =
          some (some (.error "unsupported returned memref element type: f64")) := by decide
      ⟨out, h1, (h3 _).mp h0, h0⟩⟩

/-! ## Placeholder and continuation of the async memref rule -/

/-- Running continuations keeps the number of slots. -/
theorem foldl_runContinuation_length {ρ π : Type} (outcome : Except String π) :
    ∀ (ks : List (Continuation ρ π)) (results : RemainingResults ρ),
      (ks.foldl (fun r k => runContinuation r k outcome) results).length = results.length := by
  intro ks
  induction ks with
  | nil => intro results; rfl
  | cons k ks ih =>
    intro results
    rw [List.foldl_cons, ih]
    unfold runContinuation
    cases outcome <;> simp

/-- What a continuation leaves in its destination slot. -/
theorem runContinuation_dst {ρ π : Type} (results : RemainingResults ρ) (value : π) (dst : Nat)
    (emplace_fn : π → AsyncValue ρ → AsyncValue ρ) (outcome : Except String π)
    (h : dst < results.length) :
    (runContinuation results ⟨value, dst, emplace_fn⟩ outcome)[dst]? =
      some (some (match outcome with
        | .error message => .error message
        | .ok storage => emplace_fn storage ((results.getD dst none).getD .unconstructed))) := by
  unfold runContinuation
  cases outcome <;> simp [h]

/-- C11 (as amended): for a result whose type is an async value wrapping an f32
memref of rank at most 5, `ReturnAsyncStridedMemref` returns (it waits for
nothing) with an unconstructed placeholder allocated at the result index and
with exactly one continuation added to the registry, registered on the loaded
async value with the result index as destination; when that async value
completes, the placeholder is resolved to `Converter::Convert<float, rank>` of
its storage, or to the upstream error, and no continuation on that async value
is left. -/
theorem ReturnAsyncStridedMemref_placeholder {ρ π : Type} [DecidableEq π] (C : Converter ρ π)
    (load : π → π) (s : HostState ρ π) (i : Nat) (m : MemRefType) (ptr : π)
    (hf : m.elementType = .f32) (hr : m.getRank ≤ 5) (hi : i < s.results.length) :
    ∃ out : HostState ρ π,
      ReturnAsyncStridedMemref C load s i (.asyncValue (.memref m)) ptr = some (.success, out) ∧
        out.results[i]? = some (some .unconstructed) ∧
        out.continuations =
          s.continuations ++ [⟨load ptr, i, internal.Emplace C .float m.getRank⟩] ∧
        (∀ storage : π,
          (AsyncValueCompleted out (load ptr) (.ok storage)).results[i]? =
            some (some (.concrete (C.Convert .float m.getRank storage)))) ∧
        (∀ message : String,
          (AsyncValueCompleted out (load ptr) (.error message)).results[i]? =
            some (some (.error message))) ∧
        (∀ (outcome : Except String π),
          ∀ k ∈ (AsyncValueCompleted out (load ptr) outcome).continuations,
            k.value ≠ load ptr) := by
  have ha := ReturnAsyncStridedMemref_memref C load s i m ptr
  simp only [hf, hr, if_true] at ha
  refine ⟨_, ha, ?_, rfl, ?_, ?_, ?_⟩
  · simp [ExtractAsyncValue, AllocateAt, hi]
  · intro storage
    simp only [AsyncValueCompleted, ExtractAsyncValue, List.filter_append, List.filter_cons,
      List.filter_nil, decide_True, if_true, List.foldl_append, List.foldl_cons, List.foldl_nil]
    rw [runContinuation_dst _ _ _ _ _
      (by rw [foldl_runContinuation_length]; simpa [AllocateAt] using hi)]
    rfl
  · intro message
    simp only [AsyncValueCompleted, ExtractAsyncValue, List.filter_append, List.filter_cons,
      List.filter_nil, decide_True, if_true, List.foldl_append, List.foldl_cons, List.foldl_nil]
    rw [runContinuation_dst _ _ _ _ _
      (by rw [foldl_runContinuation_length]; simpa [AllocateAt] using hi)]
  · intro outcome k hk
    simp only [AsyncValueCompleted, List.mem_filter, Bool.not_eq_true', decide_eq_false_iff_not]
      at hk
    exact hk.2

/-- Witness of C11 (as amended) on `!async.value<memref<4x4xf32>>` at slot 0 of
the example state: the placeholder is allocated and one continuation is
registered. -/
theorem ReturnAsyncStridedMemref_placeholder_witness :
    memref_4x4xf32.elementType = .f32 ∧ memref_4x4xf32.getRank ≤ 5 ∧
      0 < exampleState.results.length ∧
      ∃ out : HostState HostValue (List Nat × Nat),
        ReturnAsyncStridedMemref exampleConverter viewMemory.load exampleState 0
            (.asyncValue (.memref memref_4x4xf32)) ([], 0) = some (.success, out) ∧
          out.results[0]? = some (some .unconstructed) ∧
          out.continuations.length = 1 :=
  ⟨rfl, by decide, by decide,
    match ReturnAsyncStridedMemref_placeholder exampleConverter viewMemory.load exampleState 0
      memref_4x4xf32 ([], 0) rfl (by decide) (by decide) with
    | ⟨out, h1, h2, h3, _⟩ => ⟨out, h1, h2, by rw [h3]; rfl⟩⟩

/-- Counterexample to C11 as stated: on `!async.value<memref<4x4xf64>>`, an
async value wrapping a buffer, `ReturnAsyncStridedMemref` returns success
having allocated no placeholder (slot 0 holds the unsupported-element-type
error) and registered no continuation. -/
theorem ReturnAsyncStridedMemref_placeholder_counterexample :
    (ReturnAsyncStridedMemref exampleConverter viewMemory.load exampleState 0
        (.asyncValue (.memref memref_4x4xf64)) ([], 0)).map
        (fun o => (o.1, o.2.results, o.2.continuations.length)) =
      some (.success,
        [some (.error "unsupported returned memref element type: f64"),
          some (.concrete .chain)], 0) ∧
      (ReturnAsyncStridedMemref exampleConverter viewMemory.load exampleState 0
        (.asyncValue (.memref memref_4x4xf64)) ([], 0)).map (fun o => o.2.results[0]?) ≠
        some (some (some .unconstructed)) := by
  refine ⟨by decide, by decide⟩

/-! ## Properties of the compilation cache -/

/-- `Find` misses exactly when no entry has the key. -/
theorem Find_eq_none_iff (c : CompilationResultCache) (key : Int) :
    c.Find key = none ↔ ∀ e ∈ c.cache_, e.1 ≠ key := by
  unfold CompilationResultCache.Find
  simp [List.find?_eq_none]

/-- `Insert` on a key that has an entry keeps the cache and returns the handle
of the entry. -/
theorem Insert_of_Find_some (c : CompilationResultCache) (key : Int) (a : CompilationResult)
    (handle : AsyncValue CompilationResult) (h : c.Find key = some handle) :
    c.Insert key a = (c, handle) := by
  unfold CompilationResultCache.Insert
  rw [h]

/-- `Insert` on a key that has no entry appends the entry of an available
handle and returns it. -/
theorem Insert_of_Find_none (c : CompilationResultCache) (key : Int) (a : CompilationResult)
    (h : c.Find key = none) :
    c.Insert key a = ({ cache_ := c.cache_ ++ [(key, .concrete a)] }, .concrete a) := by
  unfold CompilationResultCache.Insert
  rw [h]

/-- `Find` after `Insert` of the same key returns the handle `Insert`
returned. -/
theorem Find_Insert_self (c : CompilationResultCache) (key : Int) (a : CompilationResult) :
    (c.Insert key a).1.Find key = some (c.Insert key a).2 := by
  cases h : c.Find key with
  | some handle =>
    rw [Insert_of_Find_some c key a handle h]
    exact h
  | none =>
    rw [Insert_of_Find_none c key a h]
    have h1 : c.cache_.find? (fun e => decide (e.1 = key)) = none := by
      unfold CompilationResultCache.Find at h
      simpa using h
    unfold CompilationResultCache.Find
    simp [List.find?_append, h1]

/-- `Insert` does not change what `Find` returns for another key. -/
theorem Find_Insert_other (c : CompilationResultCache) (key other : Int) (a : CompilationResult)
    (hne : other ≠ key) : (c.Insert key a).1.Find other = c.Find other := by
  cases h : c.Find key with
  | some handle => rw [Insert_of_Find_some c key a handle h]
  | none =>
    rw [Insert_of_Find_none c key a h]
    unfold CompilationResultCache.Find
    have hk : ¬ key = other := fun h => hne h.symm
    cases h1 : c.cache_.find? (fun e => decide (e.1 = other)) <;>
      simp [List.find?_append, h1, hk]

/-- `Insert` keeps a cache well formed. -/
theorem Insert_WellFormed (c : CompilationResultCache) (key : Int) (a : CompilationResult)
    (h : c.WellFormed) : (c.Insert key a).1.WellFormed := by
  cases hf : c.Find key with
  | some handle =>
    rw [Insert_of_Find_some c key a handle hf]
    exact h
  | none =>
    rw [Insert_of_Find_none c key a hf]
    have hk := (Find_eq_none_iff c key).mp hf
    constructor
    · simp only [List.map_append, List.map_cons, List.map_nil]
      rw [List.nodup_append]
      refine ⟨h.1, List.nodup_singleton _, ?_⟩
      intro x hx hx1
      rw [List.mem_singleton] at hx1
      subst hx1
      obtain ⟨e, he, rfl⟩ := List.mem_map.mp hx
      exact hk e he rfl
    · intro e he
      rcases List.mem_append.mp he with he | he
      · exact h.2 e he
      · rw [List.mem_singleton] at he
        subst he
        exact ⟨a, rfl⟩

/-- Every operation keeps a cache well formed. -/
theorem foldl_apply_WellFormed (ops : List CacheOp) :
    ∀ c : CompilationResultCache, c.WellFormed →
      (ops.foldl CompilationResultCache.apply c).WellFormed := by
  induction ops with
  | nil => intro c h; exact h
  | cons op ops ih =>
    intro c h
    rw [List.foldl_cons]
    apply ih
    cases op with
    | find key => exact h
    | insert key a => exact Insert_WellFormed c key a h

/-- The cache after any sequence of operations on a fresh cache is well
formed. -/
theorem run_WellFormed (ops : List CacheOp) : (CompilationResultCache.run ops).WellFormed :=
  foldl_apply_WellFormed ops CompilationResultCache.new
    ⟨List.nodup_nil, fun _ he => absurd he (List.not_mem_nil _)⟩

/-- In a list of entries with pairwise distinct keys at most one entry has a
given key. -/
theorem filter_key_length_le_one (key : Int) :
    ∀ l : List (Int × AsyncValue CompilationResult), (l.map Prod.fst).Nodup →
      (l.filter (fun e => decide (e.1 = key))).length ≤ 1 := by
  intro l
  induction l with
  | nil => intro _; simp
  | cons e l ih =>
    intro h
    rw [List.map_cons, List.nodup_cons] at h
    by_cases hk : e.1 = key
    · have hnil : l.filter (fun e => decide (e.1 = key)) = [] := by
        rw [List.filter_eq_nil_iff]
        intro x hx hx1
        apply h.1
        rw [hk]
        exact List.mem_map.mpr ⟨x, hx, by simpa using hx1⟩
      simp [List.filter_cons, hk, hnil]
    · simpa [List.filter_cons, hk] using ih h.2

/-- A key that no operation of the sequence inserted has no entry. -/
theorem foldl_apply_Find_none (key : Int) (ops : List CacheOp) :
    ∀ c : CompilationResultCache, c.Find key = none →
      (∀ op ∈ ops, ∀ k a, op = CacheOp.insert k a → k ≠ key) →
        (ops.foldl CompilationResultCache.apply c).Find key = none := by
  induction ops with
  | nil => intro c h _; exact h
  | cons op ops ih =>
    intro c h hops
    rw [List.foldl_cons]
    apply ih
    · cases op with
      | find k => exact h
      | insert k a =>
        have hk : k ≠ key := hops _ (List.mem_cons_self _ _) k a rfl
        simp only [CompilationResultCache.apply]
        rw [Find_Insert_other c k key a (Ne.symm hk)]
        exact h
    · intro op1 hop1
      exact hops op1 (List.mem_cons_of_mem _ hop1)

/-- C14: for the cache after any sequence of operations on a fresh cache, a key
`k` and an artifact `a`: `Find(k)` returns absent if no operation inserted `k`;
a `Find` leaves the cache as it is; `Insert(k, a)` returns an available handle;
and for every cache state whatever, `Find(k)` after `Insert(k, a)` returns the
handle that `Insert` returned, while `Find` of another key returns what it
returned before. -/
theorem cache_Find_Insert (ops : List CacheOp) (k : Int) (a : CompilationResult) :
    ((∀ op ∈ ops, ∀ key cr, op = CacheOp.insert key cr → key ≠ k) →
        (CompilationResultCache.run ops).Find k = none) ∧
      (CompilationResultCache.run ops).apply (.find k) = CompilationResultCache.run ops ∧
      (∃ cr, ((CompilationResultCache.run ops).Insert k a).2 = AsyncValue.concrete cr) ∧
      (∀ c : CompilationResultCache, (c.Insert k a).1.Find k = some (c.Insert k a).2) ∧
      (∀ (c : CompilationResultCache) (other : Int), other ≠ k →
        (c.Insert k a).1.Find other = c.Find other) := by
  refine ⟨?_, rfl, ?_, fun c => Find_Insert_self c k a,
    fun c other hne => Find_Insert_other c k other a hne⟩
  · intro h
    exact foldl_apply_Find_none k ops CompilationResultCache.new rfl h
  · cases hf : (CompilationResultCache.run ops).Find k with
    | some handle =>
      rw [Insert_of_Find_some _ k a handle hf]
      unfold CompilationResultCache.Find at hf
      obtain ⟨e, he, rfl⟩ := Option.map_eq_some'.mp hf
      exact (run_WellFormed ops).2 e (List.mem_of_find?_eq_some he)
    | none =>
      rw [Insert_of_Find_none _ k a hf]
      exact ⟨a, rfl⟩

/-- C15: after any sequence of `Find` and `Insert` operations on a fresh cache,
at most one entry is retained per key; and when two callers have both missed
on `Find(k)` and both call `Insert(k, .)`, each `Insert` returns an available
handle and afterwards the cache holds exactly one entry for `k`, the one
`Find(k)` returns. -/
theorem cache_one_entry_per_key (ops : List CacheOp) (k : Int) :
    ((CompilationResultCache.run ops).cache_.filter (fun e => decide (e.1 = k))).length ≤ 1 ∧
      (∀ (c : CompilationResultCache) (a1 a2 : CompilationResult),
        ((c.apply (.find k)).apply (.find k)).Find k = none →
          (∃ cr, (c.Insert k a1).2 = AsyncValue.concrete cr) ∧
            (∃ cr, ((c.Insert k a1).1.Insert k a2).2 = AsyncValue.concrete cr) ∧
            (((c.Insert k a1).1.Insert k a2).1.cache_.filter
              (fun e => decide (e.1 = k))).length = 1 ∧
            ((c.Insert k a1).1.Insert k a2).1.Find k =
              some ((c.Insert k a1).1.Insert k a2).2) := by
  refine ⟨filter_key_length_le_one k _ (run_WellFormed ops).1, ?_⟩
  intro c a1 a2 hmiss
  have hmiss1 : c.Find k = none := hmiss
  have h1 := Insert_of_Find_none c k a1 hmiss1
  have hf1 : (c.Insert k a1).1.Find k = some (.concrete a1) := by
    rw [Find_Insert_self, h1]
  have h2 := Insert_of_Find_some (c.Insert k a1).1 k a2 _ hf1
  refine ⟨⟨a1, by rw [h1]⟩, ⟨a1, by rw [h2]⟩, ?_, ?_⟩
  · rw [h2, h1]
    have hk := (Find_eq_none_iff c k).mp hmiss1
    have hnil : c.cache_.filter (fun e => decide (e.1 = k)) = [] := by
      rw [List.filter_eq_nil_iff]
      intro x hx hx1
      exact hk x hx (by simpa using hx1)
    simp [List.filter_append, hnil]
  · rw [h2]
    exact hf1

/-- Witness of C14: after inserting key 7 into a fresh cache and looking it up,
key 9 is absent, and `Find(7)` after `Insert(7, .)` on a fresh cache returns the
handle of the insertion. -/
theorem cache_Find_Insert_witness :
    (∀ op ∈ exampleCacheOps, ∀ key cr, op = CacheOp.insert key cr → key ≠ 9) ∧
      (CompilationResultCache.run exampleCacheOps).Find 9 = none ∧
      (CompilationResultCache.new.Insert 7 exampleCompilationResult).1.Find 7 =
        some (CompilationResultCache.new.Insert 7 exampleCompilationResult).2 :=
  have h : ∀ op ∈ exampleCacheOps, ∀ key cr, op = CacheOp.insert key cr → key ≠ 9 := by
    intro op hop key cr h
    simp only [exampleCacheOps, List.mem_cons, List.mem_singleton, List.not_mem_nil,
      or_false] at hop
    rcases hop with rfl | rfl
    · cases h
      decide
    · cases h
  ⟨h, (cache_Find_Insert exampleCacheOps 9 exampleCompilationResult).1 h,
    (cache_Find_Insert exampleCacheOps 7 exampleCompilationResult).2.2.2.1
      CompilationResultCache.new⟩

/-- Witness of C15: two callers that missed key 7 on a fresh cache and both
insert it leave exactly one entry for key 7. -/
theorem cache_one_entry_per_key_witness :
    ((CompilationResultCache.new.apply (.find 7)).apply (.find 7)).Find 7 = none ∧
      (((CompilationResultCache.new.Insert 7 exampleCompilationResult).1.Insert 7
        exampleTensorInputResult).1.cache_.filter (fun e => decide (e.1 = 7))).length = 1 :=
  ⟨rfl,
    ((cache_one_entry_per_key exampleCacheOps 7).2 CompilationResultCache.new
      exampleCompilationResult exampleTensorInputResult rfl).2.2.1⟩

/-! ## Properties of the `cpurt.compile` kernel -/

/-- C12: cache reuse. For every call of the `Compile` kernel with exactly one
nested symbol whose call-site key has an entry in the cache, `Compile` returns
the handle that `Find(key)` yields, the log of compiler calls and the cache are
as they were (the whole state is unchanged), and the outcome is the same
whatever the compiler is. -/
theorem Compile_cache_hit
    (compile : String → String → CompilationOptions → Except String CompilationResult)
    (host : HostContext) (kernel : CompilationUnitAttribute) (exec_ctx : ExecutionContext)
    (s : CompileState) (cache : CompilationResultCache) (handle : AsyncValue CompilationResult)
    (h1 : kernel.nested_symbols.length = 1) (hc : s.resource_context = some cache)
    (hf : cache.Find exec_ctx.location = some handle) :
    Compile compile host kernel exec_ctx s = (handle, s) ∧
      (Compile compile host kernel exec_ctx s).2.compiler_calls = s.compiler_calls ∧
      (Compile compile host kernel exec_ctx s).2.resource_context = some cache ∧
      (∀ compile2, Compile compile2 host kernel exec_ctx s = (handle, s)) := by
  have key : ∀ compile2, Compile compile2 host kernel exec_ctx s = (handle, s) := by
    intro compile2
    obtain ⟨res, calls⟩ := s
    simp only at hc
    subst hc
    unfold Compile
    simp [h1, GetOrCreateResource, hf]
  refine ⟨key compile, ?_, ?_, key⟩
  · rw [key compile]
  · rw [key compile]
    exact hc

/-- Witness of C12: with key 7 cached, `Compile` at location 7 of a unit whose
module text is "module B" returns the cached handle and leaves the state as it
was. -/
theorem Compile_cache_hit_witness :
    exampleKernelB.nested_symbols.length = 1 ∧
      (CompilationResultCache.new.Insert 7 exampleCompilationResult).1.Find
          exampleContextAt7.location = some (.concrete exampleCompilationResult) ∧
      Compile exampleCompiler exampleHost exampleKernelB exampleContextAt7
          ⟨some (CompilationResultCache.new.Insert 7 exampleCompilationResult).1, []⟩ =
        (.concrete exampleCompilationResult,
          ⟨some (CompilationResultCache.new.Insert 7 exampleCompilationResult).1, []⟩) :=
  ⟨rfl, rfl,
    (Compile_cache_hit exampleCompiler exampleHost exampleKernelB exampleContextAt7
      ⟨some (CompilationResultCache.new.Insert 7 exampleCompilationResult).1, []⟩
      (CompilationResultCache.new.Insert 7 exampleCompilationResult).1
      (.concrete exampleCompilationResult) rfl rfl rfl).1⟩

/-- `Compile` on a key that has an entry: the handle of the entry is returned,
the compiler is not called. -/
theorem Compile_of_Find_some
    (compile : String → String → CompilationOptions → Except String CompilationResult)
    (host : HostContext) (kernel : CompilationUnitAttribute) (exec_ctx : ExecutionContext)
    (s : CompileState) (handle : AsyncValue CompilationResult)
    (h1 : kernel.nested_symbols.length = 1)
    (hf : (GetOrCreateResource s.resource_context).Find exec_ctx.location = some handle) :
    Compile compile host kernel exec_ctx s =
      (handle,
        { resource_context := some (GetOrCreateResource s.resource_context)
          compiler_calls := s.compiler_calls }) := by
  unfold Compile
  simp [h1, hf]

/-- `Compile` on a key that has no entry, when the compiler succeeds: the
compiler is called once, the artifact is inserted under the key and its handle
returned. -/
theorem Compile_of_Find_none_ok
    (compile : String → String → CompilationOptions → Except String CompilationResult)
    (host : HostContext) (kernel : CompilationUnitAttribute) (exec_ctx : ExecutionContext)
    (s : CompileState) (cr : CompilationResult)
    (h1 : kernel.nested_symbols.length = 1)
    (hf : (GetOrCreateResource s.resource_context).Find exec_ctx.location = none)
    (hc : compile kernel.serialized_operation (kernel.nested_symbols.headD "")
      ⟨0, host.num_worker_threads⟩ = .ok cr) :
    Compile compile host kernel exec_ctx s =
      (.concrete cr,
        { resource_context := some
            { cache_ := (GetOrCreateResource s.resource_context).cache_ ++
                [(exec_ctx.location, .concrete cr)] }
          compiler_calls := s.compiler_calls ++
            [(kernel.serialized_operation, kernel.nested_symbols.headD "",
              ⟨0, host.num_worker_threads⟩)] }) := by
  unfold Compile
  rw [if_neg (not_not.mpr h1)]
  simp only [hf, hc, Insert_of_Find_none _ _ _ hf]

/-- `Compile` on a key that has no entry, when the compiler fails: the compiler
is called once, the error is returned and nothing is inserted. -/
theorem Compile_of_Find_none_error
    (compile : String → String → CompilationOptions → Except String CompilationResult)
    (host : HostContext) (kernel : CompilationUnitAttribute) (exec_ctx : ExecutionContext)
    (s : CompileState) (err : String)
    (h1 : kernel.nested_symbols.length = 1)
    (hf : (GetOrCreateResource s.resource_context).Find exec_ctx.location = none)
    (hc : compile kernel.serialized_operation (kernel.nested_symbols.headD "")
      ⟨0, host.num_worker_threads⟩ = .error err) :
    Compile compile host kernel exec_ctx s =
      (.error err,
        { resource_context := some (GetOrCreateResource s.resource_context)
          compiler_calls := s.compiler_calls ++
            [(kernel.serialized_operation, kernel.nested_symbols.headD "",
              ⟨0, host.num_worker_threads⟩)] }) := by
  unfold Compile
  rw [if_neg (not_not.mpr h1)]
  simp only [hf, hc]

/-- C13: the cache key of `Compile` is the call-site location only. (1) For two
calls with the same location, where the first finds no entry and compiles
successfully to `cr1`, the second returns the artifact of the first and leaves
the state as the first left it, whatever its compilation unit (module text,
entrypoint) and whatever the compiler. (2) Two calls with different locations
and the same compilation unit, neither location having an entry, each call the
compiler and each insert an entry of their own. -/
theorem Compile_key_is_location
    (compile : String → String → CompilationOptions → Except String CompilationResult)
    (host : HostContext) (kernel1 kernel2 : CompilationUnitAttribute)
    (ctx1 ctx2 : ExecutionContext) (s : CompileState) (cr1 : CompilationResult)
    (h1 : kernel1.nested_symbols.length = 1)
    (hmiss : (GetOrCreateResource s.resource_context).Find ctx1.location = none)
    (hc : compile kernel1.serialized_operation (kernel1.nested_symbols.headD "")
      ⟨0, host.num_worker_threads⟩ = .ok cr1) :
    (Compile compile host kernel1 ctx1 s).1 = .concrete cr1 ∧
      (kernel2.nested_symbols.length = 1 → ctx2.location = ctx1.location →
        ∀ compile2,
          Compile compile2 host kernel2 ctx2 (Compile compile host kernel1 ctx1 s).2 =
            (.concrete cr1, (Compile compile host kernel1 ctx1 s).2)) ∧
      (ctx2.location ≠ ctx1.location →
        (GetOrCreateResource s.resource_context).Find ctx2.location = none →
          Compile compile host kernel1 ctx2 (Compile compile host kernel1 ctx1 s).2 =
            (.concrete cr1,
              { resource_context := some
                  { cache_ := (GetOrCreateResource s.resource_context).cache_ ++
                      [(ctx1.location, .concrete cr1), (ctx2.location, .concrete cr1)] }
                compiler_calls := s.compiler_calls ++
                  [(kernel1.serialized_operation, kernel1.nested_symbols.headD "",
                      ⟨0, host.num_worker_threads⟩),
                    (kernel1.serialized_operation, kernel1.nested_symbols.headD "",
                      ⟨0, host.num_worker_threads⟩)] })) := by
  have first := Compile_of_Find_none_ok compile host kernel1 ctx1 s cr1 h1 hmiss hc
  have hins := Insert_of_Find_none _ ctx1.location cr1 hmiss
  have hfind : (⟨(GetOrCreateResource s.resource_context).cache_ ++
      [(ctx1.location, .concrete cr1)]⟩ : CompilationResultCache).Find ctx1.location =
      some (.concrete cr1) := by
    have := Find_Insert_self (GetOrCreateResource s.resource_context) ctx1.location cr1
    rw [hins] at this
    exact this
  refine ⟨by rw [first], ?_, ?_⟩
  · intro h2 hloc compile2
    rw [Compile_of_Find_some compile2 host kernel2 ctx2 _ (.concrete cr1) h2
      (by rw [first, hloc]; exact hfind)]
    rw [first]
    rfl
  · intro hne hmiss2
    have hmiss3 : (⟨(GetOrCreateResource s.resource_context).cache_ ++
        [(ctx1.location, .concrete cr1)]⟩ : CompilationResultCache).Find ctx2.location =
        none := by
      have := Find_Insert_other (GetOrCreateResource s.resource_context) ctx1.location
        ctx2.location cr1 hne
      rw [hins] at this
      rw [this]
      exact hmiss2
    rw [Compile_of_Find_none_ok compile host kernel1 ctx2 _ cr1 h1
      (by rw [first]; exact hmiss3) hc]
    rw [first]
    simp [GetOrCreateResource]

/-- Witness of C13: with no cache yet, `Compile` of "module A" at location 7
compiles; `Compile` of "module B" at the same location then returns the
artifact of "module A"; `Compile` of "module A" at location 9 compiles again and
the cache holds an entry for 7 and an entry for 9. -/
theorem Compile_key_is_location_witness :
    exampleKernelA.nested_symbols.length = 1 ∧
      (GetOrCreateResource exampleCompileState.resource_context).Find
        exampleContextAt7.location = none ∧
      exampleCompiler exampleKernelA.serialized_operation
          (exampleKernelA.nested_symbols.headD "") ⟨0, exampleHost.num_worker_threads⟩ =
        .ok exampleCompilationResult ∧
      Compile exampleCompiler exampleHost exampleKernelB exampleContextAt7
          (Compile exampleCompiler exampleHost exampleKernelA exampleContextAt7
            exampleCompileState).2 =
        (.concrete exampleCompilationResult,
          (Compile exampleCompiler exampleHost exampleKernelA exampleContextAt7
            exampleCompileState).2) ∧
      (Compile exampleCompiler exampleHost exampleKernelA exampleContextAt9
          (Compile exampleCompiler exampleHost exampleKernelA exampleContextAt7
            exampleCompileState).2).2.compiler_calls.length = 2 :=
  ⟨rfl, rfl, rfl,
    (Compile_key_is_location exampleCompiler exampleHost exampleKernelA exampleKernelB
      exampleContextAt7 exampleContextAt7 exampleCompileState exampleCompilationResult
      rfl rfl rfl).2.1 rfl rfl exampleCompiler,
    (congrArg (fun out => out.2.compiler_calls.length)
      ((Compile_key_is_location exampleCompiler exampleHost exampleKernelA exampleKernelB
        exampleContextAt7 exampleContextAt9 exampleCompileState exampleCompilationResult
        rfl rfl rfl).2.2 (by decide) rfl)).trans rfl⟩

/-! ## Conversion of the operands of the `cpurt.execute` kernel -/

/-- The conversion loop stops with the positional error at the first operand
whose input type is not a memref, when the operands before it convert. -/
theorem ConvertTensorOperandsToMemrefDesc.loop_not_memref {ρ π τ : Type}
    (lib : CpurtLibrary ρ π τ) (signature : FunctionType) :
    ∀ (operands : List τ) (i0 : Nat) (acc : List MemrefDesc) (k : Nat) (input : MlirType),
      k < operands.length →
        signature.getInput (i0 + k) = some input →
          input.dyn_cast_MemRefType = none →
            (∀ (j : Nat) (operand : τ), j < k → operands[j]? = some operand →
              ∃ (m : MemRefType) (d : MemrefDesc),
                signature.getInput (i0 + j) = some (.memref m) ∧
                  lib.ConvertTensorToMemrefDesc m operand = .ok d) →
              ConvertTensorOperandsToMemrefDesc.loop lib signature operands i0 acc =
                some (.error ("expected memref operand at #" ++ toString (i0 + k) ++ ", got: " ++
                  input.print)) := by
  intro operands
  induction operands with
  | nil => intro i0 acc k input hk; exact absurd hk (by simp)
  | cons operand operands ih =>
    intro i0 acc k input hk hin hnot hbefore
    cases k with
    | zero =>
      unfold ConvertTensorOperandsToMemrefDesc.loop
      simp only [Nat.add_zero] at hin ⊢
      rw [hin]
      simp only [hnot]
    | succ k =>
      obtain ⟨m, d, hm, hd⟩ := hbefore 0 operand (Nat.succ_pos k) (by simp)
      unfold ConvertTensorOperandsToMemrefDesc.loop
      simp only [Nat.add_zero] at hm
      rw [hm]
      simp only [MlirType.dyn_cast_MemRefType, hd]
      have hk1 : k < operands.length := by simpa using hk
      have hin1 : signature.getInput (i0 + 1 + k) = some input := by
        rw [← hin]; congr 1; omega
      have e : i0 + 1 + k = i0 + (k + 1) := by omega
      rw [ih (i0 + 1) (acc ++ [d]) k input hk1 hin1 hnot ?_, e]
      · intro j op hj hop
        obtain ⟨m1, d1, hm1, hd1⟩ := hbefore (j + 1) op (by omega) (by simpa using hop)
        refine ⟨m1, d1, ?_, hd1⟩
        rw [← hm1]; congr 1; omega

/-- The conversion loop succeeds when every operand converts against its input
type, and then it has pushed the descriptor of each operand, in operand
order. -/
theorem ConvertTensorOperandsToMemrefDesc.loop_ok {ρ π τ : Type}
    (lib : CpurtLibrary ρ π τ) (signature : FunctionType) :
    ∀ (operands : List τ) (i0 : Nat) (acc : List MemrefDesc),
      (∀ (j : Nat) (operand : τ), operands[j]? = some operand →
        ∃ (m : MemRefType) (d : MemrefDesc),
          signature.getInput (i0 + j) = some (.memref m) ∧
            lib.ConvertTensorToMemrefDesc m operand = .ok d) →
        ∃ ds : List MemrefDesc,
          ConvertTensorOperandsToMemrefDesc.loop lib signature operands i0 acc =
              some (.ok (acc ++ ds)) ∧
            ds.length = operands.length ∧
            ∀ (j : Nat) (operand : τ), operands[j]? = some operand →
              ∃ (m : MemRefType) (d : MemrefDesc),
                signature.getInput (i0 + j) = some (.memref m) ∧
                  lib.ConvertTensorToMemrefDesc m operand = .ok d ∧ ds[j]? = some d := by
  intro operands
  induction operands with
  | nil =>
    intro i0 acc _
    exact ⟨[], by simp [ConvertTensorOperandsToMemrefDesc.loop], rfl, fun j op h => by simp at h⟩
  | cons operand operands ih =>
    intro i0 acc h
    obtain ⟨m, d, hm, hd⟩ := h 0 operand (by simp)
    simp only [Nat.add_zero] at hm
    obtain ⟨ds, hds, hlen, hall⟩ := ih (i0 + 1) (acc ++ [d]) (by
      intro j op hop
      obtain ⟨m1, d1, hm1, hd1⟩ := h (j + 1) op (by simpa using hop)
      refine ⟨m1, d1, ?_, hd1⟩
      rw [← hm1]; congr 1; omega)
    refine ⟨d :: ds, ?_, by simp [hlen], ?_⟩
    · unfold ConvertTensorOperandsToMemrefDesc.loop
      rw [hm]
      simp only [MlirType.dyn_cast_MemRefType, hd, hds]
      simp
    · intro j op hop
      cases j with
      | zero =>
        simp only [List.getElem?_cons_zero, Option.some.injEq] at hop
        subst hop
        exact ⟨m, d, by simpa using hm, hd, by simp⟩
      | succ j =>
        obtain ⟨m1, d1, hm1, hd1, hds1⟩ := hall j op (by simpa using hop)
        refine ⟨m1, d1, ?_, hd1, by simpa using hds1⟩
        rw [← hm1]; congr 1; omega

/-- C16: `ConvertTensorOperandsToMemrefDesc` rejects a non-memref input type
with a positional error: if operand `i` exists, the input type at `i` is not a
memref and every operand before `i` converted successfully against a memref
input type, the result is the error "expected memref operand at #i, got: "
followed by the type; and if every operand converts against its memref input
type, the result is success with exactly one descriptor per operand, the
descriptor at position `j` being the conversion of operand `j`. -/
theorem ConvertTensorOperandsToMemrefDesc_positional {ρ π τ : Type} (lib : CpurtLibrary ρ π τ)
    (signature : FunctionType) (operands : List τ) :
    (∀ (i : Nat) (input : MlirType), i < operands.length →
      signature.getInput i = some input → input.dyn_cast_MemRefType = none →
        (∀ (j : Nat) (operand : τ), j < i → operands[j]? = some operand →
          ∃ (m : MemRefType) (d : MemrefDesc),
            signature.getInput j = some (.memref m) ∧
              lib.ConvertTensorToMemrefDesc m operand = .ok d) →
          ConvertTensorOperandsToMemrefDesc lib signature operands =
            some (.error ("expected memref operand at #" ++ toString i ++ ", got: " ++
              input.print))) ∧
      ((∀ (j : Nat) (operand : τ), operands[j]? = some operand →
          ∃ (m : MemRefType) (d : MemrefDesc),
            signature.getInput j = some (.memref m) ∧
              lib.ConvertTensorToMemrefDesc m operand = .ok d) →
        ∃ memrefs : List MemrefDesc,
          ConvertTensorOperandsToMemrefDesc lib signature operands = some (.ok memrefs) ∧
            memrefs.length = operands.length ∧
            ∀ (j : Nat) (operand : τ), operands[j]? = some operand →
              ∃ (m : MemRefType) (d : MemrefDesc),
                signature.getInput j = some (.memref m) ∧
                  lib.ConvertTensorToMemrefDesc m operand = .ok d ∧ memrefs[j]? = some d) := by
  constructor
  · intro i input hi hin hnot hbefore
    have h := ConvertTensorOperandsToMemrefDesc.loop_not_memref lib signature operands 0 [] i
      input hi (by simpa using hin) hnot (by simpa using hbefore)
    simpa [ConvertTensorOperandsToMemrefDesc] using h
  · intro hall
    obtain ⟨ds, hds, hlen, hd⟩ := ConvertTensorOperandsToMemrefDesc.loop_ok lib signature
      operands 0 [] (by simpa using hall)
    refine ⟨ds, by simpa [ConvertTensorOperandsToMemrefDesc] using hds, hlen, ?_⟩
    simpa using hd

/-- Witness of C16: two operands against the signature
`(memref<4x4xf32>, tensor<4x4xf32>)`: operand 0 converts, the input type at
position 1 is not a memref, and the error names position 1. -/
theorem ConvertTensorOperandsToMemrefDesc_positional_witness :
    1 < [tensor_4x4, tensor_4x4].length ∧
      exampleMixedSignature.getInput 1 = some (.tensor [4, 4] .f32) ∧
      (MlirType.tensor [4, 4] .f32).dyn_cast_MemRefType = none ∧
      ConvertTensorOperandsToMemrefDesc (specLibrary viewMemory) exampleMixedSignature
          [tensor_4x4, tensor_4x4] =
        some (.error "expected memref operand at #1, got: tensor<4x4xf32>") :=
  ⟨by decide, rfl, rfl,
    (ConvertTensorOperandsToMemrefDesc_positional (specLibrary viewMemory) exampleMixedSignature
      [tensor_4x4, tensor_4x4]).1 1 (.tensor [4, 4] .f32) (by decide) rfl rfl
      (by
        intro j operand hj hop
        have hj0 : j = 0 := by omega
        subst hj0
        simp only [List.getElem?_cons_zero, Option.some.injEq] at hop
        subst hop
        exact ⟨memref_4x4xf32, exampleMemrefDesc, rfl, rfl⟩)⟩

/-! ## Verification of operands and call frames -/

/-- A predicate holds of all pairs of a zip exactly when it holds of the
entries at every common position. -/
theorem zip_all_iff {α β : Type} (p : α × β → Bool) :
    ∀ (xs : List α) (ys : List β),
      (xs.zip ys).all p = true ↔
        ∀ (d : Nat) (x : α) (y : β), xs[d]? = some x → ys[d]? = some y → p (x, y) = true := by
  intro xs
  induction xs with
  | nil => intro ys; simp
  | cons x xs ih =>
    intro ys
    cases ys with
    | nil => simp
    | cons y ys =>
      simp only [List.zip_cons_cons, List.all_cons, Bool.and_eq_true, ih]
      constructor
      · rintro ⟨h0, h⟩ d x1 y1 hx hy
        cases d with
        | zero =>
          simp only [List.getElem?_cons_zero, Option.some.injEq] at hx hy
          subst hx; subst hy
          exact h0
        | succ d =>
          simp only [List.getElem?_cons_succ] at hx hy
          exact h d x1 y1 hx hy
      · intro h
        refine ⟨h 0 x y (by simp) (by simp), ?_⟩
        intro d x1 y1 hx hy
        exact h (d + 1) x1 y1 (by simpa using hx) (by simpa using hy)

/-- C17: `VerifyMemrefOperand(type, memref)` succeeds if and only if the rank of
the descriptor (the length of its sizes) equals the rank of the memref type
and, at every dimension `d`, the dimension of the type is dynamic (negative) or
equals `memref.sizes[d]`; so a type whose dimensions are all dynamic accepts
every descriptor of its rank. -/
theorem VerifyMemrefOperand_iff (type : MemRefType) (memref : MemrefDesc) :
    (VerifyMemrefOperand type memref = none ↔
        memref.sizes.length = type.getRank ∧
          ∀ (d : Nat) (td sd : Int), type.shape[d]? = some td → memref.sizes[d]? = some sd →
            td < 0 ∨ td = sd) ∧
      (memref.sizes.length = type.getRank → (∀ td ∈ type.shape, td < 0) →
        VerifyMemrefOperand type memref = none) := by
  have key : VerifyMemrefOperand type memref = none ↔
      memref.sizes.length = type.getRank ∧
        ∀ (d : Nat) (td sd : Int), type.shape[d]? = some td → memref.sizes[d]? = some sd →
          td < 0 ∨ td = sd := by
    unfold VerifyMemrefOperand
    by_cases hlen : memref.sizes.length = type.getRank
    · simp only [hlen, ne_eq, not_true_eq_false, if_false, true_and]
      by_cases hall : (type.shape.zip memref.sizes).all
          (fun ds => decide (ds.1 < 0) || decide (ds.1 = ds.2)) = true
      · simp only [hall, if_true, true_iff]
        intro d td sd htd hsd
        have := (zip_all_iff _ _ _).mp hall d td sd htd hsd
        simpa using this
      · simp only [hall, if_false]
        constructor
        · intro h; exact absurd h (by simp)
        · intro h
          exfalso
          apply hall
          rw [zip_all_iff]
          intro d td sd htd hsd
          simpa using h d td sd htd hsd
    · simp [hlen]
  refine ⟨key, ?_⟩
  intro hlen hdyn
  rw [key]
  refine ⟨hlen, ?_⟩
  intro d td sd htd _
  exact Or.inl (hdyn td (List.getElem?_mem htd))

/-- Witness of C17: a 7x4 descriptor is accepted by `memref<?x4xf32>`, whose
first dimension is dynamic, and rejected by `memref<4x4xf32>`. -/
theorem VerifyMemrefOperand_iff_witness :
    VerifyMemrefOperand memref_dynx4xf32 exampleMemrefDesc7x4 = none ∧
      (exampleMemrefDesc7x4.sizes.length = memref_dynx4xf32.getRank ∧
        ∀ (d : Nat) (td sd : Int), memref_dynx4xf32.shape[d]? = some td →
          exampleMemrefDesc7x4.sizes[d]? = some sd → td < 0 ∨ td = sd) ∧
      VerifyMemrefOperand memref_4x4xf32 exampleMemrefDesc7x4 ≠ none :=
  ⟨by decide,
    (VerifyMemrefOperand_iff memref_dynx4xf32 exampleMemrefDesc7x4).1.mp (by decide),
    by decide⟩

/-! ## The layout of the results -/

/-- An offset that is a multiple of the pointer size is naturally aligned. -/
theorem alignTo_pointerSize (size : Nat) (h : size % 8 = 0) : alignTo size pointerSize = size := by
  unfold alignTo pointerSize
  omega

/-- The storage of a result is a positive multiple of the pointer size. -/
theorem resultStorageSize_pos (t : MlirType) :
    resultStorageSize t % 8 = 0 ∧ 8 ≤ resultStorageSize t := by
  cases t with
  | memref m =>
    simp only [resultStorageSize, pointerSize]
    omega
  | _ => simp [resultStorageSize, pointerSize]

/-- The result loop of the signature verifier, when it accepts: each result is
placed at the size so far plus the storage of the results before it, the size
grows by the storage of every result, and the async flag is raised exactly by
the asynchronous results. -/
theorem verifyResults_ok :
    ∀ (types : List MlirType) (i : Nat) (layout out : ResultsMemoryLayout),
      layout.size % 8 = 0 → verifyResults types i layout = .ok out →
        out.offsets =
            layout.offsets ++ (List.range types.length).map
              (fun j => layout.size + ((types.take j).map resultStorageSize).sum) ∧
          out.size = layout.size + (types.map resultStorageSize).sum ∧
          out.has_async_results =
            (layout.has_async_results ||
              types.any (fun t => (classifyResult t).any ResultClass.isAsync)) := by
  intro types
  induction types with
  | nil =>
    intro i layout out _ h
    simp only [verifyResults, Except.ok.injEq] at h
    subst h
    simp
  | cons t types ih =>
    intro i layout out hs h
    unfold verifyResults at h
    cases hc : classifyResult t with
    | none => simp [hc] at h
    | some cls =>
      simp only [hc, alignTo_pointerSize layout.size hs] at h
      have hm := (resultStorageSize_pos t).1
      obtain ⟨h1, h2, h3⟩ := ih (i + 1) _ out (by simp only; omega) h
      refine ⟨?_, ?_, ?_⟩
      · rw [h1]
        simp only [List.append_assoc, List.singleton_append, List.length_cons,
          List.range_succ_eq_map, List.map_cons, List.map_map, List.take_zero, List.map_nil,
          List.sum_nil, Nat.add_zero]
        congr 2
        apply List.map_congr_left
        intro j _
        simp only [Function.comp, List.take_succ_cons, List.map_cons, List.sum_cons]
        omega
      · rw [h2]
        simp only [List.map_cons, List.sum_cons]
        omega
      · rw [h3]
        simp [hc, Bool.or_assoc]

/-- An accepted signature yields the layout computed by the result loop from
the empty layout. -/
theorem VerifyEntrypointSignature_ok (signature : FunctionType) (layout : ResultsMemoryLayout)
    (h : CompilationResult.VerifyEntrypointSignature signature = .ok layout) :
    verifyResults signature.results 0 ⟨false, 0, []⟩ = .ok layout := by
  unfold CompilationResult.VerifyEntrypointSignature at h
  cases hi : verifyInputs signature.inputs 0 with
  | none => simpa [hi] using h
  | some err => simp [hi] at h

/-- The offsets and the size of the layout of an accepted signature: result `i`
is placed at the storage of the results before it, and the size is the storage
of all results. -/
theorem VerifyEntrypointSignature_offsets (signature : FunctionType)
    (layout : ResultsMemoryLayout)
    (h : CompilationResult.VerifyEntrypointSignature signature = .ok layout) :
    layout.offsets = (List.range signature.getNumResults).map
        (fun i => ((signature.results.take i).map resultStorageSize).sum) ∧
      layout.size = (signature.results.map resultStorageSize).sum := by
  obtain ⟨h1, h2, -⟩ := verifyResults_ok signature.results 0 ⟨false, 0, []⟩ layout rfl
    (VerifyEntrypointSignature_ok signature layout h)
  constructor
  · rw [h1]
    simp only [List.nil_append, FunctionType.getNumResults, Nat.zero_add]
  · rw [h2]
    simp only [Nat.zero_add]

/-- A result type is of an asynchronous class exactly when it is an async token
or an async value of a memref. -/
theorem classifyResult_isAsync (t : MlirType) :
    (classifyResult t).any ResultClass.isAsync = true ↔
      t = .asyncToken ∨ ∃ m : MemRefType, t = .asyncValue (.memref m) := by
  cases t with
  | memref m => simp [classifyResult, ResultClass.isAsync]
  | asyncToken => simp [classifyResult, ResultClass.isAsync]
  | scalar e => simp [classifyResult]
  | tensor shape e => simp [classifyResult]
  | asyncValue v =>
    cases v <;> simp [classifyResult, ResultClass.isAsync]

/-- C19: for every accepted signature, the flag `has_async_results` of the
layout, and therefore `IsAsync()` of a compilation result that holds the
layout, is true if and only if at least one declared result is an async token
or an async value of a memref; a signature whose results are all plain memrefs
(or that has no results) is not async. -/
theorem VerifyEntrypointSignature_has_async_results (signature : FunctionType)
    (layout : ResultsMemoryLayout)
    (h : CompilationResult.VerifyEntrypointSignature signature = .ok layout) :
    (layout.has_async_results = true ↔
        ∃ t ∈ signature.results, t = .asyncToken ∨ ∃ m : MemRefType, t = .asyncValue (.memref m)) ∧
      (∀ cr : CompilationResult, cr.results_memory_layout_ = layout →
        (cr.IsAsync = true ↔
          ∃ t ∈ signature.results,
            t = .asyncToken ∨ ∃ m : MemRefType, t = .asyncValue (.memref m))) ∧
      ((∀ t ∈ signature.results, ∃ m : MemRefType, t = .memref m) →
        layout.has_async_results = false) := by
  obtain ⟨-, -, h3⟩ := verifyResults_ok signature.results 0 ⟨false, 0, []⟩ layout rfl
    (VerifyEntrypointSignature_ok signature layout h)
  have key : layout.has_async_results = true ↔
      ∃ t ∈ signature.results,
        t = .asyncToken ∨ ∃ m : MemRefType, t = .asyncValue (.memref m) := by
    rw [h3]
    simp only [Bool.false_or, List.any_eq_true]
    constructor
    · rintro ⟨t, ht, hc⟩
      exact ⟨t, ht, (classifyResult_isAsync t).mp hc⟩
    · rintro ⟨t, ht, hc⟩
      exact ⟨t, ht, (classifyResult_isAsync t).mpr hc⟩
  refine ⟨key, ?_, ?_⟩
  · intro cr hcr
    unfold CompilationResult.IsAsync
    rw [hcr]
    exact key
  · intro hall
    cases hb : layout.has_async_results with
    | false => rfl
    | true =>
      obtain ⟨t, ht, hc⟩ := key.mp hb
      obtain ⟨m, rfl⟩ := hall t ht
      rcases hc with hc | ⟨m1, hc⟩ <;> simp at hc

/-- Witness of C19: the signature with plain memref results only is accepted
with a layout whose flag is false; the signature with an async token result is
accepted with a layout whose flag is true. -/
theorem VerifyEntrypointSignature_has_async_results_witness :
    CompilationResult.VerifyEntrypointSignature examplePlainSignature =
        .ok ⟨false, 112, [0, 56]⟩ ∧
      (⟨false, 112, [0, 56]⟩ : ResultsMemoryLayout).has_async_results = false ∧
      CompilationResult.VerifyEntrypointSignature exampleThreeResultSignature =
        .ok ⟨true, 72, [0, 56, 64]⟩ ∧
      (∃ t ∈ exampleThreeResultSignature.results,
        t = .asyncToken ∨ ∃ m : MemRefType, t = .asyncValue (.memref m)) :=
  ⟨rfl,
    (VerifyEntrypointSignature_has_async_results examplePlainSignature ⟨false, 112, [0, 56]⟩
      rfl).2.2 (by
        intro t ht
        simp only [examplePlainSignature, List.mem_cons, List.mem_singleton, List.not_mem_nil,
          or_false, or_self] at ht
        exact ⟨memref_4x4xf32, ht⟩),
    rfl,
    (VerifyEntrypointSignature_has_async_results exampleThreeResultSignature
      ⟨true, 72, [0, 56, 64]⟩ rfl).1.mp rfl⟩

/-! ## The call frame -/

/-- An error of the operand check names the first operand that its input type
rejects: every operand before it is accepted. -/
theorem verifyOperands_error :
    ∀ (inputs : List MlirType) (operands : List MemrefDesc) (i0 : Nat) (err : String),
      verifyOperands inputs operands i0 = some err →
        ∃ (k : Nat) (input : MlirType) (operand : MemrefDesc) (detail : String),
          inputs[k]? = some input ∧ operands[k]? = some operand ∧
            (∀ m : MemRefType, input = .memref m → VerifyMemrefOperand m operand ≠ none) ∧
            (∀ (j : Nat) (inputj : MlirType) (operandj : MemrefDesc), j < k →
              inputs[j]? = some inputj → operands[j]? = some operandj →
                ∃ m : MemRefType, inputj = .memref m ∧ VerifyMemrefOperand m operandj = none) ∧
            err = "operand #" ++ toString (i0 + k) ++ detail := by
  intro inputs
  induction inputs with
  | nil => intro operands i0 err h; simp [verifyOperands] at h
  | cons input inputs ih =>
    intro operands i0 err h
    cases operands with
    | nil => simp [verifyOperands] at h
    | cons operand operands =>
      unfold verifyOperands at h
      cases hm : input.dyn_cast_MemRefType with
      | none =>
        simp only [hm, Option.some.injEq] at h
        refine ⟨0, input, operand, " is not a memref: " ++ input.print, by simp, by simp, ?_,
          fun j _ _ hj => absurd hj (by omega), ?_⟩
        · intro m hin
          subst hin
          simp [MlirType.dyn_cast_MemRefType] at hm
        · rw [← h]
          simp [String.append_assoc]
      | some type =>
        have hin : input = .memref type := by
          cases input <;> simp [MlirType.dyn_cast_MemRefType] at hm
          rw [hm]
        simp only [hm] at h
        cases hv : VerifyMemrefOperand type operand with
        | some e =>
          simp only [hv, Option.some.injEq] at h
          refine ⟨0, input, operand, ": " ++ e, by simp, by simp, ?_,
            fun j _ _ hj => absurd hj (by omega), ?_⟩
          · intro m hin1
            rw [hin] at hin1
            simp only [MlirType.memref.injEq] at hin1
            subst hin1
            simp [hv]
          · rw [← h]
            simp [String.append_assoc]
        | none =>
          simp only [hv] at h
          obtain ⟨k, inputk, operandk, detail, h1, h2, h3, h4, h5⟩ := ih operands (i0 + 1) err h
          refine ⟨k + 1, inputk, operandk, detail, by simpa using h1, by simpa using h2, h3, ?_,
            ?_⟩
          · intro j inputj operandj hj hij hoj
            cases j with
            | zero =>
              simp only [List.getElem?_cons_zero, Option.some.injEq] at hij hoj
              subst hij; subst hoj
              exact ⟨type, hin, hv⟩
            | succ j =>
              exact h4 j inputj operandj (by omega) (by simpa using hij) (by simpa using hoj)
          · rw [h5]
            congr 3
            omega

/-- The operand check succeeds when every operand is accepted by its input
type. -/
theorem verifyOperands_none :
    ∀ (inputs : List MlirType) (operands : List MemrefDesc) (i0 : Nat),
      (∀ (k : Nat) (input : MlirType) (operand : MemrefDesc),
        inputs[k]? = some input → operands[k]? = some operand →
          ∃ m : MemRefType, input = .memref m ∧ VerifyMemrefOperand m operand = none) →
        verifyOperands inputs operands i0 = none := by
  intro inputs
  induction inputs with
  | nil => intro operands i0 _; simp [verifyOperands]
  | cons input inputs ih =>
    intro operands i0 h
    cases operands with
    | nil => simp [verifyOperands]
    | cons operand operands =>
      obtain ⟨m, rfl, hv⟩ := h 0 input operand (by simp) (by simp)
      unfold verifyOperands
      simp only [MlirType.dyn_cast_MemRefType, hv]
      exact ih operands (i0 + 1) (fun k inputk operandk hi ho =>
        h (k + 1) inputk operandk (by simpa using hi) (by simpa using ho))

/-- C20: for every operand sequence accepted by `InitializeCallFrame`, the
result storage of the call frame has exactly `layout.size` bytes, all zero, and
`args` consists of the slots of each operand in operand order (base pointer,
offset, one entry per size, one entry per stride) followed by one output slot
per offset of the layout, slot `i` pointing at `results + offsets[i]`, which for
a layout computed by `VerifyEntrypointSignature` is exactly one slot per
declared result; an operand sequence of the right length whose operands are
all accepted by their input types is accepted; and when an operand is rejected
the result is an error and no frame, the error naming the first offending
operand. -/
theorem InitializeCallFrame_frame (cr : CompilationResult) (operands : List MemrefDesc) :
    (∀ frame : CallFrame, cr.InitializeCallFrame operands = .ok frame →
      operands.length = cr.signature_.getNumInputs ∧
        frame.results.length = cr.results_memory_layout_.size ∧
        (∀ b ∈ frame.results, b = 0) ∧
        frame.args =
          (operands.map (fun d =>
            [ArgSlot.pointer d.data, ArgSlot.integer d.offset] ++ d.sizes.map ArgSlot.integer ++
              d.strides.map ArgSlot.integer)).flatten ++
            cr.results_memory_layout_.offsets.map ArgSlot.result ∧
        (CompilationResult.VerifyEntrypointSignature cr.signature_ =
            .ok cr.results_memory_layout_ →
          cr.results_memory_layout_.offsets.length = cr.signature_.getNumResults ∧
            frame.args.drop (operands.map packMemref).flatten.length =
              (List.range cr.signature_.getNumResults).map
                (fun i => ArgSlot.result
                  ((cr.signature_.results.take i).map resultStorageSize).sum))) ∧
      (operands.length = cr.signature_.getNumInputs →
        (∀ (k : Nat) (input : MlirType) (operand : MemrefDesc),
          cr.signature_.inputs[k]? = some input → operands[k]? = some operand →
            ∃ m : MemRefType, input = .memref m ∧ VerifyMemrefOperand m operand = none) →
          ∃ frame, cr.InitializeCallFrame operands = .ok frame) ∧
      (∀ err : String, cr.InitializeCallFrame operands = .error err →
        operands.length = cr.signature_.getNumInputs →
          ∃ (k : Nat) (input : MlirType) (operand : MemrefDesc) (detail : String),
            cr.signature_.inputs[k]? = some input ∧ operands[k]? = some operand ∧
              (∀ m : MemRefType, input = .memref m → VerifyMemrefOperand m operand ≠ none) ∧
              (∀ (j : Nat) (inputj : MlirType) (operandj : MemrefDesc), j < k →
                cr.signature_.inputs[j]? = some inputj → operands[j]? = some operandj →
                  ∃ m : MemRefType,
                    inputj = .memref m ∧ VerifyMemrefOperand m operandj = none) ∧
              err = "operand #" ++ toString k ++ detail) := by
  refine ⟨?_, ?_, ?_⟩
  · intro frame h
    unfold CompilationResult.InitializeCallFrame at h
    by_cases hlen : operands.length = cr.signature_.getNumInputs
    · simp only [hlen, ne_eq, not_true_eq_false, if_false] at h
      cases hv : verifyOperands cr.signature_.inputs operands 0 with
      | some err => simp [hv] at h
      | none =>
        simp only [hv, Except.ok.injEq] at h
        subst h
        refine ⟨hlen, by simp, ?_, rfl, ?_⟩
        · intro b hb
          exact List.eq_of_mem_replicate hb
        · intro hlayout
          have hl := VerifyEntrypointSignature_offsets cr.signature_
            cr.results_memory_layout_ hlayout
          refine ⟨by rw [hl.1]; simp, ?_⟩
          simp only [List.drop_left]
          rw [hl.1, List.map_map]
          rfl
    · simp [hlen] at h
  · intro hlen hall
    unfold CompilationResult.InitializeCallFrame
    simp only [hlen, ne_eq, not_true_eq_false, if_false]
    rw [verifyOperands_none cr.signature_.inputs operands 0 hall]
    exact ⟨_, rfl⟩
  · intro err h hlen
    unfold CompilationResult.InitializeCallFrame at h
    simp only [hlen, ne_eq, not_true_eq_false, if_false] at h
    cases hv : verifyOperands cr.signature_.inputs operands 0 with
    | none => simp [hv] at h
    | some e =>
      simp only [hv, Except.error.injEq] at h
      subst h
      obtain ⟨k, input, operand, detail, h1, h2, h3, h4, h5⟩ :=
        verifyOperands_error cr.signature_.inputs operands 0 e hv
      exact ⟨k, input, operand, detail, h1, h2, h3, h4, by simpa using h5⟩

/-- Witness of C20: two 4x4 descriptors against
`(memref<4x4xf32>, memref<4x4xf32>) -> !async.token` give the example call
frame; a 4x4 and a 7x4 descriptor are rejected with an error naming operand
1. -/
theorem InitializeCallFrame_frame_witness :
    exampleCompilationResult.InitializeCallFrame [exampleMemrefDesc, exampleMemrefDesc] =
        .ok exampleCallFrame ∧
      exampleCallFrame.results.length = exampleCompilationResult.results_memory_layout_.size ∧
      (∀ b ∈ exampleCallFrame.results, b = 0) ∧
      exampleCompilationResult.InitializeCallFrame [exampleMemrefDesc, exampleMemrefDesc7x4] =
        .error
          "operand #1: operand dimensions do not match the expected input type: memref<4x4xf32>" ∧
      ∃ (k : Nat) (detail : String),
        "operand #1: operand dimensions do not match the expected input type: memref<4x4xf32>" =
          "operand #" ++ toString k ++ detail :=
  ⟨rfl,
    ((InitializeCallFrame_frame exampleCompilationResult [exampleMemrefDesc, exampleMemrefDesc]).1
      exampleCallFrame rfl).2.1,
    ((InitializeCallFrame_frame exampleCompilationResult [exampleMemrefDesc, exampleMemrefDesc]).1
      exampleCallFrame rfl).2.2.1,
    rfl,
    match (InitializeCallFrame_frame exampleCompilationResult
      [exampleMemrefDesc, exampleMemrefDesc7x4]).2.2 _ rfl rfl with
    | ⟨k, _, _, detail, _, _, _, _, h⟩ => ⟨k, detail, h⟩⟩

/-! ## Round trip of a descriptor -/

/-- Counterexample to C22 as stated: with an execution context that is already
cancelled, the `Compile` kernel calls the compiler and inserts the artifact in
the cache, and the `cpurt.execute` kernel invokes the native function. -/
theorem kernels_cancellation_counterexample :
    exampleCancelledContext.IsCancelled = true ∧
      (Compile exampleCompiler exampleHost exampleKernelA exampleCancelledContext
        exampleCompileState).2.compiler_calls.length = 1 ∧
      ((Compile exampleCompiler exampleHost exampleKernelA exampleCancelledContext
        exampleCompileState).2.resource_context.map (fun cache => cache.cache_.length)) =
        some 1 ∧
      (Execute (specLibrary viewMemory) exampleCompilationResult [tensor_4x4, tensor_4x4]
        exampleKernelState exampleCancelledContext).map
        (fun s => s.host.native_calls.length) = some 1 := by
  refine ⟨by decide, by decide, by decide, by decide⟩

/-- C22 (as amended): the kernels do not read the cancellation flag. `Compile`
called with an execution context of the same location returns the same async
value and leaves the same state whatever the request context (cancelled or
not) is; the `cpurt.execute` kernel only hands the execution context on, so
its outcome is the same for every request context whenever that of
`CompilationResult::Execute` is; and `CompilationResult::Execute` as modelled
from the spec does not read the flag either. -/
theorem kernels_ignore_cancellation (location : Int) (request_ctx request_ctx2 : RequestContext) :
    (∀ (compile : String → String → CompilationOptions → Except String CompilationResult)
        (host : HostContext) (kernel : CompilationUnitAttribute) (s : CompileState),
      Compile compile host kernel ⟨request_ctx, location⟩ s =
        Compile compile host kernel ⟨request_ctx2, location⟩ s) ∧
      (∀ {ρ π τ : Type} (lib : CpurtLibrary ρ π τ) (cr : CompilationResult)
          (operands : List τ) (s : KernelState ρ π τ),
        (∀ memrefs converter host,
          lib.Execute cr memrefs converter ⟨request_ctx, location⟩ host =
            lib.Execute cr memrefs converter ⟨request_ctx2, location⟩ host) →
          Execute lib cr operands s ⟨request_ctx, location⟩ =
            Execute lib cr operands s ⟨request_ctx2, location⟩) ∧
      (∀ {ρ π : Type} (mem : Memory π) (cr : CompilationResult) (memrefs : List MemrefDesc)
          (converter : ReturnValueConverter ρ π) (host : HostState ρ π),
        cr.Execute mem memrefs converter ⟨request_ctx, location⟩ host =
          cr.Execute mem memrefs converter ⟨request_ctx2, location⟩ host) := by
  refine ⟨fun _ _ _ _ => rfl, ?_, fun _ _ _ _ _ => rfl⟩
  intro ρ π τ lib cr operands s hexec
  unfold Execute
  cases hconv : ConvertTensorOperandsToMemrefDesc lib cr.signature operands with
  | none => rfl
  | some r =>
    cases r with
    | error err => rfl
    | ok memrefs =>
      simp only
      rw [hexec]

/-- Witness of C22 (as amended): the support library as modelled passes the
condition, so the `cpurt.execute` kernel gives the same outcome with a
cancelled and with a fresh request context. -/
theorem kernels_ignore_cancellation_witness :
    (∀ memrefs converter host,
      (specLibrary viewMemory).Execute exampleCompilationResult memrefs converter
          ⟨⟨some "cancelled"⟩, 7⟩ host =
        (specLibrary viewMemory).Execute exampleCompilationResult memrefs converter
          ⟨RequestContext.create, 7⟩ host) ∧
      Execute (specLibrary viewMemory) exampleCompilationResult [tensor_4x4, tensor_4x4]
          exampleKernelState ⟨⟨some "cancelled"⟩, 7⟩ =
        Execute (specLibrary viewMemory) exampleCompilationResult [tensor_4x4, tensor_4x4]
          exampleKernelState ⟨RequestContext.create, 7⟩ :=
  ⟨fun _ _ _ => rfl,
    (kernels_ignore_cancellation 7 ⟨some "cancelled"⟩ RequestContext.create).2.1
      (specLibrary viewMemory) exampleCompilationResult [tensor_4x4, tensor_4x4]
      exampleKernelState (fun _ _ _ => rfl)⟩

/-! ## Keeping the operands alive -/

/-- A continuation that waits for the first `n` values may run exactly when
each of them is set and available. -/
theorem readyToRun_range {ρ : Type} (results : RemainingResults ρ) (n : Nat) :
    readyToRun results (List.range n) = true ↔
      ∀ j : Nat, j < n → ∃ value : AsyncValue ρ,
        results.getD j none = some value ∧ value.IsAvailable = true := by
  unfold readyToRun
  rw [List.all_eq_true]
  constructor
  · intro h j hj
    have := h j (List.mem_range.mpr hj)
    cases hv : results.getD j none with
    | none =>
      rw [hv] at this
      exact absurd this (by simp)
    | some value =>
      rw [hv] at this
      exact ⟨value, rfl, this⟩
  · intro h j hj
    obtain ⟨value, hv, ha⟩ := h j (List.mem_range.mp hj)
    rw [hv]
    exact ha

/-- C23: in the `cpurt.execute` kernel, when the operands convert and
`CompilationResult::Execute` returns success, exactly one continuation is
registered with `RunWhenReady`; it captures all the operands of the call and
waits for all the results of the call, so that it may run exactly when every
result is set and available; when `CompilationResult::Execute` returns an
error no continuation is registered. -/
theorem Execute_keeps_operands_alive {ρ π τ : Type} (lib : CpurtLibrary ρ π τ)
    (cr : CompilationResult) (operands : List τ) (s : KernelState ρ π τ)
    (exec_ctx : ExecutionContext) (memrefs : List MemrefDesc)
    (hconv : ConvertTensorOperandsToMemrefDesc lib cr.signature operands = some (.ok memrefs)) :
    (∀ host : HostState ρ π,
      lib.Execute cr memrefs
          ⟨[lib.ReturnAsyncMemrefAsDenseHostTensor, lib.ReturnAsyncToken]⟩ exec_ctx s.host =
          some (none, host) →
        Execute lib cr operands s exec_ctx =
            some ⟨host,
              s.run_when_ready ++ [(List.range host.results.length, operands)]⟩ ∧
          ∀ later : RemainingResults ρ,
            (readyToRun later (List.range host.results.length) = true ↔
              ∀ j : Nat, j < host.results.length → ∃ value : AsyncValue ρ,
                later.getD j none = some value ∧ value.IsAvailable = true)) ∧
      (∀ (err : String) (host : HostState ρ π),
        lib.Execute cr memrefs
            ⟨[lib.ReturnAsyncMemrefAsDenseHostTensor, lib.ReturnAsyncToken]⟩ exec_ctx s.host =
            some (some err, host) →
          Execute lib cr operands s exec_ctx = some ⟨host, s.run_when_ready⟩) := by
  constructor
  · intro host h
    refine ⟨?_, fun later => readyToRun_range later host.results.length⟩
    unfold Execute
    rw [hconv]
    simp only [ReturnValueConverter.new, ReturnValueConverter.AddConversion, List.nil_append,
      List.cons_append, h]
  · intro err host h
    unfold Execute
    rw [hconv]
    simp only [ReturnValueConverter.new, ReturnValueConverter.AddConversion, List.nil_append,
      List.cons_append, h]

/-- Witness of C23: two 4x4 operands against the example kernel: the call
succeeds and registers one continuation, waiting for result 0 and holding both
operands. -/
theorem Execute_keeps_operands_alive_witness :
    ConvertTensorOperandsToMemrefDesc (specLibrary viewMemory) exampleCompilationResult.signature
        [tensor_4x4, tensor_4x4] = some (.ok [exampleMemrefDesc, exampleMemrefDesc]) ∧
      (Execute (specLibrary viewMemory) exampleCompilationResult [tensor_4x4, tensor_4x4]
          exampleKernelState exampleContext).map (fun s => s.run_when_ready) =
        some [([0], [tensor_4x4, tensor_4x4])] :=
  ⟨rfl,
    match h : (specLibrary viewMemory).Execute exampleCompilationResult
        [exampleMemrefDesc, exampleMemrefDesc]
        ⟨[(specLibrary viewMemory).ReturnAsyncMemrefAsDenseHostTensor,
          (specLibrary viewMemory).ReturnAsyncToken]⟩ exampleContext exampleKernelState.host with
    | some (none, host) =>
      (congrArg (Option.map (fun s => s.run_when_ready))
        (((Execute_keeps_operands_alive (specLibrary viewMemory) exampleCompilationResult
          [tensor_4x4, tensor_4x4] exampleKernelState exampleContext
          [exampleMemrefDesc, exampleMemrefDesc] rfl).1 host h).1)).trans (by
            have hl : host.results.length = 1 := by
              have h2 := congrArg (Option.map (fun o => o.2.results.length)) h
              have h3 : Option.map (fun o => o.2.results.length)
                  ((specLibrary viewMemory).Execute exampleCompilationResult
                    [exampleMemrefDesc, exampleMemrefDesc]
                    ⟨[(specLibrary viewMemory).ReturnAsyncMemrefAsDenseHostTensor,
                      (specLibrary viewMemory).ReturnAsyncToken]⟩ exampleContext
                    exampleKernelState.host) = some 1 := by decide
              rw [h3] at h2
              simpa using h2.symm
            simp [hl, exampleKernelState, List.range_succ])
    | some (some _, _) => absurd h (by
        intro h
        have h2 := congrArg (Option.map (fun o => o.1.isSome)) h
        have h3 : Option.map (fun o => o.1.isSome)
            ((specLibrary viewMemory).Execute exampleCompilationResult
              [exampleMemrefDesc, exampleMemrefDesc]
              ⟨[(specLibrary viewMemory).ReturnAsyncMemrefAsDenseHostTensor,
                (specLibrary viewMemory).ReturnAsyncToken]⟩ exampleContext
              exampleKernelState.host) = some false := by decide
        rw [h3] at h2
        simp at h2)
    | none => absurd h (by
        intro h
        have h2 := congrArg Option.isSome h
        have h3 : Option.isSome
            ((specLibrary viewMemory).Execute exampleCompilationResult
              [exampleMemrefDesc, exampleMemrefDesc]
              ⟨[(specLibrary viewMemory).ReturnAsyncMemrefAsDenseHostTensor,
                (specLibrary viewMemory).ReturnAsyncToken]⟩ exampleContext
              exampleKernelState.host) = true := by decide
        rw [h3] at h2
        simp at h2)⟩

/-! ## The cancellation flag -/

/-- C24: `RequestContext::IsCancelled()` returns true if and only if
`GetCancelAsyncValue()` is not null, and `ExecutionContext::IsCancelled()`,
which delegates to it, likewise; a freshly constructed `RequestContext` has a
null cancel value and is not cancelled. Both are functions of the context
alone and return nothing but the flag, so reading changes no state. -/
theorem IsCancelled_iff (r : RequestContext) (e : ExecutionContext) :
    (r.IsCancelled = true ↔ r.GetCancelAsyncValue ≠ none) ∧
      e.IsCancelled = e.request_ctx_.IsCancelled ∧
      (e.IsCancelled = true ↔ e.GetCancelAsyncValue ≠ none) ∧
      e.GetCancelAsyncValue = e.request_ctx_.GetCancelAsyncValue ∧
      RequestContext.create.GetCancelAsyncValue = none ∧
      RequestContext.create.IsCancelled = false ∧
      (∀ location : Int, (ExecutionContext.mk RequestContext.create location).IsCancelled = false) := by
  refine ⟨?_, rfl, ?_, rfl, rfl, rfl, fun _ => rfl⟩
  · unfold RequestContext.IsCancelled
    cases r.GetCancelAsyncValue <;> simp
  · unfold ExecutionContext.IsCancelled ExecutionContext.GetCancelAsyncValue
      RequestContext.IsCancelled
    cases e.request_ctx_.GetCancelAsyncValue <;> simp

/-- Witness of C24: the cancelled example context is cancelled and its cancel
value is not null. -/
theorem IsCancelled_iff_witness :
    exampleCancelledContext.IsCancelled = true ∧
      exampleCancelledContext.GetCancelAsyncValue ≠ none :=
  ⟨by decide,
    (IsCancelled_iff RequestContext.create exampleCancelledContext).2.2.1.mp (by decide)⟩

/-! ## Reads of the signature by the operand conversion -/

/-- The conversion loop fails its bounds assertion when it reaches an operand
position at or beyond the number of inputs, the operands before it having
converted. -/
theorem ConvertTensorOperandsToMemrefDesc.loop_out_of_range {ρ π τ : Type}
    (lib : CpurtLibrary ρ π τ) (signature : FunctionType) :
    ∀ (operands : List τ) (i0 : Nat) (acc : List MemrefDesc),
      i0 ≤ signature.getNumInputs → signature.getNumInputs < i0 + operands.length →
        (∀ (j : Nat) (operand : τ), i0 + j < signature.getNumInputs →
          operands[j]? = some operand →
            ∃ (m : MemRefType) (d : MemrefDesc),
              signature.getInput (i0 + j) = some (.memref m) ∧
                lib.ConvertTensorToMemrefDesc m operand = .ok d) →
          ConvertTensorOperandsToMemrefDesc.loop lib signature operands i0 acc = none := by
  intro operands
  induction operands with
  | nil =>
    intro i0 acc h1 h2 _
    simp at h2
    omega
  | cons operand operands ih =>
    intro i0 acc h1 h2 hall
    unfold ConvertTensorOperandsToMemrefDesc.loop
    by_cases hi : i0 < signature.getNumInputs
    · obtain ⟨m, d, hm, hd⟩ := hall 0 operand (by omega) (by simp)
      simp only [Nat.add_zero] at hm
      rw [hm]
      simp only [MlirType.dyn_cast_MemRefType, hd]
      apply ih (i0 + 1) _ (by omega) (by simp at h2; omega)
      intro j op hj hop
      obtain ⟨m1, d1, hm1, hd1⟩ := hall (j + 1) op (by omega) (by simpa using hop)
      refine ⟨m1, d1, ?_, hd1⟩
      rw [← hm1]; congr 1; omega
    · have hnone : signature.getInput i0 = none := by
        unfold FunctionType.getInput
        rw [List.get?_eq_none]
        unfold FunctionType.getNumInputs at hi
        omega
      rw [hnone]

/-- C25 (evaluation at the failing input): three convertible operands against
the two-input signature `(memref<4x4xf32>, memref<4x4xf32>)`. The loop of
`ConvertTensorOperandsToMemrefDesc` runs over the operands, converts operands
0 and 1 and then evaluates `signature.getInput(2)`, an index that is not below
the number of inputs: the bounds assertion fails and the conversion returns
neither an error nor descriptors. -/
theorem ConvertTensorOperandsToMemrefDesc_reads_out_of_range :
    exampleCompilationResult.signature.getNumInputs = 2 ∧
      exampleCompilationResult.signature.getInput 2 = none ∧
      ConvertTensorOperandsToMemrefDesc (specLibrary viewMemory)
        exampleCompilationResult.signature [tensor_4x4, tensor_4x4] =
        some (.ok [exampleMemrefDesc, exampleMemrefDesc]) ∧
      ConvertTensorOperandsToMemrefDesc (specLibrary viewMemory)
        exampleCompilationResult.signature [tensor_4x4, tensor_4x4, tensor_4x4] = none ∧
      Execute (specLibrary viewMemory) exampleCompilationResult
        [tensor_4x4, tensor_4x4, tensor_4x4] exampleKernelState exampleContext = none := by
  refine ⟨rfl, rfl, rfl, rfl, rfl⟩

/-! ## Order of the element type and rank checks -/

/-- The unsupported-element-type message is never an unsupported-rank
message. -/
theorem element_type_message_ne_rank_message (a b : String) :
    "unsupported returned memref element type: " ++ a ≠
      "unsupported returned memref rank: " ++ b := by
  intro h
  have h1 := congrArg String.data h
  simp only [String.data_append] at h1
  simp at h1

/-- C26: in both `ReturnStridedMemref` and `ReturnAsyncStridedMemref` the
element type is examined before the rank: for every memref whose element type
is not f32 and whose rank is greater than 5, the whole effect of either rule is
one `EmitErrorAt` of the unsupported-element-type error at the result index (no
placeholder, no continuation), the slot holds that error, and the error is not
the unsupported-rank error, which is what the same memref with element type
f32 is resolved to. -/
theorem element_type_checked_before_rank {ρ π : Type} (C : Converter ρ π) (load : π → π)
    (s : HostState ρ π) (i : Nat) (m : MemRefType) (ptr : π)
    (hf : m.elementType ≠ .f32) (hr : 5 < m.getRank) :
    ReturnStridedMemref C s.results i (.memref m) ptr =
        (.success, EmitErrorAt s.results i
          ("unsupported returned memref element type: " ++ m.elementType.print)) ∧
      ReturnAsyncStridedMemref C load s i (.asyncValue (.memref m)) ptr =
        some (.success,
          { results := EmitErrorAt s.results i
              ("unsupported returned memref element type: " ++ m.elementType.print)
            continuations := s.continuations
            native_calls := s.native_calls }) ∧
      (i < s.results.length →
        (EmitErrorAt s.results i
            ("unsupported returned memref element type: " ++ m.elementType.print))[i]? =
          some (some (.error
            ("unsupported returned memref element type: " ++ m.elementType.print)))) ∧
      "unsupported returned memref element type: " ++ m.elementType.print ≠
        "unsupported returned memref rank: " ++ toString m.getRank ∧
      ReturnStridedMemref C s.results i (.memref { m with elementType := .f32 }) ptr =
        (.success, EmitErrorAt s.results i
          ("unsupported returned memref rank: " ++ toString m.getRank)) := by
  have hp := ReturnStridedMemref_memref C s.results i m ptr
  have ha := ReturnAsyncStridedMemref_memref C load s i m ptr
  simp only [hf, if_false] at hp ha
  refine ⟨hp, ha, ?_, element_type_message_ne_rank_message _ _, ?_⟩
  · intro hi
    simp [EmitErrorAt, hi]
  · have hq := ReturnStridedMemref_memref C s.results i { m with elementType := .f32 } ptr
    have hr5 : ¬ ({ m with elementType := ElementType.f32 } : MemRefType).getRank ≤ 5 := by
      show ¬ m.getRank ≤ 5
      omega
    simp only [hr5, if_true, if_false] at hq
    exact hq

/-- Witness of C26 on a rank 7 memref of f64: both rules resolve slot 0 to
"unsupported returned memref element type: f64". -/
theorem element_type_checked_before_rank_witness :
    memref_rank7_f64.elementType ≠ .f32 ∧ 5 < memref_rank7_f64.getRank ∧
      (ReturnStridedMemref exampleConverter exampleState.results 0 (.memref memref_rank7_f64)
        ([], 0)).2 =
        [some (.error "unsupported returned memref element type: f64"),
          some (.concrete .chain)] ∧
      (ReturnAsyncStridedMemref exampleConverter viewMemory.load exampleState 0
        (.asyncValue (.memref memref_rank7_f64)) ([], 0)).map (fun o => o.2.results) =
        some [some (.error "unsupported returned memref element type: f64"),
          some (.concrete .chain)] :=
  ⟨by decide, by decide,
    (congrArg Prod.snd
      (element_type_checked_before_rank exampleConverter viewMemory.load exampleState 0
        memref_rank7_f64 ([], 0) (by decide) (by decide)).1).trans (by decide),
    (congrArg (Option.map (fun o => o.2.results))
      (element_type_checked_before_rank exampleConverter viewMemory.load exampleState 0
        memref_rank7_f64 ([], 0) (by decide) (by decide)).2.1).trans (by decide)⟩

/-! ## The rules registered by the `cpurt.execute` kernel -/

/-- On a plain memref type the token rule and the async dense host tensor rule
of the support library both return failure and leave the state as it was. -/
theorem library_rules_not_applicable_to_memref {π : Type} (mem : Memory π)
    (hs : HostState HostValue π) (i : Nat) (m : MemRefType) (ptr : π) :
    ReturnAsyncToken mem hs i (.memref m) ptr = some (.failure, hs) ∧
      ReturnAsyncMemrefAsDenseHostTensor mem hs i (.memref m) ptr = some (.failure, hs) :=
  ⟨rfl, ReturnAsyncStridedMemref_not_value _ _ hs i (.memref m) ptr rfl⟩

/-- C27: when the operands convert, the `cpurt.execute` kernel runs the compiled
kernel with a converter that holds exactly two rules,
`ReturnAsyncMemrefAsDenseHostTensor` registered first and `ReturnAsyncToken`
registered second, so that the token rule (position 1) is tried before the
async memref rule (position 0). With the rules of the support library neither
is applicable to a plain memref type: each returns failure and leaves the state
as it was, the async memref rule doing so on every type that is not an async
value type, and `ReturnValue` of the kernel's converter invokes both, fails and
resolves the slot to the unsupported-return-type error. -/
theorem Execute_converter_has_two_rules {π τ : Type} (mem : Memory π)
    (lib : CpurtLibrary HostValue π τ) (cr : CompilationResult) (operands : List τ)
    (s : KernelState HostValue π τ) (exec_ctx : ExecutionContext) (memrefs : List MemrefDesc)
    (hconv : ConvertTensorOperandsToMemrefDesc lib cr.signature operands = some (.ok memrefs))
    (hm : lib.ReturnAsyncMemrefAsDenseHostTensor = ReturnAsyncMemrefAsDenseHostTensor mem)
    (ht : lib.ReturnAsyncToken = ReturnAsyncToken mem) :
    Execute lib cr operands s exec_ctx =
        (match lib.Execute cr memrefs
            ⟨[ReturnAsyncMemrefAsDenseHostTensor mem, ReturnAsyncToken mem]⟩ exec_ctx s.host with
          | none => none
          | some (some _, host) => some { s with host := host }
          | some (none, host) =>
            some { host := host
                   run_when_ready :=
                     s.run_when_ready ++ [(List.range host.results.length, operands)] }) ∧
      [ReturnAsyncMemrefAsDenseHostTensor mem, ReturnAsyncToken mem].enum.reverse =
        [(1, ReturnAsyncToken mem), (0, ReturnAsyncMemrefAsDenseHostTensor mem)] ∧
      (∀ (hs : HostState HostValue π) (i : Nat) (m : MemRefType) (ptr : π),
        ReturnAsyncToken mem hs i (.memref m) ptr = some (.failure, hs) ∧
        ReturnAsyncMemrefAsDenseHostTensor mem hs i (.memref m) ptr = some (.failure, hs) ∧
        ReturnValueConverter.ReturnValue
            ⟨[ReturnAsyncMemrefAsDenseHostTensor mem, ReturnAsyncToken mem]⟩ hs i (.memref m) ptr =
          some ⟨.failure,
            { hs with results := (EmitErrorAt hs.results i
                ("unsupported return type: " ++ (MlirType.memref m).print)) },
            [1, 0]⟩) ∧
      (∀ (hs : HostState HostValue π) (i : Nat) (type : MlirType) (ptr : π),
        type.dyn_cast_ValueType = none →
          ReturnAsyncMemrefAsDenseHostTensor mem hs i type ptr = some (.failure, hs)) := by
  refine ⟨?_, rfl, ?_, ?_⟩
  · unfold Execute
    rw [hconv, hm, ht]
    simp only [ReturnValueConverter.new, ReturnValueConverter.AddConversion, List.nil_append,
      List.cons_append]
    cases lib.Execute cr memrefs
      ⟨[ReturnAsyncMemrefAsDenseHostTensor mem, ReturnAsyncToken mem]⟩ exec_ctx s.host with
    | none => rfl
    | some out =>
      obtain ⟨err, host⟩ := out
      cases err <;> rfl
  · intro hs i m ptr
    obtain ⟨h1, h2⟩ := library_rules_not_applicable_to_memref mem hs i m ptr
    refine ⟨h1, h2, ?_⟩
    have hall := tryConversions_all_fail_unchanged i (.memref m) ptr
      [(1, ReturnAsyncToken mem), (0, ReturnAsyncMemrefAsDenseHostTensor mem)] hs
      (by
        intro kr hkr s1
        simp only [List.mem_cons, List.mem_singleton, List.not_mem_nil, or_false] at hkr
        rcases hkr with rfl | rfl
        · exact (library_rules_not_applicable_to_memref mem s1 i m ptr).1
        · exact (library_rules_not_applicable_to_memref mem s1 i m ptr).2)
    unfold ReturnValueConverter.ReturnValue
    have he : [ReturnAsyncMemrefAsDenseHostTensor mem, ReturnAsyncToken mem].enum.reverse =
        [(1, ReturnAsyncToken mem), (0, ReturnAsyncMemrefAsDenseHostTensor mem)] := rfl
    simp only [he, hall]
    rfl
  · intro hs i type ptr h
    exact ReturnAsyncStridedMemref_not_value _ _ hs i type ptr h

/-- C27 at a concrete input: the kernel over the support library on `viewMemory`
with two 4x4 operands. -/
theorem Execute_converter_has_two_rules_witness :
    ConvertTensorOperandsToMemrefDesc (specLibrary viewMemory)
        exampleCompilationResult.signature [tensor_4x4, tensor_4x4] =
        some (.ok [exampleMemrefDesc, exampleMemrefDesc]) ∧
      ReturnValueConverter.ReturnValue exampleKernelConverter exampleState 0
          (.memref memref_4x4xf32) ([], 0) =
        some ⟨.failure,
          { exampleState with results := (EmitErrorAt exampleState.results 0
              ("unsupported return type: " ++ (MlirType.memref memref_4x4xf32).print)) },
          [1, 0]⟩ :=
  ⟨rfl,
    ((@Execute_converter_has_two_rules _ _ viewMemory (specLibrary viewMemory)
      exampleCompilationResult [tensor_4x4, tensor_4x4] exampleKernelState exampleContext
      [exampleMemrefDesc, exampleMemrefDesc] rfl rfl rfl).2.2.1 exampleState 0 memref_4x4xf32
      ([], 0)).2.2⟩

/-! ## Errors of the `cpurt.compile` kernel and the cache -/

/-- `Compile` on a compilation unit that does not have exactly one nested
symbol: the error is returned and the state is as it was. -/
theorem Compile_of_symbol_count
    (compile : String → String → CompilationOptions → Except String CompilationResult)
    (host : HostContext) (kernel : CompilationUnitAttribute) (exec_ctx : ExecutionContext)
    (s : CompileState) (h1 : kernel.nested_symbols.length ≠ 1) :
    Compile compile host kernel exec_ctx s =
      (.error "compiled kernel must be referenced by one nested symbol", s) := by
  unfold Compile
  rw [if_pos h1]

/-- `Compile` on a key that has no entry calls the compiler once, whatever the
compiler returns. -/
theorem Compile_of_Find_none_calls
    (compile : String → String → CompilationOptions → Except String CompilationResult)
    (host : HostContext) (kernel : CompilationUnitAttribute) (exec_ctx : ExecutionContext)
    (s : CompileState) (h1 : kernel.nested_symbols.length = 1)
    (hf : (GetOrCreateResource s.resource_context).Find exec_ctx.location = none) :
    (Compile compile host kernel exec_ctx s).2.compiler_calls =
      s.compiler_calls ++
        [(kernel.serialized_operation, kernel.nested_symbols.headD "",
          ⟨0, host.num_worker_threads⟩)] := by
  cases hc : compile kernel.serialized_operation (kernel.nested_symbols.headD "")
      ⟨0, host.num_worker_threads⟩ with
  | error err => rw [Compile_of_Find_none_error compile host kernel exec_ctx s err h1 hf hc]
  | ok cr => rw [Compile_of_Find_none_ok compile host kernel exec_ctx s cr h1 hf hc]

/-- C28: whenever `Compile` returns an error the entries of the cache are those
it had before the call. If the compilation unit does not have exactly one nested
symbol the error is returned with the state untouched (no lookup, no compiler
call). If the key has no entry and the error is returned, it is the error of the
compiler, which was called once; nothing was inserted, `Find` of the key is
still absent afterwards, and a later call with the same key calls the compiler
again. -/
theorem Compile_error_leaves_cache
    (compile : String → String → CompilationOptions → Except String CompilationResult)
    (host : HostContext) (kernel kernel2 : CompilationUnitAttribute)
    (exec_ctx ctx2 : ExecutionContext) (s : CompileState) (err : String)
    (h : (Compile compile host kernel exec_ctx s).1 = .error err) :
    (GetOrCreateResource (Compile compile host kernel exec_ctx s).2.resource_context).cache_ =
        (GetOrCreateResource s.resource_context).cache_ ∧
      (kernel.nested_symbols.length ≠ 1 →
        Compile compile host kernel exec_ctx s =
          (.error "compiled kernel must be referenced by one nested symbol", s)) ∧
      (kernel.nested_symbols.length = 1 →
        (GetOrCreateResource s.resource_context).Find exec_ctx.location = none →
          compile kernel.serialized_operation (kernel.nested_symbols.headD "")
              ⟨0, host.num_worker_threads⟩ = .error err ∧
            (Compile compile host kernel exec_ctx s).2.compiler_calls =
              s.compiler_calls ++
                [(kernel.serialized_operation, kernel.nested_symbols.headD "",
                  ⟨0, host.num_worker_threads⟩)] ∧
            (GetOrCreateResource
              (Compile compile host kernel exec_ctx s).2.resource_context).Find
                exec_ctx.location = none ∧
            (kernel2.nested_symbols.length = 1 → ctx2.location = exec_ctx.location →
              (Compile compile host kernel2 ctx2
                (Compile compile host kernel exec_ctx s).2).2.compiler_calls =
                s.compiler_calls ++
                  [(kernel.serialized_operation, kernel.nested_symbols.headD "",
                    ⟨0, host.num_worker_threads⟩),
                   (kernel2.serialized_operation, kernel2.nested_symbols.headD "",
                    ⟨0, host.num_worker_threads⟩)])) := by
  refine ⟨?_, Compile_of_symbol_count compile host kernel exec_ctx s, ?_⟩
  · by_cases h1 : kernel.nested_symbols.length = 1
    · cases hf : (GetOrCreateResource s.resource_context).Find exec_ctx.location with
      | some handle =>
        rw [Compile_of_Find_some compile host kernel exec_ctx s handle h1 hf]
        rfl
      | none =>
        cases hc : compile kernel.serialized_operation (kernel.nested_symbols.headD "")
            ⟨0, host.num_worker_threads⟩ with
        | error e =>
          rw [Compile_of_Find_none_error compile host kernel exec_ctx s e h1 hf hc]
          rfl
        | ok cr =>
          rw [Compile_of_Find_none_ok compile host kernel exec_ctx s cr h1 hf hc] at h
          cases h
    · rw [Compile_of_symbol_count compile host kernel exec_ctx s h1]
  · intro h1 hf
    cases hc : compile kernel.serialized_operation (kernel.nested_symbols.headD "")
        ⟨0, host.num_worker_threads⟩ with
    | ok cr =>
      rw [Compile_of_Find_none_ok compile host kernel exec_ctx s cr h1 hf hc] at h
      cases h
    | error e =>
      have hout := Compile_of_Find_none_error compile host kernel exec_ctx s e h1 hf hc
      have he : e = err := by
        rw [hout] at h
        simpa using h
      subst he
      have hf2 : (GetOrCreateResource
          (Compile compile host kernel exec_ctx s).2.resource_context).Find
            exec_ctx.location = none := by
        rw [hout]
        exact hf
      refine ⟨rfl, Compile_of_Find_none_calls compile host kernel exec_ctx s h1 hf, hf2, ?_⟩
      intro h2 hloc
      rw [Compile_of_Find_none_calls compile host kernel2 ctx2 _ h2 (by rw [hloc]; exact hf2),
        Compile_of_Find_none_calls compile host kernel exec_ctx s h1 hf, List.append_assoc]
      rfl

/-- C28 at a concrete input: the example compiler fails on the empty module;
called at location 7 on the state without a cache, then called again. -/
theorem Compile_error_leaves_cache_witness :
    (Compile exampleCompiler exampleHost exampleKernelEmpty exampleContextAt7
        exampleCompileState).1 = .error "failed to compile main" ∧
      (GetOrCreateResource (Compile exampleCompiler exampleHost exampleKernelEmpty
        exampleContextAt7 exampleCompileState).2.resource_context).cache_ = [] ∧
      (Compile exampleCompiler exampleHost exampleKernelEmpty exampleContextAt7
        (Compile exampleCompiler exampleHost exampleKernelEmpty exampleContextAt7
          exampleCompileState).2).2.compiler_calls =
        [("", "main", ⟨0, 4⟩), ("", "main", ⟨0, 4⟩)] :=
  ⟨rfl,
    (Compile_error_leaves_cache exampleCompiler exampleHost exampleKernelEmpty
      exampleKernelEmpty exampleContextAt7 exampleContextAt7 exampleCompileState
      "failed to compile main" rfl).1,
    ((Compile_error_leaves_cache exampleCompiler exampleHost exampleKernelEmpty
      exampleKernelEmpty exampleContextAt7 exampleContextAt7 exampleCompileState
      "failed to compile main" rfl).2.2 rfl rfl).2.2.2 rfl rfl⟩

/-! ## Platform dispatch of the DNN wrappers -/

/-- C29: `DnnConvolutionBackwardBias` does not return on the CUDA platform:
its CUDA case calls the function itself with the same arguments, so no bound on
the depth of the calls lets it return, and no cuDNN routine is reached. On ROCm
it returns `UnsupportedPlatform` and on every other platform `InvalidPlatform`,
both without a further call. -/
theorem DnnConvolutionBackwardBias_CUDA_never_returns :
    (∀ fuel : Nat, DnnConvolutionBackwardBias fuel .CUDA = none) ∧
      (∀ fuel : Nat,
        DnnConvolutionBackwardBias (fuel + 1) .ROCm = some (.UnsupportedPlatform .ROCm)) ∧
      (∀ (fuel value : Nat),
        DnnConvolutionBackwardBias (fuel + 1) (.other value) =
          some (.InvalidPlatform (.other value))) := by
  refine ⟨?_, fun _ => rfl, fun _ _ => rfl⟩
  intro fuel
  induction fuel with
  | zero => rfl
  | succ n ih =>
    rw [DnnConvolutionBackwardBias]
    exact ih

/-- The registry lists 42 wrappers under distinct names, and every name of
`rocm_wrappers` is the name of one of them. -/
theorem dnn_wrappers_names (fuel : Nat) :
    (dnn_wrappers fuel).length = 42 ∧ ((dnn_wrappers fuel).map Prod.fst).Nodup ∧
      ∀ name ∈ rocm_wrappers, name ∈ (dnn_wrappers fuel).map Prod.fst := by
  refine ⟨rfl, ?_, ?_⟩
  · simp only [dnn_wrappers, List.map_cons, List.map_nil]
    decide
  · simp only [dnn_wrappers, List.map_cons, List.map_nil]
    decide

/-- C30: every platform-dispatching wrapper of dnn_wrapper.cc, on a platform
that is neither CUDA nor ROCm, returns `InvalidPlatform` of that platform, which
is an outcome that calls no routine; and on ROCm every wrapper whose name is
not in `rocm_wrappers` returns `UnsupportedPlatform`, again calling no routine,
while each of the seven wrappers in `rocm_wrappers` passes control to one
routine. -/
theorem Dnn_wrappers_platform_dispatch (fuel : Nat) (platform : Platform) (name : String)
    (wrapper : Platform → Option DnnOutcome)
    (hw : (name, wrapper) ∈ dnn_wrappers (fuel + 1)) :
    (platform ≠ .CUDA → platform ≠ .ROCm →
        wrapper platform = some (.InvalidPlatform platform) ∧
          (DnnOutcome.InvalidPlatform platform).callsNothing = true) ∧
      (name ∉ rocm_wrappers →
        wrapper .ROCm = some (.UnsupportedPlatform .ROCm) ∧
          (DnnOutcome.UnsupportedPlatform .ROCm).callsNothing = true) ∧
      (name ∈ rocm_wrappers → ∃ routine, wrapper .ROCm = some (.calls [routine])) := by
  revert name wrapper
  have key : ∀ e ∈ dnn_wrappers (fuel + 1),
      (platform ≠ .CUDA → platform ≠ .ROCm → e.2 platform = some (.InvalidPlatform platform)) ∧
      (e.1 ∉ rocm_wrappers → e.2 .ROCm = some (.UnsupportedPlatform .ROCm)) ∧
      (e.1 ∈ rocm_wrappers → ∃ routine, e.2 .ROCm = some (.calls [routine])) := by
    simp only [dnn_wrappers, List.forall_mem_cons]
    refine ⟨?_, ?_, ?_, ?_, ?_, ?_, ?_, ?_, ?_, ?_, ?_, ?_, ?_, ?_, ?_, ?_, ?_, ?_, ?_, ?_, ?_,
      ?_, ?_, ?_, ?_, ?_, ?_, ?_, ?_, ?_, ?_, ?_, ?_, ?_, ?_, ?_, ?_, ?_, ?_, ?_, ?_, ?_, ?_⟩
    all_goals first
      | (intro e he; cases he)
      | (refine ⟨?_, ?_, ?_⟩
         · intro h1 h2
           cases platform with
           | CUDA => exact absurd rfl h1
           | ROCm => exact absurd rfl h2
           | other value => rfl
         · first
             | (intro _; rfl)
             | (intro h; exact absurd (by decide) h)
         · first
             | (intro _; exact ⟨_, rfl⟩)
             | (intro h; exact absurd h (by decide)))
  intro name wrapper hw
  obtain ⟨h1, h2, h3⟩ := key (name, wrapper) hw
  exact ⟨fun a b => ⟨h1 a b, rfl⟩, fun a => ⟨h2 a, rfl⟩, h3⟩

/-- C30 at concrete inputs: `DnnCreate` on the platform value 0 and on ROCm. -/
theorem Dnn_wrappers_platform_dispatch_witness :
    ("DnnCreate", fun platform => some (DnnCreate platform)) ∈ dnn_wrappers 1 ∧
      some (DnnCreate (.other 0)) = some (.InvalidPlatform (.other 0)) ∧
      some (DnnCreate .ROCm) = some (.UnsupportedPlatform .ROCm) :=
  ⟨List.mem_cons_of_mem _ (List.mem_cons_self _ _),
    ((Dnn_wrappers_platform_dispatch 0 (.other 0) "DnnCreate"
      (fun platform => some (DnnCreate platform))
      (List.mem_cons_of_mem _ (List.mem_cons_self _ _))).1
        (by decide) (by decide)).1,
    ((Dnn_wrappers_platform_dispatch 0 (.other 0) "DnnCreate"
      (fun platform => some (DnnCreate platform))
      (List.mem_cons_of_mem _ (List.mem_cons_self _ _))).2.1 (by decide)).1⟩

end Cpurt
